import Mathlib

/-!
Verification of the venvkit graph-synthesis core (mapRender.ts, taskCluster.ts,
runLog.ts types) against its natural-language specification.

The TypeScript source is shallowly embedded:
* JS `number` is modelled as `ℚ` (all arithmetic appearing in this core is
  exact on rationals); arithmetic is expressed through `mkRat`-based helpers
  (`qAdd`, `qMul`, `qLtB`, ...) so that every definition kernel-evaluates,
  with bridge lemmas to Mathlib's `ℚ` operations.
* JS strings are Lean `String`s; `toLowerCase`, `trim`, `replace(/\s+/g," ")`,
  `split`, `slice` are modelled character-wise (ASCII case folding, the code
  only manipulates ASCII metadata).
* JS `Map` / plain objects used as dictionaries are modelled as
  insertion-ordered association lists (`List (String × α)`), exactly the
  iteration semantics guaranteed by JS.
* `Array.prototype.sort` (stable since ES2019) is modelled by a stable
  insertion sort; a stable sort is uniquely determined by the comparator
  preorder, so this is behaviourally exact.
* The SHA-256 digest from `node:crypto` is external library code; it is
  modelled by `sha256Hex`, a deterministic pure stand-in producing 64 hex
  characters.  Where a claim depends on distinct keys receiving distinct
  digests (collision-freeness of the real hash), that is made an explicit
  hypothesis on the concrete ids.
* `os.platform()/arch()/hostname()` and the wall clock are ambient inputs:
  the platform/host values are fixed model constants (a POSIX host) and the
  wall-clock instant is an explicit `now : String` parameter of `mapRender`
  (the source reads it via `nowIso()`).
-/

/-! ## JS-number model: kernel-evaluable rational arithmetic -/

/-- Addition on `ℚ` via `mkRat` (kernel-reducible, unlike `Rat.add`). -/
def qAdd (a b : ℚ) : ℚ := mkRat (a.num * b.den + b.num * a.den) (a.den * b.den)

/-- Multiplication on `ℚ` via `mkRat`. -/
def qMul (a b : ℚ) : ℚ := mkRat (a.num * b.num) (a.den * b.den)

/-- Strict comparison on `ℚ` by cross-multiplication (denominators are positive). -/
def qLtB (a b : ℚ) : Bool := a.num * b.den < b.num * a.den

/-- Non-strict comparison on `ℚ` by cross-multiplication. -/
def qLeB (a b : ℚ) : Bool := a.num * b.den ≤ b.num * a.den

/-- Floor of a rational as an integer (kernel-reducible). -/
def qFloor (q : ℚ) : Int := q.num.fdiv q.den

/-- JS `Math.round` (= floor(x + 1/2); also the rounding used by `toFixed(0)`,
whose tie-break picks the larger candidate). -/
def jsRound (q : ℚ) : Int := qFloor (qAdd q (mkRat 1 2))

/-- Rendering of a JS number in template strings.  Every number rendered by
this core is integer-valued; non-integral values are given a `num/den`
rendering (a documented modelling simplification of JS float formatting). -/
def jsNumToString (q : ℚ) : String :=
  if q.den = 1 then q.num.repr else q.num.repr ++ "/" ++ (q.den : Int).repr

/-- JS `(x).toFixed(0)`. -/
def jsToFixed0 (q : ℚ) : String := (jsRound q).repr

/-! ## JS-string model -/

/-- JS `\s` for the whitespace handled by this code (space, tab, CR, LF, FF, VT). -/
def isWsChar (c : Char) : Bool :=
  c == ' ' || c == '\t' || c == '\n' || c == '\r' || c == '\x0b' || c == '\x0c'

/-- ASCII lower-casing of one character (JS `toLowerCase` on the ASCII
metadata this code manipulates). -/
def jsLower (c : Char) : Char :=
  if c.toNat ≥ 65 && c.toNat ≤ 90 then Char.ofNat (c.toNat + 32) else c

/-- JS `String.prototype.toLowerCase` (ASCII model). -/
def lowerStr (s : String) : String := ⟨s.data.map jsLower⟩

/-- JS `String.prototype.trim` on a character list: drop whitespace at both ends. -/
def trimChars (l : List Char) : List Char :=
  ((l.dropWhile isWsChar).reverse.dropWhile isWsChar).reverse

/-- Helper for `replace(/\s+/g, " ")`: the flag records whether the previous
character was whitespace (so a run contributes a single space). -/
def collapseWsAux : Bool → List Char → List Char
  | _, [] => []
  | prevWs, c :: cs =>
    if isWsChar c then
      if prevWs then collapseWsAux true cs else ' ' :: collapseWsAux true cs
    else c :: collapseWsAux false cs

/-- JS `replace(/\s+/g, " ")`. -/
def collapseWs (l : List Char) : List Char := collapseWsAux false l

/-- Split on runs of separator characters, dropping empty pieces: the
composite `s.split(/[sep]+/).filter(Boolean)` used by the source. -/
def splitSepAux (sep : Char → Bool) (cur : List Char) : List Char → List (List Char)
  | [] => if cur.isEmpty then [] else [cur.reverse]
  | c :: cs =>
    if sep c then
      if cur.isEmpty then splitSepAux sep [] cs else cur.reverse :: splitSepAux sep [] cs
    else splitSepAux sep (c :: cur) cs

/-- Split a string on runs of separator characters, dropping empty pieces. -/
def splitSep (sep : Char → Bool) (s : String) : List String :=
  (splitSepAux sep [] s.data).map fun l => (⟨l⟩ : String)

/-- JS `.slice(0, n)` on a string. -/
def sliceStr (s : String) (n : Nat) : String := ⟨s.data.take n⟩

/-- Join a list of strings with a separator (JS `Array.prototype.join`). -/
def joinSep (sep : String) : List String → String
  | [] => ""
  | [x] => x
  | x :: y :: xs => x ++ sep ++ joinSep sep (y :: xs)

/-- JS default string comparison (by UTF-16 code units; equal to code-point
order on the ASCII data this code sorts). -/
def charsLe : List Char → List Char → Bool
  | [], _ => true
  | _ :: _, [] => false
  | a :: as, b :: bs =>
    if a.toNat < b.toNat then true
    else if b.toNat < a.toNat then false
    else charsLe as bs

/-- JS default string `sort()` comparator as a `Bool` relation. -/
def jsStrLe (a b : String) : Bool := charsLe a.data b.data

/-- Stable insertion: `x` is placed before the first element it compares
`le` to, so earlier-listed elements win ties. -/
def insertLe (le : α → α → Bool) (x : α) : List α → List α
  | [] => [x]
  | y :: ys => if le x y then x :: y :: ys else y :: insertLe le x ys

/-- Stable sort (models `Array.prototype.sort`, stable per ES2019: a stable
sort is uniquely determined by the comparator preorder). -/
def sortByLe (le : α → α → Bool) : List α → List α
  | [] => []
  | x :: xs => insertLe le x (sortByLe le xs)

/-! ## Insertion-ordered dictionaries (JS `Map` / string-keyed objects) -/

/-- `m.get(k)`. -/
def getA (m : List (String × α)) (k : String) : Option α :=
  (m.find? fun kv => kv.1 == k).map (·.2)

/-- `m.set(k, v)`: update in place if present (keeping the position, as JS
does), else append. -/
def setA (m : List (String × α)) (k : String) (v : α) : List (String × α) :=
  if m.any (fun kv => kv.1 == k) then
    m.map fun kv => if kv.1 == k then (k, v) else kv
  else m ++ [(k, v)]

/-! ## The hash primitive (external `node:crypto`, modelled) -/

/-- One 64-bit lane of the modelled digest. -/
def hashLane (mult seed : Nat) (s : String) : Nat :=
  s.data.foldl (fun h c => (h * mult + c.toNat + 1) % 18446744073709551616) seed

/-- Fixed-width (16 hex digits) rendering of a 64-bit lane. -/
def toHex16 (n : Nat) : String :=
  let ds := Nat.toDigits 16 n
  ⟨List.replicate (16 - ds.length) '0' ++ ds⟩

/-- Model of `createHash("sha256").update(input).digest("hex")` from
`node:crypto` (external library code): a deterministic pure function of the
input producing 64 hex characters.  Claims that rely on distinct inputs
receiving distinct digests (collision-freeness of the real SHA-256) state
that distinctness as an explicit hypothesis on the concrete ids instead. -/
def sha256Hex (input : String) : String :=
  toHex16 (hashLane 131 5381 input) ++ toHex16 (hashLane 137 7919 input) ++
    toHex16 (hashLane 139 104729 input) ++ toHex16 (hashLane 149 1299709 input)

/-- mapRender.ts `stableId`: `` `${prefix}:${sha256Hex(input).slice(0, 16)}` ``. -/
def stableId (pfx input : String) : String := pfx ++ ":" ++ sliceStr (sha256Hex input) 16

/-! ## runLog.ts — the `RunLogEventV1` data model -/

/-- Health status enumeration (doctorLite.ts `HealthStatus`). -/
inductive HealthStatus
  | good | warn | bad | unknown
  deriving DecidableEq

/-- Finding severity (doctorLite.ts `Severity`). -/
inductive Severity
  | info | warn | bad
  deriving DecidableEq

/-- runLog.ts `task.requirements`. -/
structure TaskRequirements where
  python : Option String
  packages : Option (List String)
  features : Option (List String)
  tags : Option (List String)
  requireX64 : Option Bool
  deriving DecidableEq

/-- runLog.ts `task` descriptor. -/
structure RunTask where
  name : String
  command : String
  args : Option (List String)
  requirements : Option TaskRequirements
  deriving DecidableEq

/-- runLog.ts `selected` environment reference. -/
structure RunSelected where
  pythonPath : String
  envId : Option String
  score : Option ℚ
  status : Option HealthStatus
  deriving DecidableEq

/-- runLog.ts `outcome`. -/
structure RunOutcome where
  ok : Bool
  exitCode : Option Int
  durationMs : Option ℚ
  errorClass : Option String
  stderrSnippet : Option String
  deriving DecidableEq

/-- runLog.ts `doctor` annotation. -/
structure RunDoctor where
  dominantIssue : Option String
  findings : Option (List String)
  deriving DecidableEq

/-- runLog.ts `RunLogEventV1` (the constant `version: "1.0"` tag is elided;
the field `at` is renamed `atTime`, `at` being reserved in Lean). -/
structure RunLogEventV1 where
  runId : String
  atTime : String
  cwd : Option String
  task : RunTask
  selected : RunSelected
  outcome : RunOutcome
  doctor : Option RunDoctor
  deriving DecidableEq

/-! ## taskCluster.ts -/

/-- taskCluster.ts `TaskSignature`. -/
structure TaskSignature where
  sigId : String
  name : String
  command : String
  requirementsKey : String
  deriving DecidableEq

/-- taskCluster.ts `TaskCluster` (the `Record<string, number>` histograms are
insertion-ordered association lists, matching JS object key order). -/
structure TaskCluster where
  sig : TaskSignature
  runs : Nat
  ok : Nat
  fail : Nat
  successRate : ℚ
  lastAt : String
  dominantFailure : Option String
  failureCounts : List (String × Nat)
  envCounts : List (String × Nat)
  envFailCounts : List (String × Nat)
  envOkCounts : List (String × Nat)
  deriving DecidableEq

/-- taskCluster.ts `sha16`. -/
def sha16 (s : String) : String := sliceStr (sha256Hex s) 16

/-- taskCluster.ts `normCmd`: `cmd.trim().replace(/\s+/g, " ").toLowerCase()`. -/
def normCmd (cmd : String) : String :=
  ⟨(collapseWs (trimChars cmd.data)).map jsLower⟩

/-- taskCluster.ts `normReq`: lowercase and sort each requirement list, join
with commas, and assemble the fingerprint template. -/
def normReq (req : Option TaskRequirements) : String :=
  match req with
  | none => ""
  | some req =>
    let pkgs := joinSep "," (sortByLe jsStrLe (((req.packages).getD []).map lowerStr))
    let feats := joinSep "," (sortByLe jsStrLe (((req.features).getD []).map lowerStr))
    let tags := joinSep "," (sortByLe jsStrLe (((req.tags).getD []).map lowerStr))
    let py := lowerStr ((req.python).getD "")
    let x64 := if (req.requireX64).getD false then "x64" else ""
    "py=" ++ py ++ "|pkgs=" ++ pkgs ++ "|feat=" ++ feats ++ "|tags=" ++ tags ++ "|" ++ x64

/-- taskCluster.ts `signatureForRun`. -/
def signatureForRun (run : RunLogEventV1) : TaskSignature :=
  let command := normCmd run.task.command
  let requirementsKey := normReq run.task.requirements
  let base := run.task.name ++ "|" ++ command ++ "|" ++ requirementsKey
  let sigId := "task_" ++ sha16 base
  ⟨sigId, run.task.name, command, requirementsKey⟩

/-- One step of the accumulation loop of taskCluster.ts `clusterRuns`. -/
def clusterFold (m : List (String × TaskCluster)) (r : RunLogEventV1) :
    List (String × TaskCluster) :=
  let sig := signatureForRun r
  let key := sig.sigId
  let c := (getA m key).getD
    { sig, runs := 0, ok := 0, fail := 0, successRate := mkRat 0 1, lastAt := r.atTime,
      dominantFailure := none, failureCounts := [], envCounts := [],
      envFailCounts := [], envOkCounts := [] }
  let c := { c with
    runs := c.runs + 1
    ok := if r.outcome.ok then c.ok + 1 else c.ok
    fail := if r.outcome.ok then c.fail else c.fail + 1
    lastAt := if jsStrLe c.lastAt r.atTime && c.lastAt != r.atTime then r.atTime else c.lastAt }
  let py := r.selected.pythonPath
  let c := { c with envCounts := setA c.envCounts py (((getA c.envCounts py).getD 0) + 1) }
  let c :=
    if r.outcome.ok then
      { c with envOkCounts := setA c.envOkCounts py (((getA c.envOkCounts py).getD 0) + 1) }
    else
      let code := ((r.doctor.bind (·.dominantIssue)).orElse fun _ => r.outcome.errorClass).getD "RUN_FAILED"
      { c with
        failureCounts := setA c.failureCounts code (((getA c.failureCounts code).getD 0) + 1)
        envFailCounts := setA c.envFailCounts py (((getA c.envFailCounts py).getD 0) + 1) }
  setA m key c

/-- The "find dominant failure code" scan of `clusterRuns`: the entry with
the strictly highest count, first such entry winning ties (insertion order). -/
def dominantScan (entries : List (String × Nat)) : Option (String × Nat) :=
  entries.foldl
    (fun best e =>
      match best with
      | none => some e
      | some b => if e.2 > b.2 then some e else some b)
    none

/-- The derived-field pass of `clusterRuns`. -/
def deriveCluster (c : TaskCluster) : TaskCluster :=
  { c with
    successRate := if c.runs ≠ 0 then mkRat c.ok c.runs else mkRat 0 1
    dominantFailure := (dominantScan c.failureCounts).map (·.1) }

/-- taskCluster.ts `clusterRuns`: accumulate per signature, compute derived
fields, sort by run count descending (stable, so first-seen order on ties). -/
def clusterRuns (runs : List RunLogEventV1) : List TaskCluster :=
  let m := runs.foldl clusterFold []
  sortByLe (fun a b => decide (b.runs ≤ a.runs)) ((m.map (·.2)).map deriveCluster)

/-- taskCluster.ts `isFlaky`: both outcomes present and success rate strictly
between the 0.2 and 0.95 constants. -/
def isFlaky (cluster : TaskCluster) : Bool :=
  if cluster.ok == 0 || cluster.fail == 0 then false
  else qLtB (mkRat 2 10) cluster.successRate && qLtB cluster.successRate (mkRat 95 100)

/-- taskCluster.ts `isEnvDependentFlaky`. -/
def isEnvDependentFlaky (cluster : TaskCluster) : Bool :=
  let envs := cluster.envCounts.map (·.1)
  if envs.length < 2 then false
  else
    let hasSuccessEnv := envs.any fun py =>
      ((getA cluster.envOkCounts py).getD 0) > 0 && ((getA cluster.envFailCounts py).getD 0) == 0
    let hasFailEnv := envs.any fun py =>
      ((getA cluster.envFailCounts py).getD 0) > 0 && ((getA cluster.envOkCounts py).getD 0) == 0
    hasSuccessEnv && hasFailEnv

/-- taskCluster.ts `getFailingEnvs` result entries. -/
structure FailingEnv where
  pythonPath : String
  failCount : Nat
  totalCount : Nat
  failRate : ℚ
  deriving DecidableEq

/-- taskCluster.ts `getFailingEnvs`: failing environments ranked by
descending failure count (stable), truncated to `limit`. -/
def getFailingEnvs (cluster : TaskCluster) (limit : Nat) : List FailingEnv :=
  let entries := cluster.envFailCounts.map fun kv =>
    let total := (getA cluster.envCounts kv.1).getD kv.2
    ({ pythonPath := kv.1, failCount := kv.2, totalCount := total,
       failRate := mkRat kv.2 total } : FailingEnv)
  (sortByLe (fun a b => decide (b.failCount ≤ a.failCount)) entries).take limit

/-! ## doctorLite.ts — the report data model consumed by mapRender -/

/-- doctorLite.ts `Finding`.  The `fix` plans and the untyped `evidence` bag
are carried through unchanged and never read by the map/cluster core; they
are elided here. -/
structure Finding where
  code : String
  severity : Severity
  penalty : ℚ
  what : String
  why : String
  deriving DecidableEq

/-- doctorLite.ts `FactsResult` (python `-c` probe output).  `prefix` and
`base_prefix` are renamed `prefixPath` / `basePrefix` (Lean reserved words). -/
structure FactsResult where
  version : String
  version_info : List Int
  executable : String
  prefixPath : String
  basePrefix : Option String
  bits : Int
  machine : String
  os : String
  py_path : List String
  enable_user_site : Option Bool
  user_site : String
  deriving DecidableEq

/-- doctorLite.ts `DoctorLiteReport`. -/
structure DoctorLiteReport where
  pythonPath : String
  ranAt : String
  status : HealthStatus
  score : ℚ
  summary : String
  facts : Option FactsResult
  findings : List Finding
  deriving DecidableEq

/-! ## mapRender.ts — graph data model -/

/-- mapRender.ts `GraphIssue`. -/
structure GraphIssue where
  code : String
  severity : Severity
  message : String
  deriving DecidableEq

/-- `GraphNode.type`. -/
inductive NodeType
  | venv | base | task | artifact
  deriving DecidableEq

/-- `GraphNode.python`. -/
structure PyInfo where
  version : Option String
  impl : Option String
  arch : Option String
  deriving DecidableEq

/-- `GraphNode.health`. -/
structure NodeHealth where
  status : HealthStatus
  score : Option ℚ
  issues : Option (List GraphIssue)
  deriving DecidableEq

/-- `GraphNode.caps.packages` entries. -/
structure PkgRef where
  name : String
  version : Option String
  deriving DecidableEq

/-- `GraphNode.caps`. -/
structure NodeCaps where
  packages : Option (List PkgRef)
  features : Option (List String)
  tags : Option (List String)
  deriving DecidableEq

/-- `GraphNode.fingerprints`. -/
structure NodeFingerprints where
  env : Option String
  python : Option String
  packages : Option String
  deriving DecidableEq

/-- mapRender.ts `GraphNode`. -/
structure GraphNode where
  id : String
  type : NodeType
  label : String
  path : Option String
  python : Option PyInfo
  health : Option NodeHealth
  caps : Option NodeCaps
  fingerprints : Option NodeFingerprints
  lastSeenAt : Option String
  deriving DecidableEq

/-- mapRender.ts `GraphEdge.type`. -/
inductive EdgeType
  | USES_BASE | CREATED_FROM | ROUTES_TASK_TO | FAILED_RUN | SHARES_WHEELHOUSE | SHADOWS_PATH
  deriving DecidableEq

/-- The wire name of an edge type (used by the Mermaid renderer's
`e.label ?? e.type` fallback). -/
def edgeTypeName : EdgeType → String
  | .USES_BASE => "USES_BASE"
  | .CREATED_FROM => "CREATED_FROM"
  | .ROUTES_TASK_TO => "ROUTES_TASK_TO"
  | .FAILED_RUN => "FAILED_RUN"
  | .SHARES_WHEELHOUSE => "SHARES_WHEELHOUSE"
  | .SHADOWS_PATH => "SHADOWS_PATH"

/-- Values stored in the untyped `meta` bags (`Record<string, unknown>`). -/
inductive MVal
  | str (s : String)
  | num (q : ℚ)
  | strs (l : List String)
  | nullv
  | undefv
  deriving DecidableEq

/-- mapRender.ts `GraphEdge` (`from`/`to` renamed `fromId`/`toId`, `from`
being reserved in Lean). -/
structure GraphEdge where
  id : String
  fromId : String
  toId : String
  type : EdgeType
  label : Option String
  weight : Option ℚ
  meta : Option (List (String × MVal))
  deriving DecidableEq

/-- `GraphSummary.topIssues` entries. -/
structure TopIssue where
  code : String
  count : Nat
  hint : String
  deriving DecidableEq

/-- mapRender.ts `GraphSummary`. -/
structure GraphSummary where
  envCount : Nat
  baseCount : Nat
  taskCount : Nat
  healthy : Nat
  warning : Nat
  broken : Nat
  runsPassed : Nat
  runsFailed : Nat
  topIssues : List TopIssue
  deriving DecidableEq

/-- The host descriptor (`os.platform()/arch()/hostname()`). -/
structure HostInfo where
  os : String
  arch : String
  hostname : String
  deriving DecidableEq

/-- mapRender.ts `GraphJSONv1` (`version` is the `"1.0"` schema tag). -/
structure GraphJSONv1 where
  version : String
  generatedAt : String
  host : HostInfo
  summary : GraphSummary
  nodes : List GraphNode
  edges : List GraphEdge
  deriving DecidableEq

/-- `MapInsight.severity`. -/
inductive InsightSeverity
  | low | medium | high
  deriving DecidableEq

/-- mapRender.ts `MapInsight`. -/
structure MapInsight where
  severity : InsightSeverity
  text : String
  meta : Option (List (String × MVal))
  deriving DecidableEq

/-- `MapRenderOptions.format`. -/
inductive OutputFormat
  | json | mermaid | both
  deriving DecidableEq

/-- `MapRenderOptions.focus` (accepted but unused by the builder). -/
inductive MapFocus
  | all | project | capability | recentFailures
  deriving DecidableEq

/-- `MapRenderOptions.filter`. -/
structure MapFilter where
  minScore : Option ℚ
  codes : Option (List String)
  pathsUnder : Option String
  tags : Option (List String)
  deriving DecidableEq

/-- `MapRenderOptions.taskMode` (`"none" | "runs" | "clustered"`). -/
inductive TaskMode
  | none | runs | clustered
  deriving DecidableEq

/-- mapRender.ts `MapRenderOptions` (every field optional). -/
structure MapRenderOptions where
  format : Option OutputFormat
  focus : Option MapFocus
  filter : Option MapFilter
  includeBaseSubgraphs : Option Bool
  includeHotEdgeLabels : Option Bool
  maxTopIssues : Option Nat
  taskMode : Option TaskMode
  deriving DecidableEq

/-- The empty options object `{}`. -/
def defaultOptions : MapRenderOptions :=
  ⟨Option.none, Option.none, Option.none, Option.none, Option.none, Option.none, Option.none⟩

/-- The `Required<MapRenderOptions>` object `opts` built at the top of
`mapRender` from the caller's options and the documented defaults. -/
structure ResolvedOptions where
  format : OutputFormat
  focus : MapFocus
  filter : MapFilter
  includeBaseSubgraphs : Bool
  includeHotEdgeLabels : Bool
  maxTopIssues : Nat
  taskMode : TaskMode
  deriving DecidableEq

/-- The defaulting block at the top of mapRender.ts `mapRender`. -/
def resolveOptions (options : MapRenderOptions) : ResolvedOptions :=
  { format := options.format.getD .both
    focus := options.focus.getD .all
    filter := options.filter.getD ⟨Option.none, Option.none, Option.none, Option.none⟩
    includeBaseSubgraphs := options.includeBaseSubgraphs.getD true
    includeHotEdgeLabels := options.includeHotEdgeLabels.getD true
    maxTopIssues := options.maxTopIssues.getD 10
    taskMode := options.taskMode.getD .clustered }

/-- mapRender.ts `MapRenderResult`. -/
structure MapRenderResult where
  graph : GraphJSONv1
  mermaid : Option String
  insights : List MapInsight
  deriving DecidableEq

/-! ## mapRender.ts — helper functions -/

/-- Model constant for `os.platform()`: a fixed POSIX host. -/
def osPlatform : String := "linux"

/-- Model constant for `os.arch()`. -/
def osArch : String := "x64"

/-- Model constant for `os.hostname()`. -/
def osHostname : String := "host"

/-- mapRender.ts `normPath`: lower-case on win32, identity otherwise
(`if (!p) return ""` handles the empty/absent case). -/
def normPath (p : String) : String :=
  if p = "" then "" else if osPlatform == "win32" then lowerStr p else p

/-- mapRender.ts `pickArch`. -/
def pickArch (facts : Option FactsResult) : Option String :=
  match facts.map (·.bits) with
  | some (64 : Int) => some "x86_64"
  | some (32 : Int) => some "x86"
  | _ => Option.none

/-- mapRender.ts `statusFromReport` (`r.status ?? "unknown"`; `status` is a
required field of the report, so the fallback is dead). -/
def statusFromReport (r : DoctorLiteReport) : HealthStatus := r.status

/-- mapRender.ts `issuesFromFindings`. -/
def issuesFromFindings (findings : List Finding) : List GraphIssue :=
  findings.map fun f => ⟨f.code, f.severity, f.what⟩

/-- `a.startsWith(b)`. -/
def startsWithStr (a b : String) : Bool := b.data.isPrefixOf a.data

/-- mapRender.ts `shouldIncludeReport` (`r.score ?? 0` is dead: `score` is a
required field of the report). -/
def shouldIncludeReport (r : DoctorLiteReport) (opts : ResolvedOptions) : Bool :=
  if (opts.filter.minScore.map fun m => qLtB r.score m).getD false then false
  else if (opts.filter.pathsUnder.map fun u =>
      !(startsWithStr (normPath r.pythonPath) (normPath u))).getD false then false
  else
    match opts.filter.codes with
    | some codes =>
      if codes.length > 0 then codes.any fun c => (r.findings.map (·.code)).contains c
      else true
    | Option.none => true

/-- mapRender.ts `hintForIssue` (the static code → remediation-hint table). -/
def hintForIssue (code : String) : String :=
  match code with
  | "SSL_BROKEN" => "Fix base Python / OpenSSL; this blocks installs and HTTPS."
  | "DLL_LOAD_FAIL" => "Native deps mismatch; recreate venv with compatible Python + wheels."
  | "ABI_MISMATCH" => "Native deps mismatch; recreate venv with compatible Python + wheels."
  | "USER_SITE_LEAK" => "Path leakage; disable user-site, remove PYTHONPATH, prefer editable installs."
  | "PYTHONPATH_INJECTED" => "Path leakage; disable user-site, remove PYTHONPATH, prefer editable installs."
  | "PIP_CHECK_FAIL" => "Dependency conflicts; pip check then reinstall or recreate venv."
  | "PYVENV_CFG_INVALID" => "Stale pyvenv.cfg; venv likely moved‚Äîrecreate it."
  | _ => "Investigate and apply the doctor fix plan; recreating the venv is often fastest."

/-- mapRender.ts `emojiForIssue` (glyphs copied byte-for-byte from the source). -/
def emojiForIssue (code : String) : String :=
  match code with
  | "SSL_BROKEN" => "üîí"
  | "CERT_STORE_FAIL" => "ü™™"
  | "DLL_LOAD_FAIL" => "üß©"
  | "ABI_MISMATCH" => "‚öôÔ∏è"
  | "USER_SITE_LEAK" => "üï≥Ô∏è"
  | "PYTHONPATH_INJECTED" => "üßµ"
  | "PIP_CHECK_FAIL" => "üß®"
  | "PIP_MISSING" => "üì¶"
  | "ARCH_MISMATCH" => "üèóÔ∏è"
  | "PYVENV_CFG_INVALID" => "üß±"
  | _ => "‚ùó"

/-- mapRender.ts `safeMermaidId`. -/
def safeMermaidId (nodeId : String) : String :=
  "n_" ++ sliceStr (sha256Hex nodeId) 10

/-- Slash characters split by `/[\\/]+/`. -/
def isSlashChar (c : Char) : Bool := c == '/' || c == '\\'

/-- mapRender.ts `guessEnvLabel` (also the inline env-node label computation
in `mapRender`, which is the same expression): second-to-last path segment. -/
def guessEnvLabel (pythonPath : String) : String :=
  let parts := splitSep isSlashChar pythonPath
  if parts.length ≠ 0 then (parts.get? (parts.length - 2)).getD pythonPath
  else pythonPath

/-- mapRender.ts `mermaidClass`. -/
def mermaidClass (status : HealthStatus) : String :=
  match status with
  | .good => "good"
  | .warn => "warn"
  | .bad => "bad"
  | .unknown => "unknown"

/-- mapRender.ts `mermaidLabel`. -/
def mermaidLabel (node : GraphNode) : String :=
  let py := match node.python.bind (·.version) with
    | some v => "py" ++ v
    | Option.none => ""
  let score := match node.health.bind (·.score) with
    | some s => "score " ++ jsNumToString s
    | Option.none => ""
  let caps := match node.caps.bind (·.features) with
    | some fs => if fs.length ≠ 0 then joinSep "," (fs.take 3) else ""
    | Option.none => ""
  let line2 := joinSep " ‚Ä¢ " (([py, score, caps]).filter (· ≠ ""))
  joinSep "<br/>" (([node.label, line2]).filter (· ≠ ""))

/-- mapRender.ts `countTopIssues`: count non-info finding codes in insertion
order, sort by count descending (stable), truncate, annotate with hints. -/
def countTopIssues (reports : List DoctorLiteReport) (maxTop : Nat) : List TopIssue :=
  let counts := reports.foldl
    (fun m r => r.findings.foldl
      (fun m f =>
        if f.severity == Severity.info then m
        else setA m f.code (((getA m f.code).getD 0) + 1))
      m)
    []
  ((sortByLe (fun a b => decide (b.2 ≤ a.2)) counts).take maxTop).map
    fun kv => ⟨kv.1, kv.2, hintForIssue kv.1⟩

/-- mapRender.ts `dominantIssue`: highest-penalty non-info finding code
(stable descending sort, so first-listed wins ties). -/
def dominantIssue (findings : List Finding) : Option String :=
  let nonInfo := findings.filter fun f => f.severity != Severity.info
  if nonInfo.length = 0 then Option.none
  else ((sortByLe (fun a b => qLeB b.penalty a.penalty) nonInfo).head?).map (·.code)

/-- mapRender.ts `deriveBaseKey`: declared base prefix, else the install
prefix, else the interpreter path itself. -/
def deriveBaseKey (r : DoctorLiteReport) : String :=
  let bp := ((r.facts.bind (·.basePrefix)).getD "")
  if bp ≠ "" then bp
  else
    let p := (r.facts.map (·.prefixPath)).getD ""
    if p ≠ "" then p else r.pythonPath

/-- Greedy scan for `(\d+)\.(\d+)\.(\d+)` at the head of a character list. -/
def tryVerAt (l : List Char) : Option (List Char × List Char) :=
  let d1 := l.takeWhile Char.isDigit
  let r1 := l.dropWhile Char.isDigit
  if d1.isEmpty then Option.none
  else
    match r1 with
    | '.' :: r2 =>
      let d2 := r2.takeWhile Char.isDigit
      let r3 := r2.dropWhile Char.isDigit
      if d2.isEmpty then Option.none
      else
        match r3 with
        | '.' :: r4 =>
          let d3 := r4.takeWhile Char.isDigit
          if d3.isEmpty then Option.none else some (d1, d2)
        | _ => Option.none
    | _ => Option.none

/-- First match of the JS regex `(\d+)\.(\d+)\.(\d+)`, returning the first
two capture groups (the pattern has no backtracking: `\d+` is maximal). -/
def matchVer : List Char → Option (List Char × List Char)
  | [] => Option.none
  | c :: cs =>
    match tryVerAt (c :: cs) with
    | some g => some g
    | Option.none => matchVer cs

/-- mapRender.ts `derivePyVersion`: `major.minor` from `facts.version_info`,
falling back to a regex match on `facts.version`. -/
def derivePyVersion (r : DoctorLiteReport) : Option String :=
  match r.facts.map (·.version_info) with
  | some vi =>
    if vi.length ≥ 2 then
      some (((vi.get? 0).getD 0).repr ++ "." ++ ((vi.get? 1).getD 0).repr)
    else
      (r.facts.bind fun f => matchVer f.version.data).map
        fun g => (⟨g.1⟩ : String) ++ "." ++ (⟨g.2⟩ : String)
  | Option.none =>
    (r.facts.bind fun f => matchVer f.version.data).map
      fun g => (⟨g.1⟩ : String) ++ "." ++ (⟨g.2⟩ : String)

/-- mapRender.ts `deriveImpl`. -/
def deriveImpl : String := "CPython"

/-- mapRender.ts `nodeLabelForBase`. -/
def nodeLabelForBase (baseKey : String) (pyVersion arch : Option String) : String :=
  "Base: " ++ (pyVersion.getD "py?") ++ " " ++ (arch.getD "") ++ "\n" ++ baseKey

/-- The `.replace(/\n/g, " ‚Ä¢ ")` applied to the base label at creation. -/
def replaceNl (s : String) : String :=
  ⟨s.data.foldr (fun c acc => if c == '\n' then (" ‚Ä¢ ").data ++ acc else c :: acc) []⟩

/-- mapRender.ts `summarizeCounts`: health buckets over venv-type nodes. -/
def summarizeCounts (nodes : List GraphNode) : Nat × Nat × Nat :=
  let venvs := nodes.filter fun n => n.type == NodeType.venv
  (venvs.countP (fun n => (n.health.map (·.status)) == some HealthStatus.good),
   venvs.countP (fun n => (n.health.map (·.status)) == some HealthStatus.warn),
   venvs.countP (fun n => (n.health.map (·.status)) == some HealthStatus.bad))

/-- mapRender.ts `escapeMermaid`: escape `"` and `|` (the two replaces
commute into one pass: the first's output introduces neither character
unescaped). -/
def escapeMermaid (s : String) : String :=
  ⟨s.data.foldr
    (fun c acc =>
      if c == '"' then '\\' :: '"' :: acc
      else if c == '|' then '\\' :: '|' :: acc
      else c :: acc)
    []⟩

/-! ## mapRender.ts — graph construction -/

/-- The mutable build state of `mapRender`: the `nodes`/`edges` arrays and
the `baseIdByKey`/`envIdByPyPath` maps. -/
structure BuildState where
  nodes : List GraphNode
  edges : List GraphEdge
  baseIdByKey : List (String × String)
  envIdByPyPath : List (String × String)
  deriving DecidableEq

/-- The empty initial build state. -/
def emptyState : BuildState := ⟨[], [], [], []⟩

/-- The base-node object literal pushed by `getOrCreateBaseNode`. -/
def baseNodeOf (now keyNorm baseKey : String) (pyVersion arch : Option String) : GraphNode :=
  { id := stableId "base" keyNorm
    type := NodeType.base
    label := replaceNl (nodeLabelForBase baseKey pyVersion arch)
    path := some baseKey
    python := some ⟨pyVersion, some deriveImpl, arch⟩
    health := some ⟨HealthStatus.unknown, Option.none, Option.none⟩
    caps := Option.none
    fingerprints := some ⟨Option.none, some ("sha256:" ++ sliceStr (sha256Hex keyNorm) 24), Option.none⟩
    lastSeenAt := some now }

/-- mapRender.ts `getOrCreateBaseNode`: deduplicate base nodes by the
normalized base key; create lazily with unknown health and a wall-clock
`lastSeenAt` (the `now` parameter models `nowIso()`). -/
def getOrCreateBaseNode (now : String) (st : BuildState)
    (baseKey : String) (pyVersion arch : Option String) : BuildState × String :=
  let keyNorm := normPath baseKey
  match getA st.baseIdByKey keyNorm with
  | some id => (st, id)
  | Option.none =>
    let id := stableId "base" keyNorm
    ({ st with
        baseIdByKey := setA st.baseIdByKey keyNorm id
        nodes := st.nodes ++ [baseNodeOf now keyNorm baseKey pyVersion arch] },
     id)

/-- The env-node object literal pushed for one surviving report.
(`lastSeenAt: r.ranAt ?? nowIso()` — `ranAt` is a required report field, so
the wall-clock fallback is dead code.) -/
def envNodeOf (r : DoctorLiteReport) : GraphNode :=
  let pyPath := normPath r.pythonPath
  let pyVersion := derivePyVersion r
  let dominant := dominantIssue r.findings
  { id := stableId "env" pyPath
    type := NodeType.venv
    label := guessEnvLabel r.pythonPath
    path := some r.pythonPath
    python := some ⟨pyVersion, some deriveImpl, pickArch r.facts⟩
    health := some ⟨statusFromReport r, some r.score, some (issuesFromFindings r.findings)⟩
    caps := some ⟨Option.none,
      some [if r.findings.any (fun f => f.code == "SSL_BROKEN") then "ssl:broken" else "ssl:ok",
            if r.findings.any (fun f => f.code == "USER_SITE_LEAK") then "usersite:leak" else "usersite:clean",
            if r.findings.any (fun f => f.code == "PYTHONPATH_INJECTED") then "pythonpath:set" else "pythonpath:clean"],
      some []⟩
    fingerprints := some ⟨some ("sha256:" ++
      sliceStr (sha256Hex (pyPath ++ "|" ++ (pyVersion.getD "undefined") ++ "|" ++ (dominant.getD ""))) 24),
      Option.none, Option.none⟩
    lastSeenAt := some r.ranAt }

/-- The `USES_BASE` edge object literal (base → env, dominant issue as meta). -/
def usesBaseEdge (baseId envId : String) (dominant : Option String) : GraphEdge :=
  { id := stableId "e" (baseId ++ "->" ++ envId)
    fromId := baseId
    toId := envId
    type := EdgeType.USES_BASE
    label := Option.none
    weight := some (mkRat 1 1)
    meta := some [("dominantIssue",
      match dominant with
      | some s => MVal.str s
      | Option.none => MVal.nullv)] }

/-- The body of the "Create env nodes + base edges" loop of `mapRender`,
for one surviving report. -/
def reportStep (now : String) (st : BuildState) (r : DoctorLiteReport) : BuildState :=
  let pyPath := normPath r.pythonPath
  let envId := stableId "env" pyPath
  let st := { st with
    envIdByPyPath := setA st.envIdByPyPath pyPath envId
    nodes := st.nodes ++ [envNodeOf r] }
  let res := getOrCreateBaseNode now st (deriveBaseKey r) (derivePyVersion r) (pickArch r.facts)
  { res.1 with edges := res.1.edges ++ [usesBaseEdge res.2 envId (dominantIssue r.findings)] }

/-- The base-health rollup applied to one node: for base nodes, status is the
worst case over children and score the `⌊n/2⌋` element of the ascending
child-score sort.  The source mutates `base.health` while iterating; since
the children consulted are venv nodes (never mutated by this pass), mapping
over a snapshot of the node array is behaviourally identical. -/
def rollupNode (allNodes : List GraphNode) (edges : List GraphEdge) (n : GraphNode) : GraphNode :=
  if n.type == NodeType.base then
    let childEdges := edges.filter fun e => e.type == EdgeType.USES_BASE && e.fromId == n.id
    let childNodes := allNodes.filter fun m => childEdges.any fun e => e.toId == m.id
    if childNodes.isEmpty then n
    else
      let scores := sortByLe qLeB (childNodes.filterMap fun m => m.health.bind (·.score))
      let median := scores.get? (scores.length / 2)
      let worst :=
        if childNodes.any (fun m => (m.health.map (·.status)) == some HealthStatus.bad) then HealthStatus.bad
        else if childNodes.any (fun m => (m.health.map (·.status)) == some HealthStatus.warn) then HealthStatus.warn
        else if childNodes.any (fun m => (m.health.map (·.status)) == some HealthStatus.good) then HealthStatus.good
        else HealthStatus.unknown
      { n with health := some ⟨worst, median, Option.none⟩ }
  else n

/-- The "Improve base health" second pass of `mapRender`. -/
def rollupPass (st : BuildState) : BuildState :=
  { st with nodes := st.nodes.map (rollupNode st.nodes st.edges) }

/-- Models `nodeIndex.has(id)`: the index's key set always equals the set of
ids of `nodes` (it is built from all nodes and updated on every push). -/
def hasNodeId (nodes : List GraphNode) (i : String) : Bool :=
  nodes.any fun n => n.id == i

/-- The synthesized env-node object literal of the clustered branch:
a minimal unknown-health node for a path missing from the surviving reports. -/
def synthEnvNodeC (pyPath envId lastAt : String) : GraphNode :=
  { id := envId
    type := NodeType.venv
    label := guessEnvLabel pyPath
    path := some pyPath
    python := Option.none
    health := some ⟨HealthStatus.unknown, Option.none, Option.none⟩
    caps := Option.none
    fingerprints := Option.none
    lastSeenAt := some lastAt }

/-- The weighted `ROUTES_TASK_TO` edge of the clustered branch. -/
def routeEdgeC (taskId envId : String) (count : Nat) (sigId : String) : GraphEdge :=
  { id := stableId "e" (taskId ++ "->" ++ envId ++ ":route")
    fromId := taskId
    toId := envId
    type := EdgeType.ROUTES_TASK_TO
    label := some ("x" ++ toString count)
    weight := some (mkRat count 1)
    meta := some [("taskSig", MVal.str sigId)] }

/-- The weighted `FAILED_RUN` edge of the clustered branch. -/
def failEdgeC (taskId envId dom : String) (failCount : Nat) (sigId : String) : GraphEdge :=
  { id := stableId "e" (taskId ++ "->" ++ envId ++ ":fail")
    fromId := taskId
    toId := envId
    type := EdgeType.FAILED_RUN
    label := some (emojiForIssue dom ++ " " ++ dom ++ " x" ++ toString failCount)
    weight := some (mkRat failCount 1)
    meta := some [("taskSig", MVal.str sigId), ("dominantIssue", MVal.str dom)] }

/-- The body of the per-environment loop inside the clustered branch of
`mapRender`: ensure the env node exists (synthesizing an unknown-health node
when absent) and push the `ROUTES_TASK_TO` / conditional `FAILED_RUN` edges. -/
def clusterEnvStep (c : TaskCluster) (taskId : String) (st : BuildState)
    (kv : String × Nat) : BuildState :=
  let pyPath := kv.1
  let envPy := normPath pyPath
  let envId := (getA st.envIdByPyPath envPy).getD (stableId "env" envPy)
  let st :=
    if hasNodeId st.nodes envId then st
    else
      { st with
          nodes := st.nodes ++ [synthEnvNodeC pyPath envId c.lastAt]
          envIdByPyPath := setA st.envIdByPyPath envPy envId }
  let st := { st with edges := st.edges ++ [routeEdgeC taskId envId kv.2 c.sig.sigId] }
  let failCount := (getA c.envFailCounts pyPath).getD 0
  if failCount > 0 then
    let dom := c.dominantFailure.getD "RUN_FAILED"
    { st with edges := st.edges ++ [failEdgeC taskId envId dom failCount c.sig.sigId] }
  else st

/-- The task-node object literal of the clustered branch (one per cluster). -/
def taskNodeOfCluster (c : TaskCluster) : GraphNode :=
  { id := "task:" ++ c.sig.sigId
    type := NodeType.task
    label := c.sig.name
    path := Option.none
    python := Option.none
    health := some
      ⟨if c.fail == 0 then HealthStatus.good
        else if c.ok == 0 then HealthStatus.bad else HealthStatus.warn,
       some (mkRat (jsRound (qMul (mkRat 100 1) c.successRate)) 1),
       some (match c.dominantFailure with
         | some code =>
           [⟨code,
             if c.fail > 0 then Severity.warn else Severity.info,
             "dominant failure (" ++ toString ((getA c.failureCounts code).getD 0) ++ ")"⟩]
         | Option.none => [])⟩
    caps := some ⟨Option.none,
      some ["runs:" ++ toString c.runs,
            "ok:" ++ toString c.ok,
            "fail:" ++ toString c.fail,
            if isFlaky c then "flaky:true" else "flaky:false",
            if isEnvDependentFlaky c then "env-flaky:true" else "env-flaky:false"],
      some []⟩
    fingerprints := Option.none
    lastSeenAt := some c.lastAt }

/-- The body of the per-cluster loop of `mapRender` (clustered mode): one
task node per `TaskCluster`, then the per-environment edges. -/
def clusterTaskStep (st : BuildState) (c : TaskCluster) : BuildState :=
  let taskId := "task:" ++ c.sig.sigId
  c.envCounts.foldl (clusterEnvStep c taskId)
    { st with nodes := st.nodes ++ [taskNodeOfCluster c] }

/-- The task-node object literal of the "runs" branch (one per run record). -/
def taskNodeOfRun (run : RunLogEventV1) (taskId : String) : GraphNode :=
  { id := taskId
    type := NodeType.task
    label := run.task.name
    path := run.cwd
    python := Option.none
    health := some
      ⟨if run.outcome.ok then HealthStatus.good else HealthStatus.bad,
       some (if run.outcome.ok then mkRat 100 1 else mkRat 40 1),
       some (if run.outcome.ok then []
         else [⟨run.outcome.errorClass.getD "RUN_FAILED", Severity.bad,
                run.outcome.stderrSnippet.getD "Task failed"⟩])⟩
    caps := some ⟨Option.none,
      some [match run.task.requirements.bind (·.packages) with
        | some pkgs =>
          if pkgs.length ≠ 0 then "pkgs:" ++ joinSep "," (pkgs.take 3) else "pkgs:none"
        | Option.none => "pkgs:none"],
      some ((run.task.requirements.bind (·.tags)).getD [])⟩
    fingerprints := Option.none
    lastSeenAt := some run.atTime }

/-- The synthesized env-node object literal of the "runs" branch: unlike the
clustered branch it adopts the run's recorded selection status and score. -/
def synthEnvNodeR (run : RunLogEventV1) (envId : String) : GraphNode :=
  { id := envId
    type := NodeType.venv
    label := guessEnvLabel run.selected.pythonPath
    path := some run.selected.pythonPath
    python := Option.none
    health := some ⟨run.selected.status.getD HealthStatus.unknown, run.selected.score, Option.none⟩
    caps := Option.none
    fingerprints := Option.none
    lastSeenAt := some run.atTime }

/-- The `ROUTES_TASK_TO` edge of the "runs" branch. -/
def routeEdgeR (taskId envId : String) (run : RunLogEventV1) : GraphEdge :=
  { id := stableId "e" (taskId ++ "->" ++ envId ++ ":route")
    fromId := taskId
    toId := envId
    type := EdgeType.ROUTES_TASK_TO
    label := some "routes"
    weight := some (mkRat 1 1)
    meta := some [("runId", MVal.str run.runId), ("command", MVal.str run.task.command)] }

/-- The `FAILED_RUN` edge of the "runs" branch. -/
def failEdgeR (taskId envId dom : String) (run : RunLogEventV1) : GraphEdge :=
  { id := stableId "e" (taskId ++ "->" ++ envId ++ ":fail")
    fromId := taskId
    toId := envId
    type := EdgeType.FAILED_RUN
    label := some (emojiForIssue dom ++ " " ++ dom)
    weight := some (mkRat 2 1)
    meta := some [("runId", MVal.str run.runId),
      ("exitCode",
        match run.outcome.exitCode with
        | some i => MVal.num (mkRat i 1)
        | Option.none => MVal.nullv),
      ("dominantIssue", MVal.str dom)] }

/-- The `taskId` computed at the top of the per-run loop of `mapRender`
("runs" mode): a stable id from the runId, falling back to the task key. -/
def taskIdOfRun (run : RunLogEventV1) : String :=
  let taskKey := run.task.name ++ "|" ++ run.task.command ++ "|" ++ run.atTime ++ "|" ++
    run.selected.pythonPath
  stableId "task" (if run.runId ≠ "" then run.runId else taskKey)

/-- The body of the per-run loop of `mapRender` ("runs" mode): one task node
per run record, an ensured env node, and the route/failure edges. -/
def runTaskStep (st : BuildState) (run : RunLogEventV1) : BuildState :=
  let taskId := taskIdOfRun run
  let st := { st with nodes := st.nodes ++ [taskNodeOfRun run taskId] }
  let envPy := normPath run.selected.pythonPath
  let envId := (getA st.envIdByPyPath envPy).getD (stableId "env" envPy)
  let st :=
    if hasNodeId st.nodes envId then st
    else
      { st with
          nodes := st.nodes ++ [synthEnvNodeR run envId]
          envIdByPyPath := setA st.envIdByPyPath envPy envId }
  let st := { st with edges := st.edges ++ [routeEdgeR taskId envId run] }
  if !run.outcome.ok then
    let dom := (((run.doctor.bind (·.dominantIssue)).orElse
      fun _ => run.outcome.errorClass)).getD "RUN_FAILED"
    { st with edges := st.edges ++ [failEdgeR taskId envId dom run] }
  else st

/-! ## mapRender.ts — insight rules (`aggregateInsights`) -/

/-- Rule 1 of `aggregateInsights`: the single most frequent finding code of
the summary's top-issues list; severity high at 3 or more occurrences. -/
def topIssueInsights (graph : GraphJSONv1) : List MapInsight :=
  match graph.summary.topIssues with
  | [] => []
  | t0 :: _ =>
    [{ severity := if t0.count ≥ 3 then InsightSeverity.high else InsightSeverity.medium
       text := "Top recurring issue: " ++ t0.code ++ " (" ++ toString t0.count ++ "). " ++ t0.hint
       meta := some [("code", MVal.str t0.code), ("count", MVal.num (mkRat t0.count 1))] }]

/-- The `childNodes` computation of the blast-radius rule: nodes whose id is
among the `to` ids of the base's `USES_BASE` edges. -/
def blastChildren (graph : GraphJSONv1) (base : GraphNode) : List GraphNode :=
  let childrenEdges := graph.edges.filter fun e =>
    e.type == EdgeType.USES_BASE && e.fromId == base.id
  let childIds := childrenEdges.map (·.toId)
  graph.nodes.filter fun n => childIds.contains n.id

/-- The `badCount` of the blast-radius rule. -/
def blastBadCount (graph : GraphJSONv1) (base : GraphNode) : Nat :=
  (blastChildren graph base).countP fun n =>
    (n.health.map (·.status)) == some HealthStatus.bad

/-- The blast-radius check of `aggregateInsights` for one base node. -/
def blastForBase (graph : GraphJSONv1) (base : GraphNode) : Option MapInsight :=
  let childNodes := blastChildren graph base
  let badCount := blastBadCount graph base
  if childNodes.length ≥ 3 && badCount ≥ (childNodes.length + 1) / 2 then
    some
      { severity := InsightSeverity.high
        text := "Base interpreter \"" ++ base.label ++ "\" has a large blast radius: " ++
          toString badCount ++ "/" ++ toString childNodes.length ++
          " attached envs are bad. Fix the base first, then recreate envs."
        meta := some [("baseId", MVal.str base.id),
          ("total", MVal.num (mkRat childNodes.length 1)),
          ("bad", MVal.num (mkRat badCount 1))] }
  else Option.none

/-- Rule 2 of `aggregateInsights`: blast radius, one insight per qualifying
base node (at least 3 children, `bad` children at least `⌈children/2⌉`). -/
def blastRadiusInsights (graph : GraphJSONv1) : List MapInsight :=
  (graph.nodes.filter fun n => n.type == NodeType.base).filterMap (blastForBase graph)

/-- Rule 3 of `aggregateInsights`: ecosystem hygiene (user-site leaks and
injected PYTHONPATH across reports). -/
def hygieneInsights (reports : List DoctorLiteReport) : List MapInsight :=
  let leakCount := reports.countP fun r => r.findings.any fun f => f.code == "USER_SITE_LEAK"
  let pyPathCount := reports.countP fun r => r.findings.any fun f => f.code == "PYTHONPATH_INJECTED"
  if leakCount ≥ 2 || pyPathCount ≥ 2 then
    [{ severity := InsightSeverity.high
       text := "Ecosystem hygiene problem: USER_SITE_LEAK in " ++ toString leakCount ++
         " env(s), PYTHONPATH_INJECTED in " ++ toString pyPathCount ++
         " env(s). This causes \"works here, fails there.\" Lock these down (PYTHONNOUSERSITE=1, remove PYTHONPATH)."
       meta := some [("leakCount", MVal.num (mkRat leakCount 1)),
         ("pyPathCount", MVal.num (mkRat pyPathCount 1))] }]
  else []

/-- Rule 4 of `aggregateInsights`: high entropy (at least 8 distinct non-info
codes across at least 5 reports). -/
def entropyInsights (reports : List DoctorLiteReport) : List MapInsight :=
  let uniqueIssues :=
    (((reports.flatMap (·.findings)).filter fun f => f.severity != Severity.info).map (·.code)).dedup
  if reports.length ≥ 5 && uniqueIssues.length ≥ 8 then
    [{ severity := InsightSeverity.medium
       text := "High entropy detected: " ++ toString uniqueIssues.length ++
         " different issue types across " ++ toString reports.length ++
         " envs. Consider standardizing on 2‚Äì3 \"golden envs\" (data, web, ml) and routing tasks into them."
       meta := some [("envs", MVal.num (mkRat reports.length 1)),
         ("uniqueIssues", MVal.num (mkRat uniqueIssues.length 1))] }]
  else []

/-- The flaky-task clusters reported by rule 5 (`clusters.filter(isFlaky).slice(0, 3)`). -/
def flakyTasksOf (clusters : List TaskCluster) : List TaskCluster :=
  (clusters.filter isFlaky).take 3

/-- Rule 5 of `aggregateInsights`: one high-severity insight per flaky
cluster (up to 3). -/
def flakyInsights (clusters : List TaskCluster) : List MapInsight :=
  (flakyTasksOf clusters).map fun c =>
    let failingEnvs := getFailingEnvs c 2
    let envHint :=
      if failingEnvs.length ≠ 0 then
        " Failures concentrated in: " ++
          joinSep ", " (failingEnvs.map fun e => guessEnvLabel e.pythonPath) ++ "."
      else ""
    { severity := InsightSeverity.high
      text := "Flaky task detected: \"" ++ c.sig.name ++ "\" (success " ++
        jsToFixed0 (qMul c.successRate (mkRat 100 1)) ++ "%, " ++ toString c.runs ++
        " runs). Dominant failure: " ++ (c.dominantFailure.getD "unknown") ++ "." ++ envHint
      meta := some [("taskSig", MVal.str c.sig.sigId),
        ("runs", MVal.num (mkRat c.runs 1)),
        ("successRate", MVal.num c.successRate),
        ("dominantFailure",
          match c.dominantFailure with
          | some s => MVal.str s
          | Option.none => MVal.undefv)] }

/-- Rule 6 of `aggregateInsights`: up to 2 env-dependent flaky clusters not
already reported by rule 5. -/
def envFlakeInsights (clusters : List TaskCluster) : List MapInsight :=
  let flakyTasks := flakyTasksOf clusters
  ((clusters.filter isEnvDependentFlaky).take 2).filterMap fun c =>
    if flakyTasks.contains c then Option.none
    else
      let failingEnvs := getFailingEnvs c 2
      some
        { severity := InsightSeverity.high
          text := "Env-dependent flake: \"" ++ c.sig.name ++
            "\" succeeds on some envs but fails on others. Problem envs: " ++
            joinSep ", " (failingEnvs.map fun e => guessEnvLabel e.pythonPath) ++ "."
          meta := some [("taskSig", MVal.str c.sig.sigId),
            ("failingEnvs", MVal.strs (failingEnvs.map (·.pythonPath)))] }

/-- Rule 7 of `aggregateInsights`: failure hotspots — aggregate `FAILED_RUN`
edge weights per destination env, report the top 2 above weight 3. -/
def hotspotInsights (graph : GraphJSONv1) : List MapInsight :=
  let failByEnv := (graph.edges.filter fun e => e.type == EdgeType.FAILED_RUN).foldl
    (fun m e => setA m e.toId (qAdd ((getA m e.toId).getD (mkRat 0 1)) (e.weight.getD (mkRat 1 1))))
    []
  let worstEnvs := (sortByLe (fun a b => qLeB b.2 a.2) failByEnv).take 2
  worstEnvs.filterMap fun kv =>
    if qLtB kv.2 (mkRat 3 1) then Option.none
    else
      match graph.nodes.find? fun n => n.id == kv.1 with
      | Option.none => Option.none
      | some env =>
        some
          { severity := InsightSeverity.high
            text := "Failure hotspot: env \"" ++ env.label ++ "\" is associated with " ++
              jsNumToString kv.2 ++
              " failing runs. Consider rebuilding it or isolating it from routing."
            meta := some [("envId", MVal.str kv.1), ("failCount", MVal.num kv.2)] }

/-- Rule 8 of `aggregateInsights`: contagion — a single failure code
accounting for at least half of all failed runs. -/
def contagionInsights (graph : GraphJSONv1) (clusters : List TaskCluster) : List MapInsight :=
  if clusters.length ≠ 0 then
    let failureCodeCounts := clusters.foldl
      (fun m c => c.failureCounts.foldl
        (fun m kv => setA m kv.1 (((getA m kv.1).getD 0) + kv.2)) m)
      ([] : List (String × Nat))
    let totalFailures := graph.summary.runsFailed
    match (sortByLe (fun a b => decide (b.2 ≤ a.2)) failureCodeCounts).head? with
    | Option.none => []
    | some top =>
      if totalFailures > 0 && qLeB (mkRat 1 2) (mkRat top.2 totalFailures) then
        [{ severity := InsightSeverity.high
           text := "Most failures (" ++ toString top.2 ++ "/" ++ toString totalFailures ++
             ") share the same root cause: " ++ top.1 ++ ". " ++ hintForIssue top.1
           meta := some [("code", MVal.str top.1),
             ("count", MVal.num (mkRat top.2 1)),
             ("totalFailures", MVal.num (mkRat totalFailures 1))] }]
      else []
  else []

/-- The eight ordered rules of `aggregateInsights`, in source evaluation
order, before the fallback. -/
def rulesInsights (graph : GraphJSONv1) (reports : List DoctorLiteReport)
    (clusters : List TaskCluster) : List MapInsight :=
  topIssueInsights graph ++ blastRadiusInsights graph ++ hygieneInsights reports ++
    entropyInsights reports ++ flakyInsights clusters ++ envFlakeInsights clusters ++
    hotspotInsights graph ++ contagionInsights graph clusters

/-- The fallback insight pushed when no rule produced anything. -/
def fallbackInsight : MapInsight :=
  { severity := InsightSeverity.low
    text := "No major systemic risks detected. Keep env count small and prefer reproducible installs."
    meta := Option.none }

/-- mapRender.ts `aggregateInsights`. -/
def aggregateInsights (graph : GraphJSONv1) (reports : List DoctorLiteReport)
    (clusters : List TaskCluster) : List MapInsight :=
  let insights := rulesInsights graph reports clusters
  if insights.isEmpty then [fallbackInsight] else insights

/-! ## mapRender.ts — Mermaid renderer -/

/-- mapRender.ts `MermaidRenderOptions`. -/
structure MermaidRenderOptions where
  includeBaseSubgraphs : Option Bool
  includeHotEdgeLabels : Option Bool
  deriving DecidableEq

/-- Lookup modelling `new Map(nodes.map(n => [n.id, n])).get(i)` — with
duplicate ids the last-set entry wins, hence the reverse scan. -/
def jsMapGetNode (nodes : List GraphNode) (i : String) : Option GraphNode :=
  nodes.reverse.find? fun n => n.id == i

/-- The per-node line of `renderMermaid`. -/
def mermaidNodeLine (n : GraphNode) : String :=
  let mid := safeMermaidId n.id
  let label := mermaidLabel n
  let cls :=
    if n.type == NodeType.base then "base"
    else if n.type == NodeType.task then "task"
    else mermaidClass ((n.health.map (·.status)).getD HealthStatus.unknown)
  "  " ++ mid ++ "[\"" ++ escapeMermaid label ++ "\"]:::" ++ cls

/-- The per-`USES_BASE`-edge line of `renderMermaid`. -/
def mermaidUsesBaseLine (hotEdges : Bool) (e : GraphEdge) : String :=
  let label :=
    if hotEdges then
      match e.meta.bind fun m => getA m "dominantIssue" with
      | some (MVal.str s) => if s ≠ "" then emojiForIssue s ++ " " ++ s else "USES_BASE"
      | _ => "USES_BASE"
    else "USES_BASE"
  "  " ++ safeMermaidId e.fromId ++ " -->|" ++ escapeMermaid label ++ "| " ++ safeMermaidId e.toId

/-- The per-base subgraph block of `renderMermaid`. -/
def mermaidSubgraphFor (nodes : List GraphNode) (usesBase : List GraphEdge)
    (base : GraphNode) : List String :=
  let attached := ((usesBase.filter fun e => e.fromId == base.id).filterMap
    fun e => jsMapGetNode nodes e.toId).filter fun n => n.type == NodeType.venv
  if attached.length = 0 then []
  else
    ("  subgraph " ++ safeMermaidId base.id ++ "_cluster[\"" ++ escapeMermaid base.label ++ "\"]") ::
      (attached.map fun v => "    " ++ safeMermaidId v.id) ++ ["  end"]

/-- The per-task-edge line of `renderMermaid` (skipped when either endpoint
is missing from the node index). -/
def mermaidTaskEdgeLine (nodes : List GraphNode) (e : GraphEdge) : Option String :=
  if hasNodeId nodes e.fromId && hasNodeId nodes e.toId then
    let label := e.label.getD (edgeTypeName e.type)
    let style := if e.type == EdgeType.FAILED_RUN then " -.->|" else " -->|"
    some ("  " ++ safeMermaidId e.fromId ++ style ++ escapeMermaid label ++ "| " ++
      safeMermaidId e.toId)
  else Option.none

/-- mapRender.ts `renderMermaid`. -/
def renderMermaid (graph : GraphJSONv1) (opts : MermaidRenderOptions) : String :=
  let includeSubgraphs := opts.includeBaseSubgraphs.getD true
  let hotEdges := opts.includeHotEdgeLabels.getD true
  let baseNodes := graph.nodes.filter fun n => n.type == NodeType.base
  let nodeLines := graph.nodes.map mermaidNodeLine
  let usesBase := graph.edges.filter fun e => e.type == EdgeType.USES_BASE
  let usesBaseLines := usesBase.map (mermaidUsesBaseLine hotEdges)
  let subgraphLines :=
    if includeSubgraphs && baseNodes.length ≠ 0 then
      baseNodes.flatMap (mermaidSubgraphFor graph.nodes usesBase)
    else []
  let taskEdges := graph.edges.filter fun e =>
    e.type == EdgeType.ROUTES_TASK_TO || e.type == EdgeType.FAILED_RUN
  let taskEdgeLines := taskEdges.filterMap (mermaidTaskEdgeLine graph.nodes)
  let styleLines :=
    ["",
     "  classDef good fill:#eaffea,stroke:#2b8a3e,stroke-width:1px;",
     "  classDef warn fill:#fff4d6,stroke:#b7791f,stroke-width:1px;",
     "  classDef bad fill:#ffe3e3,stroke:#c92a2a,stroke-width:1px;",
     "  classDef unknown fill:#f1f3f5,stroke:#868e96,stroke-width:1px;",
     "  classDef base fill:#e7f5ff,stroke:#1c7ed6,stroke-width:1px;",
     "  classDef task fill:#f8f0fc,stroke:#862e9c,stroke-width:1px;",
     "",
     "  legend[\"Legend<br/>green=good ‚Ä¢ yellow=warn ‚Ä¢ red=bad ‚Ä¢ purple=task<br/>edge label = dominant failure\"]:::unknown"]
  joinSep "\n" (("graph TD" :: nodeLines) ++ usesBaseLines ++ subgraphLines ++
    taskEdgeLines ++ styleLines)

/-! ## mapRender.ts — the builder -/

/-- The "Create env nodes + base edges" pass of `mapRender` over the
surviving reports, from the empty state. -/
def pass1 (now : String) (included : List DoctorLiteReport) : BuildState :=
  included.foldl (reportStep now) emptyState

/-- The task-integration phase of `mapRender`: pass/fail totals, the cluster
list (clustered mode), and the extended build state. -/
def taskPhase (opts : ResolvedOptions) (runs : List RunLogEventV1) (st : BuildState) :
    Nat × Nat × List TaskCluster × BuildState :=
  if opts.taskMode != TaskMode.none && runs.length > 0 then
    let runsPassed := runs.countP fun r => r.outcome.ok
    let runsFailed := runs.countP fun r => !r.outcome.ok
    if opts.taskMode == TaskMode.clustered then
      let clusters := clusterRuns runs
      (runsPassed, runsFailed, clusters, clusters.foldl clusterTaskStep st)
    else
      (runsPassed, runsFailed, [], runs.foldl runTaskStep st)
  else (0, 0, [], st)

/-- The `GraphJSONv1` object literal assembled at the end of `mapRender`. -/
def buildGraph (now : String) (st : BuildState) (runsPassed runsFailed : Nat)
    (topIssues : List TopIssue) : GraphJSONv1 :=
  let counts := summarizeCounts st.nodes
  { version := "1.0"
    generatedAt := now
    host := ⟨osPlatform, osArch, osHostname⟩
    summary :=
      { envCount := st.nodes.countP fun n => n.type == NodeType.venv
        baseCount := st.nodes.countP fun n => n.type == NodeType.base
        taskCount := st.nodes.countP fun n => n.type == NodeType.task
        healthy := counts.1
        warning := counts.2.1
        broken := counts.2.2
        runsPassed
        runsFailed
        topIssues }
    nodes := st.nodes
    edges := st.edges }

/-- mapRender.ts `mapRender`.  All inputs are explicit; `now` models the
ambient wall clock read through `nowIso()`. -/
def mapRender (reports : List DoctorLiteReport) (runs : List RunLogEventV1)
    (options : MapRenderOptions) (now : String) : MapRenderResult :=
  let opts := resolveOptions options
  let included := reports.filter fun r => shouldIncludeReport r opts
  let st := rollupPass (pass1 now included)
  let tp := taskPhase opts runs st
  let runsPassed := tp.1
  let runsFailed := tp.2.1
  let clusters := tp.2.2.1
  let st := tp.2.2.2
  let topIssues := countTopIssues included opts.maxTopIssues
  let graph : GraphJSONv1 := buildGraph now st runsPassed runsFailed topIssues
  let insights := aggregateInsights graph included clusters
  let mermaid :=
    if opts.format == OutputFormat.mermaid || opts.format == OutputFormat.both then
      some (renderMermaid graph ⟨some opts.includeBaseSubgraphs, some opts.includeHotEdgeLabels⟩)
    else Option.none
  { graph, mermaid, insights }

/-! ## Specification-side definitions

These phrase the properties under verification in the spec's own terms, to
be compared with the behaviour of the embedded source functions above. -/

/-- The surviving reports: the filter applied by `mapRender` before any node
creation. -/
def includedReports (reports : List DoctorLiteReport) (options : MapRenderOptions) :
    List DoctorLiteReport :=
  reports.filter fun r => shouldIncludeReport r (resolveOptions options)

/-- The content-addressed id of the environment node derived from a report. -/
def envIdOf (r : DoctorLiteReport) : String := stableId "env" (normPath r.pythonPath)

/-- The destination ids of the `USES_BASE` edges of an edge array, in push
order. -/
def ubToIds (es : List GraphEdge) : List String :=
  (es.filter fun e => e.type == EdgeType.USES_BASE).map fun e => e.toId

/-- How many `USES_BASE` edges of the graph end at the given id (the number of
`USES_BASE` in-edges of the node carrying that id). -/
def usesBaseInCount (g : GraphJSONv1) (i : String) : Nat :=
  g.edges.countP fun e => e.type == EdgeType.USES_BASE && e.toId == i

/-- The node ids of a node array, in order. -/
def idsOf (ns : List GraphNode) : List String := ns.map fun n => n.id

/-- The `childEdges` filter of the base rollup, phrased over a raw edge
array: the `USES_BASE` edges leaving the given id. -/
def childEdgesL (es : List GraphEdge) (i : String) : List GraphEdge :=
  es.filter fun e => e.type == EdgeType.USES_BASE && e.fromId == i

/-- The `childNodes` filter of the base rollup over raw arrays. -/
def childNodesL (ns : List GraphNode) (es : List GraphEdge) (i : String) : List GraphNode :=
  ns.filter fun m => (childEdgesL es i).any fun e => e.toId == m.id

/-- The child scores feeding the base rollup, over raw arrays. -/
def childScoresL (ns : List GraphNode) (es : List GraphEdge) (i : String) : List ℚ :=
  (childNodesL ns es i).filterMap fun m => m.health.bind fun h => h.score

/-- The classification of every node the report pass creates: an environment
node (type venv, id prefixed by the env hash) or a base node (type base, id
prefixed by the base hash). -/
def nodeCls (n : GraphNode) : Prop :=
  (n.type = NodeType.venv ∧ ∃ s, n.id = stableId "env" s) ∨
  (n.type = NodeType.base ∧ ∃ s, n.id = stableId "base" s)

/-- The classification of every node any phase of the builder creates: an
environment node (id from the env hash), a base node (id from the base hash),
or a task node (id prefixed `task:`). -/
def nodeCls3 (n : GraphNode) : Prop :=
  (n.type = NodeType.venv ∧ ∃ s, n.id = stableId "env" s) ∨
  (n.type = NodeType.base ∧ ∃ s, n.id = stableId "base" s) ∨
  (n.type = NodeType.task ∧ ∃ s, n.id = "task:" ++ s)

/-- Every id recorded in `envIdByPyPath` is an environment id. -/
def envMapOk (st : BuildState) : Prop :=
  ∀ kv ∈ st.envIdByPyPath, ∃ s, kv.2 = stableId "env" s

/-- Every `ROUTES_TASK_TO` edge ends at an environment id. -/
def routesEnvOk (st : BuildState) : Prop :=
  ∀ e ∈ st.edges, e.type = EdgeType.ROUTES_TASK_TO → ∃ s, e.toId = stableId "env" s

/-- A node a task phase may append to a graph whose node array is `base`:
either a task node (id prefixed `task:`) or an environment node synthesized
only when its id was absent; never a base node. -/
def taskExtra (base : List GraphNode) (m : GraphNode) : Prop :=
  ((∃ s, m.id = "task:" ++ s) ∨ m.id ∉ idsOf base) ∧ m.type ≠ NodeType.base

/-- The `USES_BASE` children of a node in a finished graph (the spec's
"direct USES_BASE children"). -/
def usesBaseChildren (g : GraphJSONv1) (b : GraphNode) : List GraphNode :=
  g.nodes.filter fun m =>
    (g.edges.filter fun e => e.type == EdgeType.USES_BASE && e.fromId == b.id).any
      fun e => e.toId == m.id

/-- The numeric health scores carried by a node's `USES_BASE` children. -/
def childScores (g : GraphJSONv1) (b : GraphNode) : List ℚ :=
  (usesBaseChildren g b).filterMap fun m => m.health.bind (·.score)

/-- The spec's *lower median*: sort ascending and pick the element at index
`⌊n/2⌋` (`none` on an empty list). -/
def lowerMedian (l : List ℚ) : Option ℚ :=
  (sortByLe qLeB l).get? (l.length / 2)

/-- Overwrite the wall-clock stamp of a base node (the only nodes whose
`lastSeenAt` is read from the clock rather than from the input data). -/
def retime (t : String) (n : GraphNode) : GraphNode :=
  if n.type = NodeType.base then { n with lastSeenAt := some t } else n

/-- Overwrite every clock-derived field of a graph: the generation timestamp
and the base nodes' `lastSeenAt`. -/
def retimeGraph (t : String) (g : GraphJSONv1) : GraphJSONv1 :=
  { g with generatedAt := t, nodes := g.nodes.map (retime t) }

/-- Overwrite every clock-derived field of a full `mapRender` result. -/
def retimeResult (t : String) (res : MapRenderResult) : MapRenderResult :=
  { res with graph := retimeGraph t res.graph }

/-- Overwrite the clock-derived fields of a build state (only base nodes
carry one). -/
def retimeState (t : String) (st : BuildState) : BuildState :=
  { st with nodes := st.nodes.map (retime t) }

/-- The whitespace-separated words of a command, lower-cased: two command
strings "differ only in leading/trailing whitespace, runs of internal
whitespace, or letter case" exactly when their `lowerWords` agree. -/
def lowerWords (s : String) : List String := splitSep isWsChar (lowerStr s)

/-- The whitespace-word decomposition of a character list. -/
def splitW (l : List Char) : List (List Char) := splitSepAux isWsChar [] l

/-- The final build state produced inside `mapRender` (both passes and the
task phase). -/
def finalState (reports : List DoctorLiteReport) (runs : List RunLogEventV1)
    (options : MapRenderOptions) (now : String) : BuildState :=
  (taskPhase (resolveOptions options) runs
    (rollupPass (pass1 now (includedReports reports options)))).2.2.2

/-- One state extends another when its node and edge arrays are appended-to
versions of the other's (the builder only ever pushes). -/
def stExtends (st st' : BuildState) : Prop :=
  (∃ ns, st'.nodes = st.nodes ++ ns) ∧ (∃ es, st'.edges = st.edges ++ es)

/-- An edge whose two endpoints both occur among the given nodes. -/
def edgeResolved (ns : List GraphNode) (e : GraphEdge) : Prop :=
  (∃ n ∈ ns, n.id = e.fromId) ∧ (∃ n ∈ ns, n.id = e.toId)

/-- Referential integrity of a build state: every edge endpoints into the
node array. -/
def wfState (st : BuildState) : Prop :=
  ∀ e ∈ st.edges, edgeResolved st.nodes e

/-- Every id recorded in `baseIdByKey` belongs to a node. -/
def baseMapOk (st : BuildState) : Prop :=
  ∀ kv ∈ st.baseIdByKey, ∃ n ∈ st.nodes, n.id = kv.2

/-- Some node carries the given id. -/
def hasIdP (ns : List GraphNode) (i : String) : Prop := ∃ n ∈ ns, n.id = i

/-- Join words (character lists) with single spaces — the canonical shape of
a trimmed, whitespace-collapsed command. -/
def charJoin : List (List Char) → List Char
  | [] => []
  | [w] => w
  | w :: v :: ws => w ++ ' ' :: charJoin (v :: ws)

/-- Two optional requirement sets whose `packages`/`features`/`tags` lists
differ only in element order or letter case (and agree elsewhere). -/
def reqEquiv : Option TaskRequirements → Option TaskRequirements → Prop
  | Option.none, Option.none => True
  | some a, some b =>
    ((a.packages.getD []).map lowerStr).Perm ((b.packages.getD []).map lowerStr) ∧
      ((a.features.getD []).map lowerStr).Perm ((b.features.getD []).map lowerStr) ∧
      ((a.tags.getD []).map lowerStr).Perm ((b.tags.getD []).map lowerStr) ∧
      a.python = b.python ∧ a.requireX64 = b.requireX64
  | _, _ => False

/-! ## Concrete inputs used by the witnesses and counterexamples -/

/-- A requirement set shared by the example runs. -/
def demoReq : TaskRequirements :=
  ⟨Option.none, some ["pytest"], Option.none, some ["test"], Option.none⟩

/-- A successful example run. -/
def demoRun : RunLogEventV1 :=
  { runId := "r1", atTime := "2024-01-01T00:00:00Z", cwd := some "/repo",
    task := ⟨"pytest", "pytest tests/", Option.none, some demoReq⟩,
    selected := ⟨"/repo/.venv/bin/python", Option.none, some (mkRat 95 1), some HealthStatus.good⟩,
    outcome := ⟨true, some 0, Option.none, Option.none, Option.none⟩,
    doctor := Option.none }

/-- The same task with a doubled space in the command (the spec's clustering
example). -/
def demoRunSpaced : RunLogEventV1 :=
  { demoRun with runId := "r2", task := ⟨"pytest", "pytest  tests/", Option.none, some demoReq⟩ }

/-- A report with the given path, base prefix, score and status. -/
def demoReport (p bp : String) (sc : ℚ) (st : HealthStatus) : DoctorLiteReport :=
  { pythonPath := p, ranAt := "2024-01-01T00:00:00Z", status := st, score := sc,
    summary := "", facts := some ⟨"3.11.0", [3, 11, 0], p, "/envs", some bp, 64, "x86_64",
      "linux", [], Option.none, ""⟩, findings := [] }

/-- Three environments under one base with scores 90 / 50 / 30 (the spec's
lower-median example). -/
def medianReports : List DoctorLiteReport :=
  [demoReport "/envs/a/bin/python" "/usr" (mkRat 90 1) HealthStatus.good,
   demoReport "/envs/b/bin/python" "/usr" (mkRat 50 1) HealthStatus.warn,
   demoReport "/envs/c/bin/python" "/usr" (mkRat 30 1) HealthStatus.bad]

/-- A throwaway node used as the `headD` default when selecting a node that
is proved to exist. -/
def dummyNode : GraphNode :=
  ⟨"", NodeType.artifact, "", Option.none, Option.none, Option.none, Option.none,
    Option.none, Option.none⟩

/-- A throwaway edge used as the `headD` default. -/
def dummyEdge : GraphEdge :=
  ⟨"", "", "", EdgeType.CREATED_FROM, Option.none, Option.none, Option.none⟩

/-- The wall-clock instants used by the witnesses. -/
def wNow : String := "2026-01-01T00:00:00Z"

/-- A second, different wall-clock instant. -/
def wNow2 : String := "2026-02-02T00:00:00Z"

/-- The base node of the lower-median example's graph. -/
def medianBase : GraphNode :=
  (((mapRender medianReports [] defaultOptions wNow).graph.nodes.filter
    fun n => n.type == NodeType.base)).headD dummyNode

/-- The graph of the one-report input used by the determinism counterexample
and the USES_BASE-count witness (one report plus one run referencing an
environment path absent from the reports). -/
def mixedResult : MapRenderResult :=
  mapRender [demoReport "/envs/a/bin/python" "/usr" (mkRat 90 1) HealthStatus.good]
    [demoRun] defaultOptions wNow

/-- The report-derived venv node of `mixedResult`. -/
def mixedVenv : GraphNode :=
  ((mixedResult.graph.nodes.filter fun n => n.type == NodeType.venv)).headD dummyNode

/-- The first edge of `mixedResult` (for the referential-integrity witness). -/
def mixedEdge : GraphEdge := mixedResult.graph.edges.headD dummyEdge

/-- Clustered-mode result for a run whose environment path appears in no
report. -/
def orphanResult : MapRenderResult := mapRender [] [demoRun] defaultOptions wNow

/-- The routing edge of the clustered orphan run (for the env-resolution
witness). -/
def orphanRoute : GraphEdge :=
  (orphanResult.graph.edges.filter fun e =>
    e.type == EdgeType.ROUTES_TASK_TO).headD dummyEdge

/-- The same orphan run in per-run ("runs") task mode. -/
def orphanRunsResult : MapRenderResult :=
  mapRender [] [demoRun]
    { defaultOptions with taskMode := some TaskMode.runs } wNow

/-- An empty graph value (no nodes, edges, findings or runs). -/
def blankGraph : GraphJSONv1 :=
  { version := "1.0", generatedAt := wNow, host := ⟨osPlatform, osArch, osHostname⟩,
    summary := ⟨0, 0, 0, 0, 0, 0, 0, 0, []⟩, nodes := [], edges := [] }

/-- A hand-built venv node for the blast-radius witness graph. -/
def bwVenv (i : String) (st : HealthStatus) : GraphNode :=
  ⟨i, NodeType.venv, i, Option.none, Option.none,
    some ⟨st, Option.none, Option.none⟩, Option.none, Option.none, Option.none⟩

/-- A hand-built base node for the blast-radius witness graph. -/
def bwBase : GraphNode :=
  ⟨"B", NodeType.base, "base-X", Option.none, Option.none,
    some ⟨HealthStatus.unknown, Option.none, Option.none⟩, Option.none, Option.none,
    Option.none⟩

/-- A hand-built `USES_BASE` edge for the blast-radius witness graph. -/
def bwEdge (i : String) : GraphEdge :=
  ⟨"e" ++ i, "B", i, EdgeType.USES_BASE, Option.none, Option.none, Option.none⟩

/-- The blast-radius witness graph: one base with three venv children, two
of which are bad. -/
def blastGraph : GraphJSONv1 :=
  { blankGraph with
    nodes := [bwBase, bwVenv "V1" HealthStatus.bad, bwVenv "V2" HealthStatus.bad,
      bwVenv "V3" HealthStatus.good]
    edges := [bwEdge "V1", bwEdge "V2", bwEdge "V3"] }

/-! # Lemmas and theorems -/

set_option maxRecDepth 40000

theorem qLtB_iff (a b : ℚ) : qLtB a b = true ↔ a < b := by
  rw [qLtB, decide_eq_true_eq]
  exact Rat.lt_def.symm

theorem qLeB_iff (a b : ℚ) : qLeB a b = true ↔ a ≤ b := by
  rw [qLeB, decide_eq_true_eq]
  exact Rat.le_def.symm

theorem mkRat_tenth : (mkRat 2 10 : ℚ) = 2 / 10 := by
  norm_num [Rat.mkRat_eq_div]

theorem mkRat_ninetyfive : (mkRat 95 100 : ℚ) = 95 / 100 := by
  norm_num [Rat.mkRat_eq_div]

/-- Claim C4: `isFlaky` holds exactly when the cluster has at least one
success and at least one failure and its success rate lies strictly between
0.20 and 0.95, both bounds exclusive. -/
theorem isFlaky_iff_between (c : TaskCluster) :
    isFlaky c = true ↔
      0 < c.ok ∧ 0 < c.fail ∧ (2 / 10 : ℚ) < c.successRate ∧ c.successRate < 95 / 100 := by
  unfold isFlaky
  split
  next h =>
    simp only [Bool.or_eq_true, beq_iff_eq] at h
    refine ⟨fun hf => absurd hf Bool.false_ne_true, ?_⟩
    rintro ⟨h1, h2, -, -⟩
    rcases h with h | h
    · exact absurd h1 (by omega)
    · exact absurd h2 (by omega)
  next h =>
    simp only [Bool.or_eq_true, beq_iff_eq, not_or] at h
    rw [Bool.and_eq_true, qLtB_iff, qLtB_iff, mkRat_tenth, mkRat_ninetyfive]
    constructor
    · rintro ⟨h1, h2⟩
      exact ⟨Nat.pos_of_ne_zero h.1, Nat.pos_of_ne_zero h.2, h1, h2⟩
    · rintro ⟨_, _, h1, h2⟩
      exact ⟨h1, h2⟩

/-- Claim C9: if none of the eight ordered rules produced an insight, the
engine returns exactly the single low-severity fallback insight; the
returned list is non-empty on every input. -/
theorem insights_fallback_nonempty (g : GraphJSONv1) (reports : List DoctorLiteReport)
    (clusters : List TaskCluster) :
    (rulesInsights g reports clusters = [] →
      aggregateInsights g reports clusters = [fallbackInsight] ∧
        fallbackInsight.severity = InsightSeverity.low) ∧
      aggregateInsights g reports clusters ≠ [] := by
  have key : aggregateInsights g reports clusters =
      if (rulesInsights g reports clusters).isEmpty then [fallbackInsight]
      else rulesInsights g reports clusters := rfl
  constructor
  · intro h
    rw [key, h]
    exact ⟨rfl, rfl⟩
  · rw [key]
    cases hi : (rulesInsights g reports clusters).isEmpty
    · simp only [Bool.false_eq_true, if_false]
      exact (List.isEmpty_eq_false.mp hi)
    · simp

/-- Witness for C9: on an input where no rule fires (an empty graph, no
reports, no clusters) the engine returns exactly the fallback insight. -/
theorem insights_fallback_nonempty_witness :
    rulesInsights blankGraph [] [] = [] ∧
      aggregateInsights blankGraph [] [] = [fallbackInsight] :=
  ⟨by decide, ((insights_fallback_nonempty blankGraph [] []).1 (by decide)).1⟩

/-- Claim C8: every base node of the graph with at least 3 USES_BASE
children of which at least `⌈children/2⌉` are bad yields a high-severity
blast-radius insight from the insight engine, carrying the base's id. -/
theorem blast_radius_insight (g : GraphJSONv1) (reports : List DoctorLiteReport)
    (clusters : List TaskCluster) (b : GraphNode)
    (hb : b ∈ g.nodes) (hty : b.type = NodeType.base)
    (h3 : 3 ≤ (blastChildren g b).length)
    (hbad : ((blastChildren g b).length + 1) / 2 ≤ blastBadCount g b) :
    ∃ i ∈ aggregateInsights g reports clusters,
      i.severity = InsightSeverity.high ∧
        (i.meta.bind fun m => getA m "baseId") = some (MVal.str b.id) := by
  have hsome : blastForBase g b = some
      { severity := InsightSeverity.high
        text := "Base interpreter \"" ++ b.label ++ "\" has a large blast radius: " ++
          toString (blastBadCount g b) ++ "/" ++ toString (blastChildren g b).length ++
          " attached envs are bad. Fix the base first, then recreate envs."
        meta := some [("baseId", MVal.str b.id),
          ("total", MVal.num (mkRat (blastChildren g b).length 1)),
          ("bad", MVal.num (mkRat (blastBadCount g b) 1))] } := by
    simp only [blastForBase]
    rw [if_pos]
    simp only [Bool.and_eq_true, decide_eq_true_eq]
    exact ⟨h3, hbad⟩
  obtain ⟨i, hiEq, hiSev, hiMeta⟩ :
      ∃ i, blastForBase g b = some i ∧ i.severity = InsightSeverity.high ∧
        (i.meta.bind fun m => getA m "baseId") = some (MVal.str b.id) :=
    ⟨_, hsome, rfl, rfl⟩
  have hmemBlast : i ∈ blastRadiusInsights g :=
    List.mem_filterMap.mpr ⟨b, List.mem_filter.mpr ⟨hb, by simp [hty]⟩, hiEq⟩
  have hmemRules : i ∈ rulesInsights g reports clusters := by
    unfold rulesInsights
    simp only [List.mem_append]
    exact Or.inl (Or.inl (Or.inl (Or.inl (Or.inl (Or.inl (Or.inr hmemBlast))))))
  have key : aggregateInsights g reports clusters =
      if (rulesInsights g reports clusters).isEmpty then [fallbackInsight]
      else rulesInsights g reports clusters := rfl
  have hne : (rulesInsights g reports clusters).isEmpty ≠ true := by
    intro htrue
    rw [List.isEmpty_iff] at htrue
    rw [htrue] at hmemRules
    exact absurd hmemRules (List.not_mem_nil _)
  refine ⟨i, ?_, hiSev, hiMeta⟩
  rw [key, if_neg hne]
  exact hmemRules

/-- Witness for C8: a base with 3 attached envs, 2 of them bad, produces the
high-severity blast-radius insight. -/
theorem blast_radius_insight_witness :
    (bwBase ∈ blastGraph.nodes ∧ bwBase.type = NodeType.base ∧
      3 ≤ (blastChildren blastGraph bwBase).length ∧
      ((blastChildren blastGraph bwBase).length + 1) / 2 ≤ blastBadCount blastGraph bwBase) ∧
    ∃ i ∈ aggregateInsights blastGraph [] [],
      i.severity = InsightSeverity.high ∧
        (i.meta.bind fun m => getA m "baseId") = some (MVal.str bwBase.id) :=
  ⟨⟨by decide, by decide, by decide, by decide⟩,
    blast_radius_insight blastGraph [] [] bwBase (by decide) (by decide) (by decide) (by decide)⟩

/-! ## Character and whitespace facts (for the C5 normalization lemmas) -/

theorem charEq_toNat (c d : Char) : (c == d) = (c.toNat == d.toNat) := by
  by_cases h : c = d
  · subst h; simp
  · have : c.toNat ≠ d.toNat := by
      intro hn
      exact h (Char.ext (UInt32.ext hn))
    simp [h, this]

theorem isWsChar_toNat (c : Char) :
    isWsChar c = (c.toNat == 32 || c.toNat == 9 || c.toNat == 10 ||
      c.toNat == 13 || c.toNat == 11 || c.toNat == 12) := by
  unfold isWsChar
  rw [charEq_toNat, charEq_toNat, charEq_toNat, charEq_toNat, charEq_toNat, charEq_toNat]
  rfl

theorem toNat_jsLower (c : Char) :
    (jsLower c).toNat = if c.toNat ≥ 65 ∧ c.toNat ≤ 90 then c.toNat + 32 else c.toNat := by
  unfold jsLower
  split
  next h =>
    rw [if_pos (by simpa using h)]
    have hval : Nat.isValidChar (c.toNat + 32) := by
      simp only [Bool.and_eq_true, decide_eq_true_eq] at h
      left
      omega
    show (Char.ofNat (c.toNat + 32)).toNat = c.toNat + 32
    unfold Char.ofNat
    rw [dif_pos hval]
    rfl
  next h =>
    rw [if_neg (by simpa using h)]

theorem isWsChar_jsLower (c : Char) : isWsChar (jsLower c) = isWsChar c := by
  rw [isWsChar_toNat, isWsChar_toNat, toNat_jsLower]
  split
  next h =>
    obtain ⟨h1, h2⟩ := h
    rw [Bool.eq_iff_iff]
    simp only [Bool.or_eq_true, beq_iff_eq]
    omega
  next h => rfl

/-! ## Word-splitting lemmas -/

theorem splitW_nil : splitW [] = [] := rfl

theorem splitW_cons_ws {c : Char} (h : isWsChar c = true) (m : List Char) :
    splitW (c :: m) = splitW m := by
  simp [splitW, splitSepAux, h]

theorem splitSepAux_acc (m : List Char) : ∀ cur : List Char, cur ≠ [] →
    splitSepAux isWsChar cur m =
      (cur.reverse ++ m.takeWhile (fun c => !isWsChar c)) ::
        splitW (m.dropWhile (fun c => !isWsChar c)) := by
  induction m with
  | nil =>
    intro cur hcur
    simp [splitSepAux, hcur, splitW]
  | cons c cs ih =>
    intro cur hcur
    by_cases h : isWsChar c
    · simp only [splitSepAux, h, if_true, List.isEmpty_eq_true, hcur, if_false,
        List.takeWhile, List.dropWhile, Bool.not_true]
      rw [splitW_cons_ws h, List.append_nil]
      rfl
    · have h' : isWsChar c = false := by simpa using h
      simp only [splitSepAux, h', Bool.false_eq_true, if_false, List.takeWhile,
        List.dropWhile, Bool.not_false, if_true]
      rw [ih (c :: cur) (by simp)]
      simp

theorem splitW_cons_nonws {c : Char} (h : isWsChar c = false) (m : List Char) :
    splitW (c :: m) =
      (c :: m.takeWhile (fun d => !isWsChar d)) ::
        splitW (m.dropWhile (fun d => !isWsChar d)) := by
  show splitSepAux isWsChar [] (c :: m) = _
  simp only [splitSepAux, h, Bool.false_eq_true, if_false]
  rw [splitSepAux_acc m [c] (by simp)]
  rfl

theorem splitW_allws {m : List Char} (h : ∀ c ∈ m, isWsChar c = true) : splitW m = [] := by
  induction m with
  | nil => rfl
  | cons c cs ih =>
    rw [splitW_cons_ws (h c (by simp)) cs]
    exact ih fun d hd => h d (by simp [hd])

theorem splitW_dropWhile (m : List Char) : splitW (m.dropWhile isWsChar) = splitW m := by
  induction m with
  | nil => rfl
  | cons c cs ih =>
    by_cases h : isWsChar c
    · rw [List.dropWhile_cons_of_pos h, ih, splitW_cons_ws h]
    · rw [List.dropWhile_cons_of_neg h]

theorem takeWhile_append_all {p : α → Bool} {a : List α} (h : ∀ x ∈ a, p x = true)
    (b : List α) : (a ++ b).takeWhile p = a ++ b.takeWhile p := by
  induction a with
  | nil => rfl
  | cons x xs ih =>
    simp only [List.cons_append, List.takeWhile_cons, h x (by simp), if_true]
    rw [ih fun y hy => h y (by simp [hy])]

theorem dropWhile_append_all {p : α → Bool} {a : List α} (h : ∀ x ∈ a, p x = true)
    (b : List α) : (a ++ b).dropWhile p = b.dropWhile p := by
  induction a with
  | nil => rfl
  | cons x xs ih =>
    simp only [List.cons_append, List.dropWhile_cons, h x (by simp), if_true]
    exact ih fun y hy => h y (by simp [hy])

theorem takeWhile_append_stop {p : α → Bool} {a : List α} (h : ¬ ∀ x ∈ a, p x = true)
    (b : List α) : (a ++ b).takeWhile p = a.takeWhile p := by
  induction a with
  | nil => exact absurd (by simp) h
  | cons x xs ih =>
    by_cases hx : p x
    · have h' : ¬ ∀ y ∈ xs, p y = true := by
        intro hall
        exact h fun y hy => by
          rcases List.mem_cons.mp hy with rfl | hy'
          · exact hx
          · exact hall y hy'
      simp only [List.cons_append, List.takeWhile_cons, hx, if_true]
      rw [ih h']
    · have hx' : p x = false := by simpa using hx
      simp [List.takeWhile_cons, hx']

theorem dropWhile_append_stop {p : α → Bool} {a : List α} (h : ¬ ∀ x ∈ a, p x = true)
    (b : List α) : (a ++ b).dropWhile p = a.dropWhile p ++ b := by
  induction a with
  | nil => exact absurd (by simp) h
  | cons x xs ih =>
    by_cases hx : p x
    · have h' : ¬ ∀ y ∈ xs, p y = true := by
        intro hall
        exact h fun y hy => by
          rcases List.mem_cons.mp hy with rfl | hy'
          · exact hx
          · exact hall y hy'
      simp only [List.cons_append, List.dropWhile_cons, hx, if_true]
      exact ih h'
    · have hx' : p x = false := by simpa using hx
      simp [List.dropWhile_cons, hx']

theorem splitW_append_ws_aux {s : List Char} (hs : ∀ c ∈ s, isWsChar c = true) :
    ∀ n (l : List Char), l.length ≤ n → splitW (l ++ s) = splitW l := by
  intro n
  induction n with
  | zero =>
    intro l hl
    have hnil : l = [] := List.eq_nil_of_length_eq_zero (Nat.le_zero.mp hl)
    subst hnil
    rw [List.nil_append, splitW_allws hs, splitW_nil]
  | succ n ih =>
    intro l hl
    match l with
    | [] => rw [List.nil_append, splitW_allws hs, splitW_nil]
    | c :: cs =>
      by_cases h : isWsChar c
      · rw [List.cons_append, splitW_cons_ws h, splitW_cons_ws h]
        exact ih cs (by simpa using hl)
      · have h' : isWsChar c = false := by simpa using h
        rw [List.cons_append, splitW_cons_nonws h', splitW_cons_nonws h']
        by_cases hall : ∀ x ∈ cs, (fun d => !isWsChar d) x = true
        · rw [takeWhile_append_all hall, dropWhile_append_all hall]
          have ht : s.takeWhile (fun d => !isWsChar d) = [] := by
            cases s with
            | nil => rfl
            | cons a as => simp [List.takeWhile_cons, hs a (by simp)]
          have hd : s.dropWhile (fun d => !isWsChar d) = s := by
            cases s with
            | nil => rfl
            | cons a as => simp [List.dropWhile_cons, hs a (by simp)]
          have ht2 : cs.takeWhile (fun d => !isWsChar d) = cs := by
            have := takeWhile_append_all hall ([] : List Char)
            simpa using this
          have hd2 : cs.dropWhile (fun d => !isWsChar d) = [] := by
            have := dropWhile_append_all hall ([] : List Char)
            simpa using this
          rw [ht, hd, ht2, hd2, splitW_allws hs, splitW_nil, List.append_nil]
        · rw [takeWhile_append_stop hall, dropWhile_append_stop hall]
          congr 1
          refine ih _ (le_trans ((List.dropWhile_sublist _).length_le) ?_)
          simpa using hl

theorem splitW_append_ws {s : List Char} (hs : ∀ c ∈ s, isWsChar c = true)
    (l : List Char) : splitW (l ++ s) = splitW l :=
  splitW_append_ws_aux hs l.length l (le_refl _)

theorem trimR_decomp (l : List Char) :
    l = (l.reverse.dropWhile isWsChar).reverse ++ (l.reverse.takeWhile isWsChar).reverse := by
  conv_lhs => rw [← l.reverse_reverse, ← List.takeWhile_append_dropWhile isWsChar l.reverse]
  rw [List.reverse_append]

theorem splitW_trimChars (l : List Char) : splitW (trimChars l) = splitW l := by
  unfold trimChars
  have hsuf : ∀ c ∈ ((l.dropWhile isWsChar).reverse.takeWhile isWsChar).reverse,
      isWsChar c = true := by
    intro c hc
    exact List.mem_takeWhile_imp (List.mem_reverse.mp hc)
  calc splitW ((l.dropWhile isWsChar).reverse.dropWhile isWsChar).reverse
      = splitW (((l.dropWhile isWsChar).reverse.dropWhile isWsChar).reverse ++
          ((l.dropWhile isWsChar).reverse.takeWhile isWsChar).reverse) :=
        (splitW_append_ws hsuf _).symm
    _ = splitW (l.dropWhile isWsChar) := by rw [← trimR_decomp]
    _ = splitW l := splitW_dropWhile l

/-! ## Whitespace-collapse lemmas -/

theorem dropWhile_head_false {p : α → Bool} :
    ∀ {l : List α} {c : α} {t : List α}, l.dropWhile p = c :: t → p c = false := by
  intro l
  induction l with
  | nil => intro c t h; cases h
  | cons x xs ih =>
    intro c t h
    by_cases hx : p x
    · rw [List.dropWhile_cons_of_pos hx] at h
      exact ih h
    · rw [List.dropWhile_cons_of_neg hx] at h
      cases h
      simpa using hx

theorem collapse_nonws {a : List Char} (h : ∀ x ∈ a, isWsChar x = false) :
    ∀ b t, collapseWsAux b (a ++ t) = a ++ collapseWsAux (if a.isEmpty then b else false) t := by
  induction a with
  | nil => intro b t; simp
  | cons x xs ih =>
    intro b t
    have hx : isWsChar x = false := h x (by simp)
    simp only [List.cons_append, collapseWsAux, hx, Bool.false_eq_true, if_false,
      List.append_eq]
    rw [ih (fun y hy => h y (by simp [hy])) false t]
    simp

theorem collapse_wsrun_true {a : List Char} (h : ∀ x ∈ a, isWsChar x = true) :
    ∀ t, collapseWsAux true (a ++ t) = collapseWsAux true t := by
  induction a with
  | nil => intro t; rfl
  | cons x xs ih =>
    intro t
    have hx : isWsChar x = true := h x (by simp)
    simp only [List.cons_append, collapseWsAux, hx, if_true, List.append_eq]
    exact ih (fun y hy => h y (by simp [hy])) t

theorem collapse_wsrun_false {a : List Char} (h : ∀ x ∈ a, isWsChar x = true)
    (hne : a ≠ []) (t : List Char) :
    collapseWsAux false (a ++ t) = ' ' :: collapseWsAux true t := by
  match a, hne with
  | x :: xs, _ =>
    have hx : isWsChar x = true := h x (by simp)
    simp only [List.cons_append, collapseWsAux, hx, if_true, Bool.false_eq_true, if_false,
      List.append_eq]
    rw [collapse_wsrun_true (fun y hy => h y (by simp [hy])) t]

theorem collapse_true_eq_false_of_head {t : List Char}
    (h : t = [] ∨ ∃ c cs, t = c :: cs ∧ isWsChar c = false) :
    collapseWsAux true t = collapseWsAux false t := by
  rcases h with rfl | ⟨c, cs, rfl, hc⟩
  · rfl
  · simp only [collapseWsAux, hc, Bool.false_eq_true, if_false]

theorem collapse_trim_join_aux :
    ∀ n (l : List Char), l.length ≤ n →
      (∀ c t, l = c :: t → isWsChar c = false) →
      (∀ c, l.getLast? = some c → isWsChar c = false) →
      collapseWs l = charJoin (splitW l) := by
  intro n
  induction n with
  | zero =>
    intro l hl _ _
    have hnil : l = [] := List.eq_nil_of_length_eq_zero (Nat.le_zero.mp hl)
    subst hnil
    rfl
  | succ n ih =>
    intro l hl hhead hlast
    match l with
    | [] => rfl
    | c :: cs =>
      have hc : isWsChar c = false := hhead c cs rfl
      have hcs : cs.takeWhile (fun d => !isWsChar d) ++ cs.dropWhile (fun d => !isWsChar d) = cs :=
        List.takeWhile_append_dropWhile _ _
      have hw : ∀ x ∈ c :: cs.takeWhile (fun d => !isWsChar d), isWsChar x = false := by
        intro x hx
        rcases List.mem_cons.mp hx with rfl | hx'
        · exact hc
        · simpa using List.mem_takeWhile_imp hx'
      have hshape : (c :: cs) = (c :: cs.takeWhile (fun d => !isWsChar d)) ++
          cs.dropWhile (fun d => !isWsChar d) := by
        rw [List.cons_append, hcs]
      have hA : collapseWs (c :: cs) = (c :: cs.takeWhile (fun d => !isWsChar d)) ++
          collapseWsAux false (cs.dropWhile (fun d => !isWsChar d)) := by
        show collapseWsAux false (c :: cs) = _
        rw [hshape, collapse_nonws hw false _]
        rfl
      have hB : splitW (c :: cs)
          = (c :: cs.takeWhile (fun d => !isWsChar d)) ::
            splitW (cs.dropWhile (fun d => !isWsChar d)) := splitW_cons_nonws hc cs
      rw [hA, hB]
      cases hrest : cs.dropWhile (fun d => !isWsChar d) with
      | nil =>
        rw [show collapseWsAux false ([] : List Char) = [] from rfl, List.append_nil]
        rfl
      | cons r0 rrest =>
        have hws0 : isWsChar r0 = true := by
          have := dropWhile_head_false hrest
          simpa using this
        cases hrest' : (r0 :: rrest).dropWhile isWsChar with
        | nil =>
          exfalso
          have hne : (r0 :: rrest) ≠ ([] : List Char) := by simp
          have hgl : (r0 :: rrest).getLast? = some ((r0 :: rrest).getLast hne) :=
            List.getLast?_eq_getLast _ hne
          have hlastl : ((c :: cs) : List Char).getLast? = some ((r0 :: rrest).getLast hne) := by
            rw [hshape, hrest, List.getLast?_append, hgl]
            rfl
          have hx : (r0 :: rrest).getLast hne ∈ r0 :: rrest := List.getLast_mem hne
          have hfalse := hlast _ hlastl
          rw [List.dropWhile_eq_nil_iff.mp hrest' _ hx] at hfalse
          cases hfalse
        | cons d ds =>
          have hd : isWsChar d = false := dropWhile_head_false hrest'
          have hdecomp : (r0 :: rrest) = (r0 :: rrest).takeWhile isWsChar ++ (d :: ds) := by
            conv_lhs => rw [← List.takeWhile_append_dropWhile isWsChar (r0 :: rrest)]
            rw [hrest']
          have hwsrun : ∀ x ∈ (r0 :: rrest).takeWhile isWsChar, isWsChar x = true :=
            fun x hx => List.mem_takeWhile_imp hx
          have hwsrun_ne : (r0 :: rrest).takeWhile isWsChar ≠ [] := by
            rw [List.takeWhile_cons, hws0]
            simp
          have hC : collapseWsAux false (r0 :: rrest) = ' ' :: collapseWsAux false (d :: ds) := by
            conv_lhs => rw [hdecomp]
            rw [collapse_wsrun_false hwsrun hwsrun_ne]
            rw [collapse_true_eq_false_of_head (Or.inr ⟨d, ds, rfl, hd⟩)]
          have hlen : (d :: ds).length ≤ n := by
            have h1 : (r0 :: rrest).length ≤ cs.length := by
              rw [← hrest]
              exact (List.dropWhile_sublist _).length_le
            have h2 : (d :: ds).length ≤ (r0 :: rrest).length := by
              rw [← hrest']
              exact (List.dropWhile_sublist _).length_le
            have h3 : cs.length + 1 ≤ n + 1 := by simpa using hl
            omega
          have hlast' : ∀ x, (d :: ds).getLast? = some x → isWsChar x = false := by
            intro x hx
            apply hlast
            rw [hshape, hrest, hdecomp, List.getLast?_append, List.getLast?_append, hx]
            rfl
          have hih : collapseWs (d :: ds) = charJoin (splitW (d :: ds)) :=
            ih (d :: ds) hlen (by intro c' t' he; cases he; exact hd) hlast'
          have hsplitD : splitW (r0 :: rrest) = splitW (d :: ds) := by
            rw [← hrest']
            exact (splitW_dropWhile _).symm
          rw [hC, hsplitD]
          show _ ++ ' ' :: collapseWs (d :: ds) = _
          rw [hih, splitW_cons_nonws hd ds]
          rfl

theorem head_trimChars_not_ws {l : List Char} {c : Char} {t : List Char}
    (h : trimChars l = c :: t) : isWsChar c = false := by
  unfold trimChars at h
  have hdec := trimR_decomp (l.dropWhile isWsChar)
  rw [h] at hdec
  exact dropWhile_head_false hdec

theorem last_trimChars_not_ws {l : List Char} {c : Char}
    (h : (trimChars l).getLast? = some c) : isWsChar c = false := by
  unfold trimChars at h
  rw [List.getLast?_reverse] at h
  match hv : (l.dropWhile isWsChar).reverse.dropWhile isWsChar, h' : h with
  | c' :: t', _ =>
    rw [hv] at h
    cases h
    exact dropWhile_head_false hv

theorem collapseWs_trim_eq_join (l : List Char) :
    collapseWs (trimChars l) = charJoin (splitW l) := by
  rw [← splitW_trimChars l]
  exact collapse_trim_join_aux (trimChars l).length (trimChars l) (le_refl _)
    (fun c t h => head_trimChars_not_ws h)
    (fun c h => last_trimChars_not_ws h)

theorem collapse_map_lower : ∀ (b : Bool) (l : List Char),
    (collapseWsAux b l).map jsLower = collapseWsAux b (l.map jsLower) := by
  intro b l
  induction l generalizing b with
  | nil => rfl
  | cons c cs ih =>
    simp only [List.map_cons, collapseWsAux, isWsChar_jsLower]
    by_cases h : isWsChar c
    · simp only [h, if_true]
      by_cases hb : b
      · subst hb
        simp only [if_pos rfl]
        exact ih true
      · have hb' : b = false := by simpa using hb
        subst hb'
        simp only [Bool.false_eq_true, if_false, List.map_cons]
        rw [ih true]
        rfl
    · have h' : isWsChar c = false := by simpa using h
      simp only [h', Bool.false_eq_true, if_false, List.map_cons]
      rw [ih false]

theorem trim_map_lower (l : List Char) :
    (trimChars l).map jsLower = trimChars (l.map jsLower) := by
  unfold trimChars
  have hcomp : (isWsChar ∘ jsLower) = isWsChar := funext fun c => isWsChar_jsLower c
  rw [List.dropWhile_map, hcomp, ← List.map_reverse, List.dropWhile_map, hcomp,
    ← List.map_reverse]

theorem joinSep_space_data (L : List (List Char)) :
    (joinSep " " (L.map fun w => (⟨w⟩ : String))).data = charJoin L := by
  match L with
  | [] => rfl
  | [w] => rfl
  | w :: v :: ws =>
    show (((⟨w⟩ : String) ++ " ") ++ joinSep " " ((v :: ws).map fun w => (⟨w⟩ : String))).data = _
    rw [String.data_append, String.data_append, joinSep_space_data (v :: ws)]
    show (w ++ [' ']) ++ charJoin (v :: ws) = w ++ ' ' :: charJoin (v :: ws)
    rw [List.append_assoc]
    rfl

/-- The normalized command is exactly its lower-cased words joined by single
spaces: `normCmd` is a function of `lowerWords`. -/
theorem normCmd_eq_join (s : String) : normCmd s = joinSep " " (lowerWords s) := by
  apply String.ext
  show ((collapseWs (trimChars s.data)).map jsLower) = _
  have h1 : (collapseWs (trimChars s.data)).map jsLower
      = collapseWs (trimChars (s.data.map jsLower)) := by
    show (collapseWsAux false (trimChars s.data)).map jsLower = _
    rw [collapse_map_lower false, trim_map_lower]
    rfl
  rw [h1, collapseWs_trim_eq_join]
  have h2 : lowerWords s = (splitW (s.data.map jsLower)).map fun w => (⟨w⟩ : String) := rfl
  rw [h2, joinSep_space_data]

/-! ## Stable-sort lemmas -/

theorem insertLe_perm (le : α → α → Bool) (x : α) (l : List α) :
    (insertLe le x l).Perm (x :: l) := by
  induction l with
  | nil => exact List.Perm.refl _
  | cons y ys ih =>
    unfold insertLe
    by_cases h : le x y
    · rw [if_pos h]
    · rw [if_neg h]
      exact (ih.cons y).trans (List.Perm.swap x y ys)

theorem sortByLe_perm (le : α → α → Bool) (l : List α) : (sortByLe le l).Perm l := by
  induction l with
  | nil => exact List.Perm.refl _
  | cons x xs ih =>
    exact (insertLe_perm le x (sortByLe le xs)).trans (ih.cons x)

theorem insertLe_sorted {le : α → α → Bool}
    (htot : ∀ a b, le a b = true ∨ le b a = true)
    (htrans : ∀ a b c, le a b = true → le b c = true → le a c = true)
    (x : α) {l : List α} (hsort : l.Sorted fun a b => le a b = true) :
    (insertLe le x l).Sorted fun a b => le a b = true := by
  induction l with
  | nil => simp [insertLe]
  | cons y ys ih =>
    obtain ⟨hy, hys⟩ := List.sorted_cons.mp hsort
    unfold insertLe
    by_cases h : le x y
    · rw [if_pos h]
      refine List.sorted_cons.mpr ⟨?_, hsort⟩
      intro b hb
      rcases List.mem_cons.mp hb with rfl | hb'
      · exact h
      · exact htrans x y b h (hy b hb')
    · rw [if_neg h]
      refine List.sorted_cons.mpr ⟨?_, ih hys⟩
      intro b hb
      have hb' : b ∈ x :: ys := (insertLe_perm le x ys).mem_iff.mp hb
      rcases List.mem_cons.mp hb' with rfl | hb''
      · rcases htot y b with hyx | hxy
        · exact hyx
        · rcases htot b y with h1 | h1
          · exact absurd h1 (by simpa using h)
          · exact h1
      · exact hy b hb''

theorem sortByLe_sorted {le : α → α → Bool}
    (htot : ∀ a b, le a b = true ∨ le b a = true)
    (htrans : ∀ a b c, le a b = true → le b c = true → le a c = true)
    (l : List α) : (sortByLe le l).Sorted fun a b => le a b = true := by
  induction l with
  | nil => simp [sortByLe]
  | cons x xs ih => exact insertLe_sorted htot htrans x ih

theorem charsLe_total : ∀ a b : List Char, charsLe a b = true ∨ charsLe b a = true := by
  intro a
  induction a with
  | nil => intro b; left; rfl
  | cons x xs ih =>
    intro b
    cases b with
    | nil => right; rfl
    | cons y ys =>
      unfold charsLe
      rcases Nat.lt_trichotomy x.toNat y.toNat with h | h | h
      · left
        rw [if_pos h]
      · rw [h]
        simp only [lt_irrefl, if_false]
        exact ih ys
      · right
        rw [if_pos h]

theorem charsLe_trans :
    ∀ a b c : List Char, charsLe a b = true → charsLe b c = true → charsLe a c = true := by
  intro a
  induction a with
  | nil => intro b c _ _; rfl
  | cons x xs ih =>
    intro b c hab hbc
    cases b with
    | nil => cases hab
    | cons y ys =>
      cases c with
      | nil => cases hbc
      | cons z zs =>
        unfold charsLe at hab hbc ⊢
        by_cases hxy : x.toNat < y.toNat
        · by_cases hyz : y.toNat < z.toNat
          · rw [if_pos (by omega)]
          · rw [if_pos hxy] at hab
            by_cases hzy : z.toNat < y.toNat
            · rw [if_neg hyz, if_pos hzy] at hbc
              cases hbc
            · have : y.toNat = z.toNat := by omega
              rw [if_pos (by omega)]
        · by_cases hyx : y.toNat < x.toNat
          · rw [if_neg hxy, if_pos hyx] at hab
            cases hab
          · have hxyeq : x.toNat = y.toNat := by omega
            rw [if_neg hxy, if_neg hyx] at hab
            by_cases hyz : y.toNat < z.toNat
            · rw [if_pos (by omega)]
            · by_cases hzy : z.toNat < y.toNat
              · rw [if_neg hyz, if_pos hzy] at hbc
                cases hbc
              · rw [if_neg hyz, if_neg hzy] at hbc
                rw [if_neg (by omega), if_neg (by omega)]
                exact ih ys zs hab hbc

theorem charsLe_antisymm :
    ∀ a b : List Char, charsLe a b = true → charsLe b a = true → a = b := by
  intro a
  induction a with
  | nil =>
    intro b _ hba
    cases b with
    | nil => rfl
    | cons y ys => cases hba
  | cons x xs ih =>
    intro b hab hba
    cases b with
    | nil => cases hab
    | cons y ys =>
      unfold charsLe at hab hba
      by_cases hxy : x.toNat < y.toNat
      · rw [if_neg (by omega), if_pos hxy] at hba
        cases hba
      · by_cases hyx : y.toNat < x.toNat
        · rw [if_neg hxy, if_pos hyx] at hab
          cases hab
        · rw [if_neg hxy, if_neg hyx] at hab
          rw [if_neg hyx, if_neg hxy] at hba
          have hxy2 : x.toNat = y.toNat := by omega
          have hx : x = y := Char.ext (UInt32.ext hxy2)
          rw [hx, ih ys hab hba]

theorem jsStrLe_total (a b : String) : jsStrLe a b = true ∨ jsStrLe b a = true :=
  charsLe_total a.data b.data

theorem jsStrLe_trans (a b c : String) :
    jsStrLe a b = true → jsStrLe b c = true → jsStrLe a c = true :=
  charsLe_trans a.data b.data c.data

theorem jsStrLe_antisymm (a b : String) :
    jsStrLe a b = true → jsStrLe b a = true → a = b :=
  fun h1 h2 => String.ext (charsLe_antisymm a.data b.data h1 h2)

theorem sortByLe_str_eq_of_perm {l1 l2 : List String} (h : l1.Perm l2) :
    sortByLe jsStrLe l1 = sortByLe jsStrLe l2 := by
  haveI : IsAntisymm String (fun a b => jsStrLe a b = true) :=
    ⟨fun a b => jsStrLe_antisymm a b⟩
  exact List.eq_of_perm_of_sorted
    ((sortByLe_perm _ l1).trans (h.trans (sortByLe_perm _ l2).symm))
    (sortByLe_sorted jsStrLe_total jsStrLe_trans l1)
    (sortByLe_sorted jsStrLe_total jsStrLe_trans l2)

theorem normReq_congr {a b : Option TaskRequirements} (h : reqEquiv a b) :
    normReq a = normReq b := by
  match a, b, h with
  | Option.none, Option.none, _ => rfl
  | some a, some b, ⟨hp, hf, ht, hpy, hx⟩ =>
    show "py=" ++ _ ++ "|pkgs=" ++ _ ++ "|feat=" ++ _ ++ "|tags=" ++ _ ++ "|" ++ _ = _
    rw [hpy, hx, sortByLe_str_eq_of_perm hp, sortByLe_str_eq_of_perm hf,
      sortByLe_str_eq_of_perm ht]
    rfl

/-- Claim C5: two run records with equal task names whose commands differ
only in whitespace runs / case (equal `lowerWords`) and whose requirement
lists differ only in order / case receive the same `TaskSignature` (in
particular the same `sigId`), so clustering groups them together. -/
theorem signature_invariance (r1 r2 : RunLogEventV1)
    (hname : r1.task.name = r2.task.name)
    (hcmd : lowerWords r1.task.command = lowerWords r2.task.command)
    (hreq : reqEquiv r1.task.requirements r2.task.requirements) :
    signatureForRun r1 = signatureForRun r2 := by
  have hc : normCmd r1.task.command = normCmd r2.task.command := by
    rw [normCmd_eq_join, normCmd_eq_join, hcmd]
  have hr : normReq r1.task.requirements = normReq r2.task.requirements := normReq_congr hreq
  unfold signatureForRun
  rw [hname, hc, hr]

/-- Witness for C5: the spec's example — commands `"pytest tests/"` and
`"pytest  tests/"` (doubled space) yield the same `sigId`. -/
theorem signature_invariance_witness :
    (demoRun.task.name = demoRunSpaced.task.name ∧
      lowerWords demoRun.task.command = lowerWords demoRunSpaced.task.command ∧
      reqEquiv demoRun.task.requirements demoRunSpaced.task.requirements) ∧
    (signatureForRun demoRun).sigId = (signatureForRun demoRunSpaced).sigId :=
  ⟨⟨rfl, by decide, ⟨List.Perm.refl _, List.Perm.refl _, List.Perm.refl _, rfl, rfl⟩⟩,
   congrArg TaskSignature.sigId
     (signature_invariance demoRun demoRunSpaced rfl (by decide)
       ⟨List.Perm.refl _, List.Perm.refl _, List.Perm.refl _, rfl, rfl⟩)⟩

/-! ## Fold helpers and build-state invariants -/

theorem foldl_preserves {β α : Type*} {f : β → α → β} {P : β → Prop}
    (h : ∀ st a, P st → P (f st a)) (l : List α) : ∀ st, P st → P (l.foldl f st) := by
  induction l with
  | nil => intro st hst; exact hst
  | cons x xs ih => intro st hst; exact ih _ (h st x hst)

theorem foldl_establishes {β α : Type*} {f : β → α → β} {P : β → Prop} {x : α} {l : List α}
    (hstep : ∀ st, P (f st x)) (hpres : ∀ st a, P st → P (f st a)) (hm : x ∈ l) :
    ∀ st, P (l.foldl f st) := by
  induction l with
  | nil => cases hm
  | cons y ys ih =>
    intro st
    rcases List.mem_cons.mp hm with rfl | hm'
    · exact foldl_preserves hpres ys _ (hstep st)
    · exact ih hm' _

theorem stExtends_refl (st : BuildState) : stExtends st st :=
  ⟨⟨[], by simp⟩, ⟨[], by simp⟩⟩

theorem stExtends_trans {a b c : BuildState} (h1 : stExtends a b) (h2 : stExtends b c) :
    stExtends a c := by
  obtain ⟨⟨n1, hn1⟩, ⟨e1, he1⟩⟩ := h1
  obtain ⟨⟨n2, hn2⟩, ⟨e2, he2⟩⟩ := h2
  exact ⟨⟨n1 ++ n2, by rw [hn2, hn1, List.append_assoc]⟩,
    ⟨e1 ++ e2, by rw [he2, he1, List.append_assoc]⟩⟩

theorem hasIdP_mono {ns more : List GraphNode} {i : String} (h : hasIdP ns i) :
    hasIdP (ns ++ more) i := by
  obtain ⟨n, hn, hid⟩ := h
  exact ⟨n, List.mem_append_left _ hn, hid⟩

theorem edgeResolved_mono {ns more : List GraphNode} {e : GraphEdge}
    (h : edgeResolved ns e) : edgeResolved (ns ++ more) e := by
  obtain ⟨⟨n1, hn1, h1⟩, ⟨n2, hn2, h2⟩⟩ := h
  exact ⟨⟨n1, List.mem_append_left _ hn1, h1⟩, ⟨n2, List.mem_append_left _ hn2, h2⟩⟩

theorem hasNodeId_iff (ns : List GraphNode) (i : String) :
    hasNodeId ns i = true ↔ hasIdP ns i := by
  unfold hasNodeId hasIdP
  rw [List.any_eq_true]
  constructor
  · rintro ⟨n, hn, hid⟩
    exact ⟨n, hn, by simpa using hid⟩
  · rintro ⟨n, hn, hid⟩
    exact ⟨n, hn, by simpa using hid⟩

theorem reportStep_shape (now : String) (st : BuildState) (r : DoctorLiteReport) :
    ∃ (tail : List GraphNode) (e : GraphEdge),
      (reportStep now st r).nodes = st.nodes ++ envNodeOf r :: tail ∧
      (reportStep now st r).edges = st.edges ++ [e] ∧
      e.type = EdgeType.USES_BASE ∧ e.toId = stableId "env" (normPath r.pythonPath) ∧
      (tail = [] ∨ tail = [baseNodeOf now (normPath (deriveBaseKey r)) (deriveBaseKey r)
        (derivePyVersion r) (pickArch r.facts)]) := by
  unfold reportStep getOrCreateBaseNode
  dsimp only
  split
  next id heq =>
    exact ⟨[], _, by simp, rfl, rfl, rfl, Or.inl rfl⟩
  next heq =>
    refine ⟨[baseNodeOf now (normPath (deriveBaseKey r)) (deriveBaseKey r)
      (derivePyVersion r) (pickArch r.facts)], _, ?_, rfl, rfl, rfl, Or.inr rfl⟩
    dsimp only
    rw [List.append_assoc]
    rfl

theorem getA_some {α : Type*} {m : List (String × α)} {k : String} {v : α}
    (h : getA m k = some v) : ∃ kv ∈ m, kv.2 = v := by
  unfold getA at h
  cases hf : m.find? (fun kv => kv.1 == k) with
  | none => rw [hf] at h; cases h
  | some kv =>
    rw [hf] at h
    cases h
    exact ⟨kv, List.mem_of_find?_eq_some hf, rfl⟩

theorem mem_setA {α : Type*} {m : List (String × α)} {k : String} {v : α} {kv : String × α}
    (h : kv ∈ setA m k v) : kv = (k, v) ∨ kv ∈ m := by
  unfold setA at h
  split at h
  · obtain ⟨kv', hkv', heq⟩ := List.mem_map.mp h
    by_cases hk : kv'.1 == k
    · rw [if_pos hk] at heq
      exact Or.inl heq.symm
    · rw [if_neg hk] at heq
      exact Or.inr (heq ▸ hkv')
  · rcases List.mem_append.mp h with h' | h'
    · exact Or.inr h'
    · exact Or.inl (List.mem_singleton.mp h')

theorem reportStep_pres_wf (now : String) (st : BuildState) (r : DoctorLiteReport)
    (hwf : wfState st) (hbm : baseMapOk st) :
    wfState (reportStep now st r) ∧ baseMapOk (reportStep now st r) := by
  unfold reportStep getOrCreateBaseNode
  dsimp only
  split
  next id heq =>
    constructor
    · intro e he
      dsimp only at he
      rcases List.mem_append.mp he with he' | he'
      · exact edgeResolved_mono (hwf e he')
      · have he2 : e = usesBaseEdge id (stableId "env" (normPath r.pythonPath))
            (dominantIssue r.findings) := List.mem_singleton.mp he'
        subst he2
        constructor
        · obtain ⟨kv, hkv, hv⟩ := getA_some heq
          obtain ⟨n, hn, hid⟩ := hbm kv hkv
          exact ⟨n, List.mem_append_left _ hn, by rw [hid, hv]; rfl⟩
        · exact ⟨envNodeOf r, List.mem_append_right _ (List.mem_singleton.mpr rfl), rfl⟩
    · intro kv hkv
      obtain ⟨n, hn, hid⟩ := hbm kv hkv
      exact ⟨n, List.mem_append_left _ hn, hid⟩
  next heq =>
    constructor
    · intro e he
      dsimp only at he
      rcases List.mem_append.mp he with he' | he'
      · have hres := hwf e he'
        obtain ⟨⟨n1, hn1, h1⟩, ⟨n2, hn2, h2⟩⟩ := hres
        exact ⟨⟨n1, by rw [List.append_assoc]; exact List.mem_append_left _ hn1, h1⟩,
          ⟨n2, by rw [List.append_assoc]; exact List.mem_append_left _ hn2, h2⟩⟩
      · have he2 : e = usesBaseEdge (stableId "base" (normPath (deriveBaseKey r)))
            (stableId "env" (normPath r.pythonPath)) (dominantIssue r.findings) :=
          List.mem_singleton.mp he'
        subst he2
        constructor
        · refine ⟨baseNodeOf now (normPath (deriveBaseKey r)) (deriveBaseKey r)
            (derivePyVersion r) (pickArch r.facts),
            List.mem_append_right _ (List.mem_singleton.mpr rfl), rfl⟩
        · refine ⟨envNodeOf r, ?_, rfl⟩
          rw [List.append_assoc]
          exact List.mem_append_right _ (by simp)
    · intro kv hkv
      dsimp only at hkv
      rcases mem_setA hkv with rfl | hkv'
      · exact ⟨baseNodeOf now (normPath (deriveBaseKey r)) (deriveBaseKey r)
          (derivePyVersion r) (pickArch r.facts),
          List.mem_append_right _ (List.mem_singleton.mpr rfl), rfl⟩
      · obtain ⟨n, hn, hid⟩ := hbm kv hkv'
        refine ⟨n, ?_, hid⟩
        rw [List.append_assoc]
        exact List.mem_append_left _ hn

theorem rollupNode_id (ns : List GraphNode) (es : List GraphEdge) (n : GraphNode) :
    (rollupNode ns es n).id = n.id := by
  unfold rollupNode
  split
  · dsimp only
    split
    · rfl
    · rfl
  · rfl

theorem rollupNode_type (ns : List GraphNode) (es : List GraphEdge) (n : GraphNode) :
    (rollupNode ns es n).type = n.type := by
  unfold rollupNode
  split
  · dsimp only
    split
    · rfl
    · rfl
  · rfl

theorem rollupPass_pres_wf (st : BuildState) (hwf : wfState st) : wfState (rollupPass st) := by
  intro e he
  have hres := hwf e he
  obtain ⟨⟨n1, hn1, h1⟩, ⟨n2, hn2, h2⟩⟩ := hres
  exact ⟨⟨rollupNode st.nodes st.edges n1, List.mem_map_of_mem _ hn1, by rw [rollupNode_id, h1]⟩,
    ⟨rollupNode st.nodes st.edges n2, List.mem_map_of_mem _ hn2, by rw [rollupNode_id, h2]⟩⟩

theorem clusterEnvStep_pres (c : TaskCluster) (taskId : String) (st : BuildState)
    (kv : String × Nat) (hwf : wfState st) (htask : hasIdP st.nodes taskId) :
    wfState (clusterEnvStep c taskId st kv) ∧ hasIdP (clusterEnvStep c taskId st kv).nodes taskId := by
  unfold clusterEnvStep
  dsimp only
  by_cases hhas : hasNodeId st.nodes
    ((getA st.envIdByPyPath (normPath kv.1)).getD (stableId "env" (normPath kv.1)))
  · rw [if_pos hhas]
    have henv : hasIdP st.nodes
        ((getA st.envIdByPyPath (normPath kv.1)).getD (stableId "env" (normPath kv.1))) :=
      (hasNodeId_iff _ _).mp hhas
    split
    · constructor
      · intro e he
        rcases List.mem_append.mp he with he' | he'
        · rcases List.mem_append.mp he' with he'' | he''
          · exact hwf e he''
          · have he2 := List.mem_singleton.mp he''
            subst he2
            exact ⟨htask, henv⟩
        · have he2 := List.mem_singleton.mp he'
          subst he2
          exact ⟨htask, henv⟩
      · exact htask
    · constructor
      · intro e he
        rcases List.mem_append.mp he with he' | he'
        · exact hwf e he'
        · have he2 := List.mem_singleton.mp he'
          subst he2
          exact ⟨htask, henv⟩
      · exact htask
  · rw [if_neg hhas]
    have henv : hasIdP (st.nodes ++ [synthEnvNodeC kv.1
        ((getA st.envIdByPyPath (normPath kv.1)).getD (stableId "env" (normPath kv.1))) c.lastAt])
        ((getA st.envIdByPyPath (normPath kv.1)).getD (stableId "env" (normPath kv.1))) :=
      ⟨_, List.mem_append_right _ (List.mem_singleton.mpr rfl), rfl⟩
    have htask' : hasIdP (st.nodes ++ [synthEnvNodeC kv.1
        ((getA st.envIdByPyPath (normPath kv.1)).getD (stableId "env" (normPath kv.1))) c.lastAt])
        taskId := hasIdP_mono htask
    split
    · constructor
      · intro e he
        rcases List.mem_append.mp he with he' | he'
        · rcases List.mem_append.mp he' with he'' | he''
          · exact edgeResolved_mono (hwf e he'')
          · have he2 := List.mem_singleton.mp he''
            subst he2
            exact ⟨htask', henv⟩
        · have he2 := List.mem_singleton.mp he'
          subst he2
          exact ⟨htask', henv⟩
      · exact htask'
    · constructor
      · intro e he
        rcases List.mem_append.mp he with he' | he'
        · exact edgeResolved_mono (hwf e he')
        · have he2 := List.mem_singleton.mp he'
          subst he2
          exact ⟨htask', henv⟩
      · exact htask'


theorem runTaskStep_pres_wf (st : BuildState) (run : RunLogEventV1)
    (hwf : wfState st) : wfState (runTaskStep st run) := by
  unfold runTaskStep
  dsimp only
  by_cases hhas : hasNodeId (st.nodes ++ [taskNodeOfRun run (taskIdOfRun run)])
      ((getA st.envIdByPyPath (normPath run.selected.pythonPath)).getD
        (stableId "env" (normPath run.selected.pythonPath))) = true
  · rw [if_pos hhas]
    have henv := (hasNodeId_iff _ _).mp hhas
    split
    · intro e he
      rcases List.mem_append.mp he with he' | he'
      · rcases List.mem_append.mp he' with he'' | he''
        · exact edgeResolved_mono (hwf e he'')
        · have he2 := List.mem_singleton.mp he''
          subst he2
          exact ⟨⟨taskNodeOfRun run (taskIdOfRun run),
            List.mem_append_right _ (List.mem_singleton.mpr rfl), rfl⟩, henv⟩
      · have he2 := List.mem_singleton.mp he'
        subst he2
        exact ⟨⟨taskNodeOfRun run (taskIdOfRun run),
          List.mem_append_right _ (List.mem_singleton.mpr rfl), rfl⟩, henv⟩
    · intro e he
      rcases List.mem_append.mp he with he' | he'
      · exact edgeResolved_mono (hwf e he')
      · have he2 := List.mem_singleton.mp he'
        subst he2
        exact ⟨⟨taskNodeOfRun run (taskIdOfRun run),
          List.mem_append_right _ (List.mem_singleton.mpr rfl), rfl⟩, henv⟩
  · rw [if_neg hhas]
    split
    · intro e he
      rcases List.mem_append.mp he with he' | he'
      · rcases List.mem_append.mp he' with he'' | he''
        · exact edgeResolved_mono (edgeResolved_mono (hwf e he''))
        · have he2 := List.mem_singleton.mp he''
          subst he2
          refine ⟨⟨taskNodeOfRun run (taskIdOfRun run),
            List.mem_append_left _ (List.mem_append_right _ (List.mem_singleton.mpr rfl)), rfl⟩,
            ⟨synthEnvNodeR run _,
            List.mem_append_right _ (List.mem_singleton.mpr rfl), rfl⟩⟩
      · have he2 := List.mem_singleton.mp he'
        subst he2
        refine ⟨⟨taskNodeOfRun run (taskIdOfRun run),
          List.mem_append_left _ (List.mem_append_right _ (List.mem_singleton.mpr rfl)), rfl⟩,
          ⟨synthEnvNodeR run _,
          List.mem_append_right _ (List.mem_singleton.mpr rfl), rfl⟩⟩
    · intro e he
      rcases List.mem_append.mp he with he' | he'
      · exact edgeResolved_mono (edgeResolved_mono (hwf e he'))
      · have he2 := List.mem_singleton.mp he'
        subst he2
        refine ⟨⟨taskNodeOfRun run (taskIdOfRun run),
          List.mem_append_left _ (List.mem_append_right _ (List.mem_singleton.mpr rfl)), rfl⟩,
          ⟨synthEnvNodeR run _,
          List.mem_append_right _ (List.mem_singleton.mpr rfl), rfl⟩⟩

theorem clusterTaskStep_pres_wf (st : BuildState) (c : TaskCluster)
    (hwf : wfState st) : wfState (clusterTaskStep st c) := by
  unfold clusterTaskStep
  have h0 : wfState { st with nodes := st.nodes ++ [taskNodeOfCluster c] } ∧
      hasIdP ({ st with nodes := st.nodes ++ [taskNodeOfCluster c] }).nodes
        ("task:" ++ c.sig.sigId) := by
    constructor
    · intro e he
      exact edgeResolved_mono (hwf e he)
    · exact ⟨taskNodeOfCluster c,
        List.mem_append_right _ (List.mem_singleton.mpr rfl), rfl⟩
  exact (foldl_preserves
    (fun s kv (hs : wfState s ∧ hasIdP s.nodes ("task:" ++ c.sig.sigId)) =>
      clusterEnvStep_pres c ("task:" ++ c.sig.sigId) s kv hs.1 hs.2)
    c.envCounts _ h0).1

theorem taskPhase_pres_wf (opts : ResolvedOptions) (runs : List RunLogEventV1)
    (st : BuildState) (hwf : wfState st) : wfState (taskPhase opts runs st).2.2.2 := by
  unfold taskPhase
  split
  · split
    · exact foldl_preserves (fun s c (hs : wfState s) => clusterTaskStep_pres_wf s c hs)
        (clusterRuns runs) st hwf
    · exact foldl_preserves (fun s r (hs : wfState s) => runTaskStep_pres_wf s r hs)
        runs st hwf
  · exact hwf

theorem pass1_wf (now : String) (included : List DoctorLiteReport) :
    wfState (pass1 now included) ∧ baseMapOk (pass1 now included) := by
  unfold pass1
  refine foldl_preserves
    (fun st r (hst : wfState st ∧ baseMapOk st) => reportStep_pres_wf now st r hst.1 hst.2)
    included emptyState ⟨?_, ?_⟩
  · intro e he
    cases he
  · intro kv hkv
    cases hkv

theorem finalState_wf (reports : List DoctorLiteReport) (runs : List RunLogEventV1)
    (options : MapRenderOptions) (now : String) :
    wfState (finalState reports runs options now) := by
  unfold finalState
  exact taskPhase_pres_wf _ _ _ (rollupPass_pres_wf _ (pass1_wf now _).1)

theorem mapRender_graph_nodes (reports : List DoctorLiteReport) (runs : List RunLogEventV1)
    (options : MapRenderOptions) (now : String) :
    (mapRender reports runs options now).graph.nodes =
      (finalState reports runs options now).nodes := rfl

theorem mapRender_graph_edges (reports : List DoctorLiteReport) (runs : List RunLogEventV1)
    (options : MapRenderOptions) (now : String) :
    (mapRender reports runs options now).graph.edges =
      (finalState reports runs options now).edges := rfl

/-- C10: Referential integrity of the graph returned by `mapRender`: for every
edge of the result, in every task mode, the edge's `from` id and `to` id each
equal the id of some node present in the returned node array — no edge
dangles. -/
theorem edges_resolve (reports : List DoctorLiteReport) (runs : List RunLogEventV1)
    (options : MapRenderOptions) (now : String) (e : GraphEdge)
    (he : e ∈ (mapRender reports runs options now).graph.edges) :
    (∃ n ∈ (mapRender reports runs options now).graph.nodes, n.id = e.fromId) ∧
    (∃ n ∈ (mapRender reports runs options now).graph.nodes, n.id = e.toId) := by
  rw [mapRender_graph_nodes]
  rw [mapRender_graph_edges] at he
  exact finalState_wf reports runs options now e he

theorem edges_resolve_witness :
    mixedEdge ∈ mixedResult.graph.edges ∧
    ((∃ n ∈ mixedResult.graph.nodes, n.id = mixedEdge.fromId) ∧
     (∃ n ∈ mixedResult.graph.nodes, n.id = mixedEdge.toId)) :=
  ⟨by decide, edges_resolve
    [demoReport "/envs/a/bin/python" "/usr" (mkRat 90 1) HealthStatus.good]
    [demoRun] defaultOptions wNow mixedEdge (by decide)⟩

theorem ubToIds_append (es fs : List GraphEdge) :
    ubToIds (es ++ fs) = ubToIds es ++ ubToIds fs := by
  unfold ubToIds
  rw [List.filter_append, List.map_append]

theorem ubToIds_route_c (t e : String) (k : Nat) (s : String) :
    ubToIds [routeEdgeC t e k s] = [] := rfl

theorem ubToIds_fail_c (t e d : String) (k : Nat) (s : String) :
    ubToIds [failEdgeC t e d k s] = [] := rfl

theorem ubToIds_route_r (t e : String) (run : RunLogEventV1) :
    ubToIds [routeEdgeR t e run] = [] := rfl

theorem ubToIds_fail_r (t e d : String) (run : RunLogEventV1) :
    ubToIds [failEdgeR t e d run] = [] := rfl

theorem clusterEnvStep_ub (c : TaskCluster) (tid : String) (st : BuildState)
    (kv : String × Nat) :
    ubToIds (clusterEnvStep c tid st kv).edges = ubToIds st.edges := by
  unfold clusterEnvStep
  dsimp only
  split <;> split <;>
    simp only [ubToIds_append, ubToIds_route_c, ubToIds_fail_c, List.append_nil]

theorem runTaskStep_ub (st : BuildState) (run : RunLogEventV1) :
    ubToIds (runTaskStep st run).edges = ubToIds st.edges := by
  unfold runTaskStep
  dsimp only
  split <;> split <;>
    simp only [ubToIds_append, ubToIds_route_r, ubToIds_fail_r, List.append_nil]

theorem clusterTaskStep_ub (st : BuildState) (c : TaskCluster) :
    ubToIds (clusterTaskStep st c).edges = ubToIds st.edges := by
  unfold clusterTaskStep
  exact @foldl_preserves BuildState (String × Nat) _
    (fun s => ubToIds s.edges = ubToIds st.edges)
    (fun s kv hs => (clusterEnvStep_ub c ("task:" ++ c.sig.sigId) s kv).trans hs)
    c.envCounts _ rfl

theorem taskPhase_ub (opts : ResolvedOptions) (runs : List RunLogEventV1)
    (st : BuildState) :
    ubToIds (taskPhase opts runs st).2.2.2.edges = ubToIds st.edges := by
  unfold taskPhase
  split
  · split
    · exact @foldl_preserves BuildState TaskCluster _
        (fun s => ubToIds s.edges = ubToIds st.edges)
        (fun s c hs => (clusterTaskStep_ub s c).trans hs) (clusterRuns runs) st rfl
    · exact @foldl_preserves BuildState RunLogEventV1 _
        (fun s => ubToIds s.edges = ubToIds st.edges)
        (fun s r hs => (runTaskStep_ub s r).trans hs) runs st rfl
  · rfl

theorem pass1_ub_aux (now : String) (included : List DoctorLiteReport) :
    ∀ st, ubToIds ((included.foldl (reportStep now) st).edges) =
      ubToIds st.edges ++ included.map envIdOf := by
  induction included with
  | nil =>
    intro st
    simp
  | cons r rs ih =>
    intro st
    rw [List.foldl_cons, ih]
    obtain ⟨tail, e, _, he, hty, hto, _⟩ := reportStep_shape now st r
    have h1 : ubToIds [e] = [envIdOf r] := by
      unfold ubToIds envIdOf
      simp [List.filter_cons, hty, hto]
    rw [he, ubToIds_append, h1]
    simp [List.append_assoc]

theorem pass1_ub (now : String) (included : List DoctorLiteReport) :
    ubToIds (pass1 now included).edges = included.map envIdOf := by
  unfold pass1
  rw [pass1_ub_aux]
  simp [ubToIds, emptyState]

theorem finalState_ub (reports : List DoctorLiteReport) (runs : List RunLogEventV1)
    (options : MapRenderOptions) (now : String) :
    ubToIds (finalState reports runs options now).edges =
      (includedReports reports options).map envIdOf := by
  unfold finalState
  rw [taskPhase_ub]
  have h : (rollupPass (pass1 now (includedReports reports options))).edges =
      (pass1 now (includedReports reports options)).edges := rfl
  rw [h, pass1_ub]

theorem countP_ub_eq_count (es : List GraphEdge) (i : String) :
    (es.countP fun e => e.type == EdgeType.USES_BASE && e.toId == i) =
      (ubToIds es).countP (fun x => x == i) := by
  unfold ubToIds
  rw [List.countP_map, List.countP_filter]
  apply List.countP_congr
  intro e _
  simp only [Function.comp, Bool.and_eq_true]
  exact Iff.intro (fun h => ⟨h.2, h.1⟩) (fun h => ⟨h.2, h.1⟩)

theorem countP_beq_of_nodup (l : List String) (i : String) (hnodup : l.Nodup) :
    l.countP (fun x => x == i) = if i ∈ l then 1 else 0 := by
  induction l with
  | nil => rfl
  | cons x xs ih =>
    have hnd := List.nodup_cons.mp hnodup
    rw [List.countP_cons]
    by_cases hx : x = i
    · subst hx
      have h0 : xs.countP (fun y => y == x) = 0 :=
        List.countP_eq_zero.mpr fun a ha hax => hnd.1 (beq_iff_eq.mp hax ▸ ha)
      simp [h0]
    · have hpx : (x == i) = false := beq_eq_false_iff_ne.mpr hx
      rw [ih hnd.2, hpx]
      simp [List.mem_cons, Ne.symm hx]

/-- C7 (amended): a `USES_BASE` edge ends at an environment node exactly once
per surviving report, so — when the surviving reports give rise to pairwise
distinct environment ids — a venv node has exactly one incoming `USES_BASE`
edge if its id stems from a surviving report, and zero otherwise (environment
nodes synthesized for run records receive none, refuting the claim's
"exactly one for every venv node"). -/
theorem uses_base_once_per_report_env (reports : List DoctorLiteReport)
    (runs : List RunLogEventV1) (options : MapRenderOptions) (now : String)
    (hnodup : ((includedReports reports options).map envIdOf).Nodup)
    (n : GraphNode) (hn : n ∈ (mapRender reports runs options now).graph.nodes)
    (hty : n.type = NodeType.venv) :
    usesBaseInCount (mapRender reports runs options now).graph n.id =
      if n.id ∈ (includedReports reports options).map envIdOf then 1 else 0 := by
  unfold usesBaseInCount
  rw [mapRender_graph_edges, countP_ub_eq_count, finalState_ub]
  exact countP_beq_of_nodup _ _ hnodup

theorem uses_base_once_witness :
    ((((includedReports [demoReport "/envs/a/bin/python" "/usr" (mkRat 90 1)
          HealthStatus.good] defaultOptions).map envIdOf).Nodup ∧
      mixedVenv ∈ mixedResult.graph.nodes ∧ mixedVenv.type = NodeType.venv) ∧
     usesBaseInCount mixedResult.graph mixedVenv.id =
      if mixedVenv.id ∈ (includedReports [demoReport "/envs/a/bin/python" "/usr"
          (mkRat 90 1) HealthStatus.good] defaultOptions).map envIdOf then 1 else 0) :=
  ⟨⟨by decide, by decide, by decide⟩,
    uses_base_once_per_report_env
      [demoReport "/envs/a/bin/python" "/usr" (mkRat 90 1) HealthStatus.good]
      [demoRun] defaultOptions wNow (by decide) mixedVenv (by decide) (by decide)⟩

theorem uses_base_zero_counterexample :
    ∃ n ∈ orphanResult.graph.nodes, n.type = NodeType.venv ∧
      usesBaseInCount orphanResult.graph n.id = 0 := by decide

theorem childEdgesL_append (es fs : List GraphEdge) (i : String) :
    childEdgesL (es ++ fs) i = childEdgesL es i ++ childEdgesL fs i := by
  unfold childEdgesL
  rw [List.filter_append]

theorem childEdgesL_route_c (t e : String) (k : Nat) (s i : String) :
    childEdgesL [routeEdgeC t e k s] i = [] := rfl

theorem childEdgesL_fail_c (t e d : String) (k : Nat) (s i : String) :
    childEdgesL [failEdgeC t e d k s] i = [] := rfl

theorem childEdgesL_route_r (t e : String) (run : RunLogEventV1) (i : String) :
    childEdgesL [routeEdgeR t e run] i = [] := rfl

theorem childEdgesL_fail_r (t e d : String) (run : RunLogEventV1) (i : String) :
    childEdgesL [failEdgeR t e d run] i = [] := rfl

theorem clusterEnvStep_ce (c : TaskCluster) (tid : String) (st : BuildState)
    (kv : String × Nat) (i : String) :
    childEdgesL (clusterEnvStep c tid st kv).edges i = childEdgesL st.edges i := by
  unfold clusterEnvStep
  dsimp only
  split <;> split <;>
    simp only [childEdgesL_append, childEdgesL_route_c, childEdgesL_fail_c, List.append_nil]

theorem runTaskStep_ce (st : BuildState) (run : RunLogEventV1) (i : String) :
    childEdgesL (runTaskStep st run).edges i = childEdgesL st.edges i := by
  unfold runTaskStep
  dsimp only
  split <;> split <;>
    simp only [childEdgesL_append, childEdgesL_route_r, childEdgesL_fail_r, List.append_nil]

theorem clusterTaskStep_ce (st : BuildState) (c : TaskCluster) (i : String) :
    childEdgesL (clusterTaskStep st c).edges i = childEdgesL st.edges i := by
  unfold clusterTaskStep
  exact @foldl_preserves BuildState (String × Nat) _
    (fun s => childEdgesL s.edges i = childEdgesL st.edges i)
    (fun s kv hs => (clusterEnvStep_ce c ("task:" ++ c.sig.sigId) s kv i).trans hs)
    c.envCounts _ rfl

theorem taskPhase_ce (opts : ResolvedOptions) (runs : List RunLogEventV1)
    (st : BuildState) (i : String) :
    childEdgesL (taskPhase opts runs st).2.2.2.edges i = childEdgesL st.edges i := by
  unfold taskPhase
  split
  · split
    · exact @foldl_preserves BuildState TaskCluster _
        (fun s => childEdgesL s.edges i = childEdgesL st.edges i)
        (fun s c hs => (clusterTaskStep_ce s c i).trans hs) (clusterRuns runs) st rfl
    · exact @foldl_preserves BuildState RunLogEventV1 _
        (fun s => childEdgesL s.edges i = childEdgesL st.edges i)
        (fun s r hs => (runTaskStep_ce s r i).trans hs) runs st rfl
  · rfl

theorem stableId_eq_pfx (p i : String) :
    stableId p i = (p ++ ":") ++ sliceStr (sha256Hex i) 16 := rfl

theorem task_pfx_stableId (i : String) : ∃ s, stableId "task" i = "task:" ++ s := by
  refine ⟨sliceStr (sha256Hex i) 16, ?_⟩
  have h : "task" ++ ":" = "task:" := by decide
  rw [stableId_eq_pfx, h]

theorem env_ne_taskpfx (a s : String) : stableId "env" a ≠ "task:" ++ s := by
  intro h
  have h2 : ('e' :: 'n' :: 'v' :: ':' :: (sliceStr (sha256Hex a) 16).data) =
      ('t' :: 'a' :: 's' :: 'k' :: ':' :: s.data) := congrArg String.data h
  injection h2 with hc _
  exact absurd hc (by decide)

theorem env_ne_base (a b : String) : stableId "env" a ≠ stableId "base" b := by
  intro h
  have h2 : ('e' :: 'n' :: 'v' :: ':' :: (sliceStr (sha256Hex a) 16).data) =
      ('b' :: 'a' :: 's' :: 'e' :: ':' :: (sliceStr (sha256Hex b) 16).data) :=
    congrArg String.data h
  injection h2 with hc _
  exact absurd hc (by decide)

theorem mem_idsOf {ns : List GraphNode} {i : String} : i ∈ idsOf ns ↔ hasIdP ns i := by
  unfold idsOf hasIdP
  rw [List.mem_map]

theorem rollupNode_nonbase (ns : List GraphNode) (es : List GraphEdge) (n : GraphNode)
    (h : (n.type == NodeType.base) = false) : rollupNode ns es n = n := by
  unfold rollupNode
  rw [h, if_neg Bool.false_ne_true]

theorem idsOf_rollupPass (st : BuildState) : idsOf (rollupPass st).nodes = idsOf st.nodes := by
  show idsOf (st.nodes.map (rollupNode st.nodes st.edges)) = idsOf st.nodes
  unfold idsOf
  rw [List.map_map]
  exact List.map_congr_left fun n _ => rollupNode_id st.nodes st.edges n

theorem pass1_cls (now : String) (included : List DoctorLiteReport) :
    ∀ n ∈ (pass1 now included).nodes, nodeCls n := by
  unfold pass1
  refine @foldl_preserves BuildState DoctorLiteReport _ (fun st => ∀ n ∈ st.nodes, nodeCls n)
    ?_ included emptyState ?_
  · intro st r hst n hn
    obtain ⟨tail, e, hnodes, _, _, _, htl⟩ := reportStep_shape now st r
    rw [hnodes] at hn
    rcases List.mem_append.mp hn with h | h
    · exact hst n h
    · rcases List.mem_cons.mp h with rfl | h2
      · exact Or.inl ⟨rfl, normPath r.pythonPath, rfl⟩
      · rcases htl with rfl | rfl
        · cases h2
        · have h3 := List.mem_singleton.mp h2
          subst h3
          exact Or.inr ⟨rfl, normPath (deriveBaseKey r), rfl⟩
  · intro n hn
    cases hn

theorem rollup_cls (now : String) (included : List DoctorLiteReport) :
    ∀ n ∈ (rollupPass (pass1 now included)).nodes, nodeCls n := by
  intro n hn
  obtain ⟨m, hm, rfl⟩ := List.mem_map.mp hn
  rcases pass1_cls now included m hm with ⟨hty, s, hid⟩ | ⟨hty, s, hid⟩
  · exact Or.inl ⟨by rw [rollupNode_type]; exact hty, s, by rw [rollupNode_id]; exact hid⟩
  · exact Or.inr ⟨by rw [rollupNode_type]; exact hty, s, by rw [rollupNode_id]; exact hid⟩

theorem rollupNode_base_score (ns : List GraphNode) (es : List GraphEdge) (n : GraphNode)
    (hty : (n.type == NodeType.base) = true)
    (hne : (childNodesL ns es n.id).isEmpty = false) :
    ((rollupNode ns es n).health.bind fun h => h.score) =
      lowerMedian (childScoresL ns es n.id) := by
  unfold rollupNode
  rw [if_pos hty]
  dsimp only
  have hne' : (ns.filter fun m =>
      (es.filter fun e => e.type == EdgeType.USES_BASE && e.fromId == n.id).any
        fun e => e.toId == m.id).isEmpty = false := hne
  rw [hne', if_neg Bool.false_ne_true]
  dsimp only
  unfold lowerMedian childScoresL childNodesL childEdgesL
  rw [(sortByLe_perm qLeB _).length_eq]
  rfl

theorem clusterEnvStep_extra (base : List GraphNode) (c : TaskCluster) (tid : String)
    (st : BuildState) (kv : String × Nat)
    (hq : ∃ extra, st.nodes = base ++ extra ∧ ∀ m ∈ extra, taskExtra base m) :
    ∃ extra, (clusterEnvStep c tid st kv).nodes = base ++ extra ∧
      ∀ m ∈ extra, taskExtra base m := by
  obtain ⟨extra, hn, hex⟩ := hq
  unfold clusterEnvStep
  dsimp only
  by_cases hhas : hasNodeId st.nodes ((getA st.envIdByPyPath (normPath kv.1)).getD
      (stableId "env" (normPath kv.1))) = true
  · rw [if_pos hhas]
    split <;> exact ⟨extra, hn, hex⟩
  · rw [if_neg hhas]
    have hnot : ¬ hasIdP base ((getA st.envIdByPyPath (normPath kv.1)).getD
        (stableId "env" (normPath kv.1))) := by
      intro hbase
      apply hhas
      rw [hasNodeId_iff, hn]
      exact hasIdP_mono hbase
    have hsy : taskExtra base (synthEnvNodeC kv.1
        ((getA st.envIdByPyPath (normPath kv.1)).getD (stableId "env" (normPath kv.1)))
        c.lastAt) := by
      constructor
      · exact Or.inr fun hm => hnot (mem_idsOf.mp hm)
      · intro hb
        cases hb
    split <;>
    · refine ⟨extra ++ [synthEnvNodeC kv.1
        ((getA st.envIdByPyPath (normPath kv.1)).getD (stableId "env" (normPath kv.1)))
        c.lastAt], ?_, ?_⟩
      · show st.nodes ++ [synthEnvNodeC kv.1 _ c.lastAt] = base ++ (extra ++ [synthEnvNodeC kv.1 _ c.lastAt])
        rw [hn, List.append_assoc]
      · intro m hm
        rcases List.mem_append.mp hm with h | h
        · exact hex m h
        · have h2 := List.mem_singleton.mp h
          subst h2
          exact hsy

theorem clusterTaskStep_extra (base : List GraphNode) (st : BuildState) (c : TaskCluster)
    (hq : ∃ extra, st.nodes = base ++ extra ∧ ∀ m ∈ extra, taskExtra base m) :
    ∃ extra, (clusterTaskStep st c).nodes = base ++ extra ∧
      ∀ m ∈ extra, taskExtra base m := by
  obtain ⟨extra, hn, hex⟩ := hq
  unfold clusterTaskStep
  refine @foldl_preserves BuildState (String × Nat) _
    (fun s => ∃ extra, s.nodes = base ++ extra ∧ ∀ m ∈ extra, taskExtra base m)
    (fun s kv hs => clusterEnvStep_extra base c ("task:" ++ c.sig.sigId) s kv hs)
    c.envCounts _ ?_
  refine ⟨extra ++ [taskNodeOfCluster c], ?_, ?_⟩
  · show st.nodes ++ [taskNodeOfCluster c] = base ++ (extra ++ [taskNodeOfCluster c])
    rw [hn, List.append_assoc]
  · intro m hm
    rcases List.mem_append.mp hm with h | h
    · exact hex m h
    · have h2 := List.mem_singleton.mp h
      subst h2
      exact ⟨Or.inl ⟨c.sig.sigId, rfl⟩, fun hb => by cases hb⟩

theorem runTaskStep_extra (base : List GraphNode) (st : BuildState) (run : RunLogEventV1)
    (hq : ∃ extra, st.nodes = base ++ extra ∧ ∀ m ∈ extra, taskExtra base m) :
    ∃ extra, (runTaskStep st run).nodes = base ++ extra ∧
      ∀ m ∈ extra, taskExtra base m := by
  obtain ⟨extra, hn, hex⟩ := hq
  have htask : taskExtra base (taskNodeOfRun run (taskIdOfRun run)) := by
    constructor
    · obtain ⟨s, hs⟩ := task_pfx_stableId (if run.runId ≠ "" then run.runId else
        run.task.name ++ "|" ++ run.task.command ++ "|" ++ run.atTime ++ "|" ++
        run.selected.pythonPath)
      exact Or.inl ⟨s, hs⟩
    · intro hb
      cases hb
  unfold runTaskStep
  dsimp only
  by_cases hhas : hasNodeId (st.nodes ++ [taskNodeOfRun run (taskIdOfRun run)])
      ((getA st.envIdByPyPath (normPath run.selected.pythonPath)).getD
        (stableId "env" (normPath run.selected.pythonPath))) = true
  · rw [if_pos hhas]
    split <;>
    · refine ⟨extra ++ [taskNodeOfRun run (taskIdOfRun run)], ?_, ?_⟩
      · show st.nodes ++ [taskNodeOfRun run (taskIdOfRun run)] =
          base ++ (extra ++ [taskNodeOfRun run (taskIdOfRun run)])
        rw [hn, List.append_assoc]
      · intro m hm
        rcases List.mem_append.mp hm with h | h
        · exact hex m h
        · have h2 := List.mem_singleton.mp h
          subst h2
          exact htask
  · rw [if_neg hhas]
    have hnot : ¬ hasIdP base ((getA st.envIdByPyPath (normPath run.selected.pythonPath)).getD
        (stableId "env" (normPath run.selected.pythonPath))) := by
      intro hbase
      apply hhas
      rw [hasNodeId_iff]
      exact hasIdP_mono (hn ▸ hasIdP_mono hbase)
    have hsy : taskExtra base (synthEnvNodeR run
        ((getA st.envIdByPyPath (normPath run.selected.pythonPath)).getD
          (stableId "env" (normPath run.selected.pythonPath)))) := by
      constructor
      · exact Or.inr fun hm => hnot (mem_idsOf.mp hm)
      · intro hb
        cases hb
    split <;>
    · refine ⟨extra ++ ([taskNodeOfRun run (taskIdOfRun run)] ++ [synthEnvNodeR run
        ((getA st.envIdByPyPath (normPath run.selected.pythonPath)).getD
          (stableId "env" (normPath run.selected.pythonPath)))]), ?_, ?_⟩
      · show (st.nodes ++ [taskNodeOfRun run (taskIdOfRun run)]) ++ [synthEnvNodeR run _] =
          base ++ (extra ++ ([taskNodeOfRun run (taskIdOfRun run)] ++ [synthEnvNodeR run _]))
        rw [hn]
        simp only [List.append_assoc]
      · intro m hm
        rcases List.mem_append.mp hm with h | h
        · exact hex m h
        · rcases List.mem_append.mp h with h2 | h2
          · have h3 := List.mem_singleton.mp h2
            subst h3
            exact htask
          · have h3 := List.mem_singleton.mp h2
            subst h3
            exact hsy

theorem taskPhase_extra (opts : ResolvedOptions) (runs : List RunLogEventV1)
    (st0 : BuildState) :
    ∃ extra, (taskPhase opts runs st0).2.2.2.nodes = st0.nodes ++ extra ∧
      ∀ m ∈ extra, taskExtra st0.nodes m := by
  have h0 : ∃ extra, st0.nodes = st0.nodes ++ extra ∧ ∀ m ∈ extra, taskExtra st0.nodes m :=
    ⟨[], (List.append_nil _).symm, fun m hm => absurd hm (List.not_mem_nil m)⟩
  unfold taskPhase
  split
  · split
    · exact @foldl_preserves BuildState TaskCluster _
        (fun s => ∃ extra, s.nodes = st0.nodes ++ extra ∧ ∀ m ∈ extra, taskExtra st0.nodes m)
        (fun s c hs => clusterTaskStep_extra st0.nodes s c hs) (clusterRuns runs) st0 h0
    · exact @foldl_preserves BuildState RunLogEventV1 _
        (fun s => ∃ extra, s.nodes = st0.nodes ++ extra ∧ ∀ m ∈ extra, taskExtra st0.nodes m)
        (fun s r hs => runTaskStep_extra st0.nodes s r hs) runs st0 h0
  · exact h0

theorem childNodesL_append (ns ms : List GraphNode) (es : List GraphEdge) (i : String) :
    childNodesL (ns ++ ms) es i = childNodesL ns es i ++ childNodesL ms es i := by
  unfold childNodesL
  rw [List.filter_append]

theorem childNodesL_congr_edges (ns : List GraphNode) {es es' : List GraphEdge} (i : String)
    (h : childEdgesL es i = childEdgesL es' i) :
    childNodesL ns es i = childNodesL ns es' i := by
  unfold childNodesL
  rw [h]

theorem childNodesL_map (f : GraphNode → GraphNode) (hf : ∀ m, (f m).id = m.id)
    (ns : List GraphNode) (es : List GraphEdge) (i : String) :
    childNodesL (ns.map f) es i = (childNodesL ns es i).map f := by
  unfold childNodesL
  rw [List.filter_map]
  congr 1
  apply List.filter_congr
  intro m _
  simp only [Function.comp]
  rw [hf m]

theorem pass1_childEdges_toId (now : String) (included : List DoctorLiteReport) (i : String) :
    ∀ e ∈ childEdgesL (pass1 now included).edges i,
      (∃ a, e.toId = stableId "env" a) ∧ hasIdP (pass1 now included).nodes e.toId := by
  intro e he
  have hm := List.mem_filter.mp he
  have hand := hm.2
  rw [Bool.and_eq_true] at hand
  have hUB : (e.type == EdgeType.USES_BASE) = true := hand.1
  constructor
  · have htoid : e.toId ∈ ubToIds (pass1 now included).edges := by
      unfold ubToIds
      exact List.mem_map_of_mem _ (List.mem_filter.mpr ⟨hm.1, hUB⟩)
    rw [pass1_ub] at htoid
    obtain ⟨r, hr, hre⟩ := List.mem_map.mp htoid
    exact ⟨normPath r.pythonPath, by rw [← hre]; rfl⟩
  · exact ((pass1_wf now included).1 e hm.1).2

theorem final_base_score (now : String) (included : List DoctorLiteReport)
    (opts : ResolvedOptions) (runs : List RunLogEventV1) (b : GraphNode)
    (hb : b ∈ (taskPhase opts runs (rollupPass (pass1 now included))).2.2.2.nodes)
    (hty : b.type = NodeType.base)
    (hcs : childScoresL (taskPhase opts runs (rollupPass (pass1 now included))).2.2.2.nodes
        (taskPhase opts runs (rollupPass (pass1 now included))).2.2.2.edges b.id ≠ []) :
    (b.health.bind fun h => h.score) =
      lowerMedian (childScoresL
        (taskPhase opts runs (rollupPass (pass1 now included))).2.2.2.nodes
        (taskPhase opts runs (rollupPass (pass1 now included))).2.2.2.edges b.id) := by
  obtain ⟨extra, hfn, hex⟩ := taskPhase_extra opts runs (rollupPass (pass1 now included))
  rw [hfn] at hb
  rcases List.mem_append.mp hb with hb0 | hbe
  swap
  · exact absurd hty (hex b hbe).2
  have hb0' : b ∈ (pass1 now included).nodes.map
      (rollupNode (pass1 now included).nodes (pass1 now included).edges) := hb0
  obtain ⟨n0, hn0, hbeq⟩ := List.mem_map.mp hb0'
  subst hbeq
  rw [rollupNode_id]
  rw [rollupNode_id] at hcs
  have hce : childEdgesL
      (taskPhase opts runs (rollupPass (pass1 now included))).2.2.2.edges n0.id
      = childEdgesL (pass1 now included).edges n0.id :=
    taskPhase_ce opts runs (rollupPass (pass1 now included)) n0.id
  have hchild := pass1_childEdges_toId now included n0.id
  have hnil : childNodesL extra
      (taskPhase opts runs (rollupPass (pass1 now included))).2.2.2.edges n0.id = [] := by
    unfold childNodesL
    rw [hce]
    apply List.filter_eq_nil_iff.mpr
    intro m hm hany
    obtain ⟨e, he, heq⟩ := List.any_eq_true.mp hany
    have hid : e.toId = m.id := by simpa using heq
    rcases (hex m hm).1 with ⟨s, hms⟩ | hnm
    · obtain ⟨a, hta⟩ := (hchild e he).1
      exact env_ne_taskpfx a s (by rw [← hta, hid, hms])
    · apply hnm
      rw [idsOf_rollupPass, mem_idsOf]
      exact hid ▸ (hchild e he).2
  have hignore : ∀ m ∈ childNodesL (pass1 now included).nodes (pass1 now included).edges n0.id,
      rollupNode (pass1 now included).nodes (pass1 now included).edges m = m := by
    intro m hm
    have hmf := List.mem_filter.mp hm
    obtain ⟨e, he, heq⟩ := List.any_eq_true.mp hmf.2
    have hid : e.toId = m.id := by simpa using heq
    obtain ⟨a, hta⟩ := (hchild e he).1
    rcases pass1_cls now included m hmf.1 with ⟨hv, _⟩ | ⟨_, s, hs⟩
    · apply rollupNode_nonbase
      rw [hv]
      rfl
    · exact absurd (show stableId "env" a = stableId "base" s by rw [← hta, hid, hs])
        (env_ne_base a s)
  have hmap : childNodesL (rollupPass (pass1 now included)).nodes
      (pass1 now included).edges n0.id
      = (childNodesL (pass1 now included).nodes (pass1 now included).edges n0.id).map
          (rollupNode (pass1 now included).nodes (pass1 now included).edges) :=
    childNodesL_map _ (rollupNode_id _ _) _ _ _
  have hns : childNodesL (taskPhase opts runs (rollupPass (pass1 now included))).2.2.2.nodes
      (taskPhase opts runs (rollupPass (pass1 now included))).2.2.2.edges n0.id
      = childNodesL (pass1 now included).nodes (pass1 now included).edges n0.id := by
    rw [hfn, childNodesL_append, hnil, List.append_nil]
    rw [childNodesL_congr_edges (rollupPass (pass1 now included)).nodes n0.id hce]
    rw [hmap]
    exact (List.map_congr_left hignore).trans (List.map_id _)
  have hsc : childScoresL (taskPhase opts runs (rollupPass (pass1 now included))).2.2.2.nodes
      (taskPhase opts runs (rollupPass (pass1 now included))).2.2.2.edges n0.id
      = childScoresL (pass1 now included).nodes (pass1 now included).edges n0.id := by
    unfold childScoresL
    rw [hns]
  rw [hsc]
  rw [hsc] at hcs
  have hneL : childNodesL (pass1 now included).nodes (pass1 now included).edges n0.id ≠ [] := by
    intro h0
    apply hcs
    unfold childScoresL
    rw [h0]
    rfl
  have hty0 : (n0.type == NodeType.base) = true := by
    have h2 : n0.type = NodeType.base :=
      (rollupNode_type (pass1 now included).nodes (pass1 now included).edges n0).symm.trans hty
    rw [h2]
    rfl
  have hne0 : (childNodesL (pass1 now included).nodes
      (pass1 now included).edges n0.id).isEmpty = false := by
    rw [Bool.eq_false_iff]
    intro htrue
    exact hneL (List.isEmpty_iff.mp htrue)
  exact rollupNode_base_score _ _ n0 hty0 hne0

/-- C3: for every base node of the rendered graph whose `USES_BASE` children
carry at least one numeric health score, the base node's rolled-up score is
the lower median of those child scores: the element at index `⌊n/2⌋` of the
ascending stable sort (not an average). -/
theorem base_score_lower_median (reports : List DoctorLiteReport)
    (runs : List RunLogEventV1) (options : MapRenderOptions) (now : String)
    (b : GraphNode) (hb : b ∈ (mapRender reports runs options now).graph.nodes)
    (hty : b.type = NodeType.base)
    (hcs : childScores (mapRender reports runs options now).graph b ≠ []) :
    (b.health.bind fun h => h.score) =
      lowerMedian (childScores (mapRender reports runs options now).graph b) :=
  final_base_score now (includedReports reports options) (resolveOptions options) runs
    b hb hty hcs

theorem base_score_lower_median_witness :
    ((medianBase ∈ (mapRender medianReports [] defaultOptions wNow).graph.nodes ∧
      medianBase.type = NodeType.base ∧
      childScores (mapRender medianReports [] defaultOptions wNow).graph medianBase ≠ []) ∧
     (medianBase.health.bind fun h => h.score) =
       lowerMedian (childScores (mapRender medianReports [] defaultOptions wNow).graph
         medianBase)) ∧
    (medianBase.health.bind fun h => h.score) = some (mkRat 50 1) :=
  ⟨⟨⟨by decide, by decide, by decide⟩,
    base_score_lower_median medianReports [] defaultOptions wNow medianBase
      (by decide) (by decide) (by decide)⟩,
   by decide⟩

theorem envId_cls (st : BuildState) (h : envMapOk st) (p : String) :
    ∃ s, (getA st.envIdByPyPath p).getD (stableId "env" p) = stableId "env" s := by
  cases hg : getA st.envIdByPyPath p with
  | none =>
    exact ⟨p, rfl⟩
  | some v =>
    obtain ⟨kv, hkv, hv⟩ := getA_some hg
    obtain ⟨s, hs⟩ := h kv hkv
    refine ⟨s, ?_⟩
    show v = stableId "env" s
    rw [← hv]
    exact hs

theorem reportStep_pres_cls (now : String) (st : BuildState) (r : DoctorLiteReport)
    (h : (∀ n ∈ st.nodes, nodeCls3 n) ∧ envMapOk st ∧ routesEnvOk st) :
    (∀ n ∈ (reportStep now st r).nodes, nodeCls3 n) ∧ envMapOk (reportStep now st r) ∧
      routesEnvOk (reportStep now st r) := by
  obtain ⟨h1, h2, h3⟩ := h
  unfold reportStep getOrCreateBaseNode
  dsimp only
  split
  · refine ⟨?_, ?_, ?_⟩
    · intro n hn
      rcases List.mem_append.mp hn with hm | hm
      · exact h1 n hm
      · have h4 := List.mem_singleton.mp hm
        subst h4
        exact Or.inl ⟨rfl, normPath r.pythonPath, rfl⟩
    · intro kv hkv
      rcases mem_setA hkv with rfl | hkv'
      · exact ⟨normPath r.pythonPath, rfl⟩
      · exact h2 kv hkv'
    · intro e he hre
      rcases List.mem_append.mp he with hm | hm
      · exact h3 e hm hre
      · have h4 := List.mem_singleton.mp hm
        subst h4
        cases hre
  · refine ⟨?_, ?_, ?_⟩
    · intro n hn
      rcases List.mem_append.mp hn with hm | hm
      · rcases List.mem_append.mp hm with hm' | hm'
        · exact h1 n hm'
        · have h4 := List.mem_singleton.mp hm'
          subst h4
          exact Or.inl ⟨rfl, normPath r.pythonPath, rfl⟩
      · have h4 := List.mem_singleton.mp hm
        subst h4
        exact Or.inr (Or.inl ⟨rfl, normPath (deriveBaseKey r), rfl⟩)
    · intro kv hkv
      rcases mem_setA hkv with rfl | hkv'
      · exact ⟨normPath r.pythonPath, rfl⟩
      · exact h2 kv hkv'
    · intro e he hre
      rcases List.mem_append.mp he with hm | hm
      · exact h3 e hm hre
      · have h4 := List.mem_singleton.mp hm
        subst h4
        cases hre

theorem rollup_pres_cls (st : BuildState)
    (h : (∀ n ∈ st.nodes, nodeCls3 n) ∧ envMapOk st ∧ routesEnvOk st) :
    (∀ n ∈ (rollupPass st).nodes, nodeCls3 n) ∧ envMapOk (rollupPass st) ∧
      routesEnvOk (rollupPass st) := by
  obtain ⟨h1, h2, h3⟩ := h
  refine ⟨?_, h2, h3⟩
  intro n hn
  have hn' : n ∈ st.nodes.map (rollupNode st.nodes st.edges) := hn
  obtain ⟨m, hm, rfl⟩ := List.mem_map.mp hn'
  rcases h1 m hm with ⟨ht, s, hs⟩ | ⟨ht, s, hs⟩ | ⟨ht, s, hs⟩
  · exact Or.inl ⟨by rw [rollupNode_type]; exact ht, s, by rw [rollupNode_id]; exact hs⟩
  · exact Or.inr (Or.inl ⟨by rw [rollupNode_type]; exact ht, s, by rw [rollupNode_id]; exact hs⟩)
  · exact Or.inr (Or.inr ⟨by rw [rollupNode_type]; exact ht, s, by rw [rollupNode_id]; exact hs⟩)

theorem clusterEnvStep_pres_cls (c : TaskCluster) (tid : String) (st : BuildState)
    (kv : String × Nat)
    (h : (∀ n ∈ st.nodes, nodeCls3 n) ∧ envMapOk st ∧ routesEnvOk st) :
    (∀ n ∈ (clusterEnvStep c tid st kv).nodes, nodeCls3 n) ∧
      envMapOk (clusterEnvStep c tid st kv) ∧ routesEnvOk (clusterEnvStep c tid st kv) := by
  obtain ⟨h1, h2, h3⟩ := h
  obtain ⟨s0, hs0⟩ := envId_cls st h2 (normPath kv.1)
  unfold clusterEnvStep
  dsimp only
  by_cases hhas : hasNodeId st.nodes ((getA st.envIdByPyPath (normPath kv.1)).getD
      (stableId "env" (normPath kv.1))) = true
  · rw [if_pos hhas]
    split
    · refine ⟨h1, h2, ?_⟩
      intro e he hre
      rcases List.mem_append.mp he with hm | hm
      · rcases List.mem_append.mp hm with hm' | hm'
        · exact h3 e hm' hre
        · have h4 := List.mem_singleton.mp hm'
          subst h4
          exact ⟨s0, hs0⟩
      · have h4 := List.mem_singleton.mp hm
        subst h4
        cases hre
    · refine ⟨h1, h2, ?_⟩
      intro e he hre
      rcases List.mem_append.mp he with hm | hm
      · exact h3 e hm hre
      · have h4 := List.mem_singleton.mp hm
        subst h4
        exact ⟨s0, hs0⟩
  · rw [if_neg hhas]
    split
    · refine ⟨?_, ?_, ?_⟩
      · intro n hn
        rcases List.mem_append.mp hn with hm | hm
        · exact h1 n hm
        · have h4 := List.mem_singleton.mp hm
          subst h4
          exact Or.inl ⟨rfl, s0, hs0⟩
      · intro kv' hkv'
        rcases mem_setA hkv' with rfl | h'
        · exact ⟨s0, hs0⟩
        · exact h2 kv' h'
      · intro e he hre
        rcases List.mem_append.mp he with hm | hm
        · rcases List.mem_append.mp hm with hm' | hm'
          · exact h3 e hm' hre
          · have h4 := List.mem_singleton.mp hm'
            subst h4
            exact ⟨s0, hs0⟩
        · have h4 := List.mem_singleton.mp hm
          subst h4
          cases hre
    · refine ⟨?_, ?_, ?_⟩
      · intro n hn
        rcases List.mem_append.mp hn with hm | hm
        · exact h1 n hm
        · have h4 := List.mem_singleton.mp hm
          subst h4
          exact Or.inl ⟨rfl, s0, hs0⟩
      · intro kv' hkv'
        rcases mem_setA hkv' with rfl | h'
        · exact ⟨s0, hs0⟩
        · exact h2 kv' h'
      · intro e he hre
        rcases List.mem_append.mp he with hm | hm
        · exact h3 e hm hre
        · have h4 := List.mem_singleton.mp hm
          subst h4
          exact ⟨s0, hs0⟩

theorem clusterTaskStep_pres_cls (st : BuildState) (c : TaskCluster)
    (h : (∀ n ∈ st.nodes, nodeCls3 n) ∧ envMapOk st ∧ routesEnvOk st) :
    (∀ n ∈ (clusterTaskStep st c).nodes, nodeCls3 n) ∧
      envMapOk (clusterTaskStep st c) ∧ routesEnvOk (clusterTaskStep st c) := by
  obtain ⟨h1, h2, h3⟩ := h
  unfold clusterTaskStep
  refine @foldl_preserves BuildState (String × Nat) _
    (fun s => (∀ n ∈ s.nodes, nodeCls3 n) ∧ envMapOk s ∧ routesEnvOk s)
    (fun s kv hs => clusterEnvStep_pres_cls c ("task:" ++ c.sig.sigId) s kv hs)
    c.envCounts _ ⟨?_, h2, h3⟩
  intro n hn
  rcases List.mem_append.mp hn with hm | hm
  · exact h1 n hm
  · have h4 := List.mem_singleton.mp hm
    subst h4
    exact Or.inr (Or.inr ⟨rfl, c.sig.sigId, rfl⟩)

theorem runTaskStep_pres_cls (st : BuildState) (run : RunLogEventV1)
    (h : (∀ n ∈ st.nodes, nodeCls3 n) ∧ envMapOk st ∧ routesEnvOk st) :
    (∀ n ∈ (runTaskStep st run).nodes, nodeCls3 n) ∧
      envMapOk (runTaskStep st run) ∧ routesEnvOk (runTaskStep st run) := by
  obtain ⟨h1, h2, h3⟩ := h
  obtain ⟨s0, hs0⟩ := envId_cls st h2 (normPath run.selected.pythonPath)
  have htask : nodeCls3 (taskNodeOfRun run (taskIdOfRun run)) := by
    obtain ⟨s, hs⟩ := task_pfx_stableId (if run.runId ≠ "" then run.runId else
      run.task.name ++ "|" ++ run.task.command ++ "|" ++ run.atTime ++ "|" ++
      run.selected.pythonPath)
    exact Or.inr (Or.inr ⟨rfl, s, hs⟩)
  have h1t : ∀ n ∈ st.nodes ++ [taskNodeOfRun run (taskIdOfRun run)], nodeCls3 n := by
    intro n hn
    rcases List.mem_append.mp hn with hm | hm
    · exact h1 n hm
    · have h4 := List.mem_singleton.mp hm
      subst h4
      exact htask
  unfold runTaskStep
  dsimp only
  by_cases hhas : hasNodeId (st.nodes ++ [taskNodeOfRun run (taskIdOfRun run)])
      ((getA st.envIdByPyPath (normPath run.selected.pythonPath)).getD
        (stableId "env" (normPath run.selected.pythonPath))) = true
  · rw [if_pos hhas]
    split
    · refine ⟨h1t, h2, ?_⟩
      intro e he hre
      rcases List.mem_append.mp he with hm | hm
      · rcases List.mem_append.mp hm with hm' | hm'
        · exact h3 e hm' hre
        · have h4 := List.mem_singleton.mp hm'
          subst h4
          exact ⟨s0, hs0⟩
      · have h4 := List.mem_singleton.mp hm
        subst h4
        cases hre
    · refine ⟨h1t, h2, ?_⟩
      intro e he hre
      rcases List.mem_append.mp he with hm | hm
      · exact h3 e hm hre
      · have h4 := List.mem_singleton.mp hm
        subst h4
        exact ⟨s0, hs0⟩
  · rw [if_neg hhas]
    have h1s : ∀ n ∈ (st.nodes ++ [taskNodeOfRun run (taskIdOfRun run)]) ++
        [synthEnvNodeR run ((getA st.envIdByPyPath (normPath run.selected.pythonPath)).getD
          (stableId "env" (normPath run.selected.pythonPath)))], nodeCls3 n := by
      intro n hn
      rcases List.mem_append.mp hn with hm | hm
      · exact h1t n hm
      · have h4 := List.mem_singleton.mp hm
        subst h4
        exact Or.inl ⟨rfl, s0, hs0⟩
    have h2s : ∀ kv' ∈ setA st.envIdByPyPath (normPath run.selected.pythonPath)
        ((getA st.envIdByPyPath (normPath run.selected.pythonPath)).getD
          (stableId "env" (normPath run.selected.pythonPath))),
        ∃ s, kv'.2 = stableId "env" s := by
      intro kv' hkv'
      rcases mem_setA hkv' with rfl | h'
      · exact ⟨s0, hs0⟩
      · exact h2 kv' h'
    split
    · refine ⟨h1s, h2s, ?_⟩
      intro e he hre
      rcases List.mem_append.mp he with hm | hm
      · rcases List.mem_append.mp hm with hm' | hm'
        · exact h3 e hm' hre
        · have h4 := List.mem_singleton.mp hm'
          subst h4
          exact ⟨s0, hs0⟩
      · have h4 := List.mem_singleton.mp hm
        subst h4
        cases hre
    · refine ⟨h1s, h2s, ?_⟩
      intro e he hre
      rcases List.mem_append.mp he with hm | hm
      · exact h3 e hm hre
      · have h4 := List.mem_singleton.mp hm
        subst h4
        exact ⟨s0, hs0⟩

theorem taskPhase_pres_cls (opts : ResolvedOptions) (runs : List RunLogEventV1)
    (st : BuildState)
    (h : (∀ n ∈ st.nodes, nodeCls3 n) ∧ envMapOk st ∧ routesEnvOk st) :
    (∀ n ∈ (taskPhase opts runs st).2.2.2.nodes, nodeCls3 n) ∧
      envMapOk (taskPhase opts runs st).2.2.2 ∧ routesEnvOk (taskPhase opts runs st).2.2.2 := by
  unfold taskPhase
  split
  · split
    · exact @foldl_preserves BuildState TaskCluster _
        (fun s => (∀ n ∈ s.nodes, nodeCls3 n) ∧ envMapOk s ∧ routesEnvOk s)
        (fun s c hs => clusterTaskStep_pres_cls s c hs) (clusterRuns runs) st h
    · exact @foldl_preserves BuildState RunLogEventV1 _
        (fun s => (∀ n ∈ s.nodes, nodeCls3 n) ∧ envMapOk s ∧ routesEnvOk s)
        (fun s r hs => runTaskStep_pres_cls s r hs) runs st h
  · exact h

theorem final_cls3 (reports : List DoctorLiteReport) (runs : List RunLogEventV1)
    (options : MapRenderOptions) (now : String) :
    (∀ n ∈ (finalState reports runs options now).nodes, nodeCls3 n) ∧
      envMapOk (finalState reports runs options now) ∧
      routesEnvOk (finalState reports runs options now) := by
  unfold finalState
  apply taskPhase_pres_cls
  apply rollup_pres_cls
  unfold pass1
  refine @foldl_preserves BuildState DoctorLiteReport _
    (fun s => (∀ n ∈ s.nodes, nodeCls3 n) ∧ envMapOk s ∧ routesEnvOk s)
    (fun s r hs => reportStep_pres_cls now s r hs) (includedReports reports options)
    emptyState ⟨?_, ?_, ?_⟩
  · intro n hn
    cases hn
  · intro kv hkv
    cases hkv
  · intro e he _
    cases he

theorem setA_ne_nil {α : Type*} (m : List (String × α)) (k : String) (v : α) :
    setA m k v ≠ [] := by
  unfold setA
  split
  next hany =>
    intro h
    rw [List.map_eq_nil_iff] at h
    subst h
    simp at hany
  next hany =>
    intro h
    have h2 := List.append_eq_nil.mp h
    cases h2.2

theorem clusterFold_ne_nil (m : List (String × TaskCluster)) (r : RunLogEventV1) :
    clusterFold m r ≠ [] := by
  unfold clusterFold
  dsimp only
  exact setA_ne_nil _ _ _

theorem clusterFold_envCounts (m : List (String × TaskCluster)) (r : RunLogEventV1)
    (h : ∀ kv ∈ m, kv.2.envCounts ≠ []) :
    ∀ kv ∈ clusterFold m r, kv.2.envCounts ≠ [] := by
  intro kv hkv
  unfold clusterFold at hkv
  dsimp only at hkv
  rcases mem_setA hkv with rfl | h'
  · by_cases hok : r.outcome.ok = true
    · simp only [if_pos hok]
      exact setA_ne_nil _ _ _
    · simp only [if_neg hok]
      exact setA_ne_nil _ _ _
  · exact h kv h'

theorem clusterRuns_ne_nil (runs : List RunLogEventV1) (h : runs ≠ []) :
    clusterRuns runs ≠ [] := by
  unfold clusterRuns
  dsimp only
  intro hnil
  have hlen := (sortByLe_perm (fun a b => decide (b.runs ≤ a.runs))
    (((runs.foldl clusterFold []).map (·.2)).map deriveCluster)).length_eq
  rw [hnil] at hlen
  simp only [List.length_nil, List.length_map] at hlen
  cases runs with
  | nil => exact h rfl
  | cons r rest =>
    rw [List.foldl_cons] at hlen
    have hne : rest.foldl clusterFold (clusterFold [] r) ≠ [] :=
      @foldl_preserves (List (String × TaskCluster)) RunLogEventV1 clusterFold
        (fun m => m ≠ []) (fun m r2 _ => clusterFold_ne_nil m r2) rest
        (clusterFold [] r) (clusterFold_ne_nil [] r)
    exact hne (List.length_eq_zero.mp hlen.symm)

theorem clusterRuns_envCounts (runs : List RunLogEventV1) :
    ∀ c ∈ clusterRuns runs, c.envCounts ≠ [] := by
  intro c hc
  unfold clusterRuns at hc
  dsimp only at hc
  have hc2 := (sortByLe_perm _ _).mem_iff.mp hc
  obtain ⟨c', hc', rfl⟩ := List.mem_map.mp hc2
  obtain ⟨kv, hkv, rfl⟩ := List.mem_map.mp hc'
  exact foldl_preserves (fun m r hm => clusterFold_envCounts m r hm) runs []
    (fun kv2 h2 => absurd h2 (List.not_mem_nil kv2)) kv hkv

theorem clusterEnvStep_edge_mono (c : TaskCluster) (tid : String) (st : BuildState)
    (kv : String × Nat) {e : GraphEdge} (he : e ∈ st.edges) :
    e ∈ (clusterEnvStep c tid st kv).edges := by
  unfold clusterEnvStep
  dsimp only
  split <;> split <;>
    first
      | exact List.mem_append_left _ (List.mem_append_left _ he)
      | exact List.mem_append_left _ he

theorem clusterEnvStep_route_exists (c : TaskCluster) (tid : String) (st : BuildState)
    (kv : String × Nat) :
    ∃ e ∈ (clusterEnvStep c tid st kv).edges, e.type = EdgeType.ROUTES_TASK_TO := by
  unfold clusterEnvStep
  dsimp only
  split <;> split <;>
    first
      | exact ⟨routeEdgeC tid _ kv.2 c.sig.sigId,
          List.mem_append_left _ (List.mem_append_right _ (List.mem_singleton.mpr rfl)), rfl⟩
      | exact ⟨routeEdgeC tid _ kv.2 c.sig.sigId,
          List.mem_append_right _ (List.mem_singleton.mpr rfl), rfl⟩

theorem clusterTaskStep_route_pres (st : BuildState) (c : TaskCluster)
    (h : ∃ e ∈ st.edges, e.type = EdgeType.ROUTES_TASK_TO) :
    ∃ e ∈ (clusterTaskStep st c).edges, e.type = EdgeType.ROUTES_TASK_TO := by
  unfold clusterTaskStep
  refine @foldl_preserves BuildState (String × Nat) _
    (fun s => ∃ e ∈ s.edges, e.type = EdgeType.ROUTES_TASK_TO)
    (fun s kv hs => ?_) c.envCounts _ h
  obtain ⟨e, he, ht⟩ := hs
  exact ⟨e, clusterEnvStep_edge_mono c _ s kv he, ht⟩

theorem clusterTaskStep_route_est (st : BuildState) (c : TaskCluster)
    (hec : c.envCounts ≠ []) :
    ∃ e ∈ (clusterTaskStep st c).edges, e.type = EdgeType.ROUTES_TASK_TO := by
  obtain ⟨kv0, hkv0⟩ := List.exists_mem_of_ne_nil c.envCounts hec
  unfold clusterTaskStep
  exact @foldl_establishes BuildState (String × Nat)
    (clusterEnvStep c ("task:" ++ c.sig.sigId))
    (fun s => ∃ e ∈ s.edges, e.type = EdgeType.ROUTES_TASK_TO) kv0 c.envCounts
    (fun s => clusterEnvStep_route_exists c ("task:" ++ c.sig.sigId) s kv0)
    (fun s kv hs => by
      obtain ⟨e, he, ht⟩ := hs
      exact ⟨e, clusterEnvStep_edge_mono c ("task:" ++ c.sig.sigId) s kv he, ht⟩)
    hkv0 _

theorem runTaskStep_edge_mono (st : BuildState) (run : RunLogEventV1) {e : GraphEdge}
    (he : e ∈ st.edges) : e ∈ (runTaskStep st run).edges := by
  unfold runTaskStep
  dsimp only
  split <;> split <;>
    first
      | exact List.mem_append_left _ (List.mem_append_left _ he)
      | exact List.mem_append_left _ he

theorem runTaskStep_route_exists (st : BuildState) (run : RunLogEventV1) :
    ∃ e ∈ (runTaskStep st run).edges, e.type = EdgeType.ROUTES_TASK_TO := by
  unfold runTaskStep
  dsimp only
  split <;> split <;>
    first
      | exact ⟨routeEdgeR (taskIdOfRun run) _ run,
          List.mem_append_left _ (List.mem_append_right _ (List.mem_singleton.mpr rfl)), rfl⟩
      | exact ⟨routeEdgeR (taskIdOfRun run) _ run,
          List.mem_append_right _ (List.mem_singleton.mpr rfl), rfl⟩

theorem taskPhase_route (opts : ResolvedOptions) (runs : List RunLogEventV1)
    (st : BuildState) (hmode : opts.taskMode ≠ TaskMode.none) (hruns : runs ≠ []) :
    ∃ e ∈ (taskPhase opts runs st).2.2.2.edges, e.type = EdgeType.ROUTES_TASK_TO := by
  unfold taskPhase
  have hcond : (opts.taskMode != TaskMode.none && decide (runs.length > 0)) = true := by
    rw [Bool.and_eq_true]
    exact ⟨bne_iff_ne.mpr hmode, decide_eq_true (List.length_pos.mpr hruns)⟩
  rw [if_pos hcond]
  dsimp only
  split
  · obtain ⟨c0, hc0⟩ := List.exists_mem_of_ne_nil (clusterRuns runs)
      (clusterRuns_ne_nil runs hruns)
    exact @foldl_establishes BuildState TaskCluster clusterTaskStep
      (fun s => ∃ e ∈ s.edges, e.type = EdgeType.ROUTES_TASK_TO) c0 (clusterRuns runs)
      (fun s => clusterTaskStep_route_est s c0 (clusterRuns_envCounts runs c0 hc0))
      (fun s c hs => clusterTaskStep_route_pres s c hs) hc0 st
  · obtain ⟨r0, hr0⟩ := List.exists_mem_of_ne_nil runs hruns
    exact @foldl_establishes BuildState RunLogEventV1 runTaskStep
      (fun s => ∃ e ∈ s.edges, e.type = EdgeType.ROUTES_TASK_TO) r0 runs
      (fun s => runTaskStep_route_exists s r0)
      (fun s r hs => by
        obtain ⟨e, he, ht⟩ := hs
        exact ⟨e, runTaskStep_edge_mono s r he, ht⟩) hr0 st

/-- C6 (amended): the builder always leaves routing edges resolvable to an
environment node: every `ROUTES_TASK_TO` edge of the rendered graph ends at
the id of a venv-type node (one is synthesized for an unseen path before the
edge is pushed), and whenever runs are present and a task mode is active at
least one `ROUTES_TASK_TO` edge exists — in both clustered and per-run modes.
The synthesized node's health status, however, is `unknown` only in the
clustered branch; the per-run branch copies `run.selected.status`. -/
theorem run_env_node_resolves (reports : List DoctorLiteReport) (runs : List RunLogEventV1)
    (options : MapRenderOptions) (now : String) :
    (∀ e ∈ (mapRender reports runs options now).graph.edges,
        e.type = EdgeType.ROUTES_TASK_TO →
        ∃ n ∈ (mapRender reports runs options now).graph.nodes,
          n.id = e.toId ∧ n.type = NodeType.venv) ∧
    (runs ≠ [] → (resolveOptions options).taskMode ≠ TaskMode.none →
        ∃ e ∈ (mapRender reports runs options now).graph.edges,
          e.type = EdgeType.ROUTES_TASK_TO) := by
  constructor
  · intro e he hre
    rw [mapRender_graph_edges] at he
    rw [mapRender_graph_nodes]
    obtain ⟨s, hts⟩ := (final_cls3 reports runs options now).2.2 e he hre
    obtain ⟨n, hn, hid⟩ := ((finalState_wf reports runs options now) e he).2
    rcases (final_cls3 reports runs options now).1 n hn with ⟨hv, _⟩ | ⟨_, t, ht⟩ | ⟨_, t, ht⟩
    · exact ⟨n, hn, hid, hv⟩
    · exact absurd (show stableId "env" s = stableId "base" t by
        rw [← hts, ← hid, ht]) (env_ne_base s t)
    · exact absurd (show stableId "env" s = "task:" ++ t by
        rw [← hts, ← hid, ht]) (env_ne_taskpfx s t)
  · intro hruns hmode
    rw [mapRender_graph_edges]
    unfold finalState
    exact taskPhase_route (resolveOptions options) runs _ hmode hruns

theorem run_env_node_resolves_witness :
    ((orphanRoute ∈ orphanResult.graph.edges ∧
      orphanRoute.type = EdgeType.ROUTES_TASK_TO ∧
      ∃ n ∈ orphanResult.graph.nodes, n.id = orphanRoute.toId ∧ n.type = NodeType.venv) ∧
     ([demoRun] ≠ ([] : List RunLogEventV1) ∧
      (resolveOptions defaultOptions).taskMode ≠ TaskMode.none ∧
      ∃ e ∈ orphanResult.graph.edges, e.type = EdgeType.ROUTES_TASK_TO)) :=
  ⟨⟨by decide, by decide,
    (run_env_node_resolves [] [demoRun] defaultOptions wNow).1 orphanRoute
      (by decide) (by decide)⟩,
   ⟨by decide, by decide,
    (run_env_node_resolves [] [demoRun] defaultOptions wNow).2 (by decide) (by decide)⟩⟩

theorem run_env_status_counterexample :
    ∃ n ∈ orphanRunsResult.graph.nodes, n.type = NodeType.venv ∧
      (n.health.map fun h => h.status) = some HealthStatus.good := by decide

theorem retime_id (t : String) (n : GraphNode) : (retime t n).id = n.id := by
  unfold retime
  split <;> rfl

theorem retime_type (t : String) (n : GraphNode) : (retime t n).type = n.type := by
  unfold retime
  split <;> rfl

theorem retime_label (t : String) (n : GraphNode) : (retime t n).label = n.label := by
  unfold retime
  split <;> rfl

theorem retime_path (t : String) (n : GraphNode) : (retime t n).path = n.path := by
  unfold retime
  split <;> rfl

theorem retime_python (t : String) (n : GraphNode) : (retime t n).python = n.python := by
  unfold retime
  split <;> rfl

theorem retime_health (t : String) (n : GraphNode) : (retime t n).health = n.health := by
  unfold retime
  split <;> rfl

theorem retime_caps (t : String) (n : GraphNode) : (retime t n).caps = n.caps := by
  unfold retime
  split <;> rfl

theorem retime_fingerprints (t : String) (n : GraphNode) :
    (retime t n).fingerprints = n.fingerprints := by
  unfold retime
  split <;> rfl

theorem filter_retime (t : String) (p : GraphNode → Bool)
    (hp : ∀ n, p (retime t n) = p n) (ns : List GraphNode) :
    (ns.map (retime t)).filter p = (ns.filter p).map (retime t) := by
  rw [List.filter_map]
  congr 1
  exact List.filter_congr fun n _ => hp n

theorem countP_retime (t : String) (p : GraphNode → Bool)
    (hp : ∀ n, p (retime t n) = p n) (ns : List GraphNode) :
    (ns.map (retime t)).countP p = ns.countP p := by
  rw [List.countP_map]
  exact List.countP_congr fun n _ => by rw [Function.comp, hp n]

theorem any_retime (t : String) (p : GraphNode → Bool)
    (hp : ∀ n, p (retime t n) = p n) (ns : List GraphNode) :
    (ns.map (retime t)).any p = ns.any p := by
  induction ns with
  | nil => rfl
  | cons x xs ih => rw [List.map_cons, List.any_cons, List.any_cons, hp x, ih]

theorem find_retime (t : String) (p : GraphNode → Bool)
    (hp : ∀ n, p (retime t n) = p n) (ns : List GraphNode) :
    (ns.map (retime t)).find? p = (ns.find? p).map (retime t) := by
  induction ns with
  | nil => rfl
  | cons x xs ih =>
    rw [List.map_cons, List.find?_cons, List.find?_cons, hp x]
    cases hpx : p x
    · exact ih
    · rfl

theorem hasNodeId_retime (t : String) (ns : List GraphNode) (i : String) :
    hasNodeId (ns.map (retime t)) i = hasNodeId ns i := by
  unfold hasNodeId
  exact any_retime t _ (fun n => by rw [retime_id]) ns

theorem jsMapGetNode_retime (t : String) (ns : List GraphNode) (i : String) :
    jsMapGetNode (ns.map (retime t)) i = (jsMapGetNode ns i).map (retime t) := by
  unfold jsMapGetNode
  rw [← List.map_reverse]
  exact find_retime t _ (fun n => by rw [retime_id]) ns.reverse

theorem summarizeCounts_retime (t : String) (ns : List GraphNode) :
    summarizeCounts (ns.map (retime t)) = summarizeCounts ns := by
  unfold summarizeCounts
  rw [filter_retime t _ (fun n => by rw [retime_type]) ns]
  dsimp only
  rw [countP_retime t _ (fun n => by rw [retime_health]) _]
  rw [countP_retime t _ (fun n => by rw [retime_health]) _]
  rw [countP_retime t _ (fun n => by rw [retime_health]) _]

theorem filterMap_retime {γ : Type*} (t : String) (f : GraphNode → Option γ)
    (hf : ∀ n, f (retime t n) = f n) (ns : List GraphNode) :
    (ns.map (retime t)).filterMap f = ns.filterMap f := by
  induction ns with
  | nil => rfl
  | cons x xs ih => rw [List.map_cons, List.filterMap_cons, List.filterMap_cons, hf x, ih]

theorem isEmpty_map {α β : Type*} (f : α → β) (l : List α) :
    (l.map f).isEmpty = l.isEmpty := by
  cases l <;> rfl

theorem retime_envNodeOf (t : String) (r : DoctorLiteReport) :
    retime t (envNodeOf r) = envNodeOf r := by
  unfold retime
  rw [if_neg (show ¬(envNodeOf r).type = NodeType.base from fun h => NodeType.noConfusion h)]

theorem retime_baseNodeOf (t1 t2 keyNorm baseKey : String) (pyVersion arch : Option String) :
    retime t1 (baseNodeOf t2 keyNorm baseKey pyVersion arch) =
      baseNodeOf t1 keyNorm baseKey pyVersion arch := by
  unfold retime
  rw [if_pos (show (baseNodeOf t2 keyNorm baseKey pyVersion arch).type = NodeType.base from rfl)]
  rfl

theorem retime_synthC (t pyPath envId lastAt : String) :
    retime t (synthEnvNodeC pyPath envId lastAt) = synthEnvNodeC pyPath envId lastAt := by
  unfold retime
  rw [if_neg (show ¬(synthEnvNodeC pyPath envId lastAt).type = NodeType.base from
    fun h => NodeType.noConfusion h)]

theorem retime_synthR (t : String) (run : RunLogEventV1) (envId : String) :
    retime t (synthEnvNodeR run envId) = synthEnvNodeR run envId := by
  unfold retime
  rw [if_neg (show ¬(synthEnvNodeR run envId).type = NodeType.base from
    fun h => NodeType.noConfusion h)]

theorem retime_taskC (t : String) (c : TaskCluster) :
    retime t (taskNodeOfCluster c) = taskNodeOfCluster c := by
  unfold retime
  rw [if_neg (show ¬(taskNodeOfCluster c).type = NodeType.base from
    fun h => NodeType.noConfusion h)]

theorem retime_taskR (t : String) (run : RunLogEventV1) (tid : String) :
    retime t (taskNodeOfRun run tid) = taskNodeOfRun run tid := by
  unfold retime
  rw [if_neg (show ¬(taskNodeOfRun run tid).type = NodeType.base from
    fun h => NodeType.noConfusion h)]

theorem retime_set_health (t : String) (n : GraphNode) (h : n.type = NodeType.base)
    (x : Option NodeHealth) :
    retime t { n with health := x } = { n with health := x, lastSeenAt := some t } := by
  unfold retime
  rw [if_pos (show ({ n with health := x } : GraphNode).type = NodeType.base from h)]

theorem foldl_rel {β α : Type*} (R : β → β → Prop) (f g : β → α → β)
    (h : ∀ s1 s2 a, R s1 s2 → R (f s1 a) (g s2 a)) (l : List α) :
    ∀ s1 s2, R s1 s2 → R (l.foldl f s1) (l.foldl g s2) := by
  induction l with
  | nil =>
    intro s1 s2 hr
    exact hr
  | cons x xs ih =>
    intro s1 s2 hr
    exact ih _ _ (h s1 s2 x hr)

theorem reportStep_retime (t1 t2 : String) (st : BuildState) (r : DoctorLiteReport) :
    reportStep t1 (retimeState t1 st) r = retimeState t1 (reportStep t2 st r) := by
  unfold reportStep getOrCreateBaseNode retimeState
  dsimp only
  split
  · dsimp only
    congr 1
    rw [List.map_append, List.map_cons, List.map_nil, retime_envNodeOf]
  · dsimp only
    congr 1
    rw [List.map_append, List.map_append, List.map_cons, List.map_cons, List.map_nil,
      retime_envNodeOf, retime_baseNodeOf]

theorem pass1_retime (t1 t2 : String) (included : List DoctorLiteReport) :
    pass1 t1 included = retimeState t1 (pass1 t2 included) := by
  unfold pass1
  exact foldl_rel (fun s1 s2 => s1 = retimeState t1 s2) (reportStep t1) (reportStep t2)
    (fun s1 s2 r hr => by rw [hr]; exact reportStep_retime t1 t2 s2 r)
    included emptyState emptyState rfl

theorem rollupNode_retime (t : String) (ns : List GraphNode) (es : List GraphEdge)
    (n : GraphNode) :
    rollupNode (ns.map (retime t)) es (retime t n) = retime t (rollupNode ns es n) := by
  by_cases hb : n.type = NodeType.base
  · have hr : retime t n = { n with lastSeenAt := some t } := by
      unfold retime
      rw [if_pos hb]
    have hbt : (n.type == NodeType.base) = true := by
      rw [hb]
      rfl
    rw [hr]
    unfold rollupNode
    dsimp only
    rw [if_pos hbt, if_pos hbt]
    rw [filter_retime t _ (fun m => by rw [retime_id]) ns]
    rw [isEmpty_map]
    by_cases hem : ((ns.filter fun m =>
        (es.filter fun e => e.type == EdgeType.USES_BASE && e.fromId == n.id).any
          fun e => e.toId == m.id).isEmpty) = true
    · rw [if_pos hem, if_pos hem]
      exact hr.symm
    · rw [if_neg hem, if_neg hem]
      rw [filterMap_retime t _ (fun m => by rw [retime_health]) _]
      rw [any_retime t _ (fun m => by rw [retime_health]) _]
      rw [any_retime t _ (fun m => by rw [retime_health]) _]
      rw [any_retime t _ (fun m => by rw [retime_health]) _]
      rw [retime_set_health t n hb]
  · have hr : retime t n = n := by
      unfold retime
      rw [if_neg hb]
    have hbt : (n.type == NodeType.base) = false := beq_eq_false_iff_ne.mpr hb
    rw [hr]
    unfold rollupNode
    rw [hbt]
    rw [if_neg Bool.false_ne_true, if_neg Bool.false_ne_true]
    exact hr.symm

theorem rollupPass_retime (t : String) (st : BuildState) :
    rollupPass (retimeState t st) = retimeState t (rollupPass st) := by
  unfold rollupPass retimeState
  congr 1
  rw [List.map_map, List.map_map]
  apply List.map_congr_left
  intro n _
  exact rollupNode_retime t st.nodes st.edges n

theorem clusterEnvStep_retime (t : String) (c : TaskCluster) (tid : String)
    (st : BuildState) (kv : String × Nat) :
    clusterEnvStep c tid (retimeState t st) kv = retimeState t (clusterEnvStep c tid st kv) := by
  unfold clusterEnvStep retimeState
  dsimp only
  rw [hasNodeId_retime]
  by_cases hhas : hasNodeId st.nodes ((getA st.envIdByPyPath (normPath kv.1)).getD
      (stableId "env" (normPath kv.1))) = true
  · rw [if_pos hhas, if_pos hhas]
    by_cases hf : (getA c.envFailCounts kv.1).getD 0 > 0
    · rw [if_pos hf, if_pos hf]
    · rw [if_neg hf, if_neg hf]
  · rw [if_neg hhas, if_neg hhas]
    have hnodes : st.nodes.map (retime t) ++ [synthEnvNodeC kv.1
        ((getA st.envIdByPyPath (normPath kv.1)).getD (stableId "env" (normPath kv.1)))
        c.lastAt] = (st.nodes ++ [synthEnvNodeC kv.1
        ((getA st.envIdByPyPath (normPath kv.1)).getD (stableId "env" (normPath kv.1)))
        c.lastAt]).map (retime t) := by
      rw [List.map_append, List.map_cons, List.map_nil, retime_synthC]
    by_cases hf : (getA c.envFailCounts kv.1).getD 0 > 0
    · rw [if_pos hf, if_pos hf]
      dsimp only
      rw [hnodes]
    · rw [if_neg hf, if_neg hf]
      dsimp only
      rw [hnodes]

theorem clusterTaskStep_retime (t : String) (st : BuildState) (c : TaskCluster) :
    clusterTaskStep (retimeState t st) c = retimeState t (clusterTaskStep st c) := by
  unfold clusterTaskStep
  have hinit : ({ retimeState t st with
      nodes := (retimeState t st).nodes ++ [taskNodeOfCluster c] } : BuildState) =
      retimeState t { st with nodes := st.nodes ++ [taskNodeOfCluster c] } := by
    unfold retimeState
    dsimp only
    congr 1
    rw [List.map_append, List.map_cons, List.map_nil, retime_taskC]
  rw [hinit]
  exact foldl_rel (fun s1 s2 => s1 = retimeState t s2)
    (clusterEnvStep c ("task:" ++ c.sig.sigId)) (clusterEnvStep c ("task:" ++ c.sig.sigId))
    (fun s1 s2 kv hr => by rw [hr]; exact clusterEnvStep_retime t c _ s2 kv)
    c.envCounts _ _ rfl

theorem runTaskStep_retime (t : String) (st : BuildState) (run : RunLogEventV1) :
    runTaskStep (retimeState t st) run = retimeState t (runTaskStep st run) := by
  unfold runTaskStep retimeState
  dsimp only
  have htn : st.nodes.map (retime t) ++ [taskNodeOfRun run (taskIdOfRun run)] =
      (st.nodes ++ [taskNodeOfRun run (taskIdOfRun run)]).map (retime t) := by
    rw [List.map_append, List.map_cons, List.map_nil, retime_taskR]
  rw [htn, hasNodeId_retime]
  by_cases hhas : hasNodeId (st.nodes ++ [taskNodeOfRun run (taskIdOfRun run)])
      ((getA st.envIdByPyPath (normPath run.selected.pythonPath)).getD
        (stableId "env" (normPath run.selected.pythonPath))) = true
  · rw [if_pos hhas, if_pos hhas]
    by_cases hf : (!run.outcome.ok) = true
    · rw [if_pos hf, if_pos hf]
    · rw [if_neg hf, if_neg hf]
  · rw [if_neg hhas, if_neg hhas]
    have hsn : (st.nodes ++ [taskNodeOfRun run (taskIdOfRun run)]).map (retime t) ++
        [synthEnvNodeR run ((getA st.envIdByPyPath (normPath run.selected.pythonPath)).getD
          (stableId "env" (normPath run.selected.pythonPath)))] =
        ((st.nodes ++ [taskNodeOfRun run (taskIdOfRun run)]) ++
          [synthEnvNodeR run ((getA st.envIdByPyPath (normPath run.selected.pythonPath)).getD
            (stableId "env" (normPath run.selected.pythonPath)))]).map (retime t) := by
      simp [List.map_append, retime_synthR, retime_taskR]
    by_cases hf : (!run.outcome.ok) = true
    · rw [if_pos hf, if_pos hf]
      dsimp only
      rw [hsn]
    · rw [if_neg hf, if_neg hf]
      dsimp only
      rw [hsn]

theorem taskPhase_retime (t : String) (opts : ResolvedOptions) (runs : List RunLogEventV1)
    (st : BuildState) :
    taskPhase opts runs (retimeState t st) =
      ((taskPhase opts runs st).1, (taskPhase opts runs st).2.1,
        (taskPhase opts runs st).2.2.1, retimeState t (taskPhase opts runs st).2.2.2) := by
  unfold taskPhase
  split
  · split
    · dsimp only
      congr 1
      congr 1
      congr 1
      exact foldl_rel (fun s1 s2 => s1 = retimeState t s2) clusterTaskStep clusterTaskStep
        (fun s1 s2 c hr => by rw [hr]; exact clusterTaskStep_retime t s2 c)
        (clusterRuns runs) _ _ rfl
    · dsimp only
      congr 1
      congr 1
      congr 1
      exact foldl_rel (fun s1 s2 => s1 = retimeState t s2) runTaskStep runTaskStep
        (fun s1 s2 r hr => by rw [hr]; exact runTaskStep_retime t s2 r)
        runs _ _ rfl
  · rfl

theorem map_retime {γ : Type*} (t : String) (f : GraphNode → γ)
    (hf : ∀ n, f (retime t n) = f n) (ns : List GraphNode) :
    (ns.map (retime t)).map f = ns.map f := by
  rw [List.map_map]
  exact List.map_congr_left fun n _ => hf n

theorem flatMap_retime {γ : Type*} (t : String) (f g : GraphNode → List γ)
    (hf : ∀ n, f (retime t n) = g n) (ns : List GraphNode) :
    (ns.map (retime t)).flatMap f = ns.flatMap g := by
  induction ns with
  | nil => rfl
  | cons x xs ih =>
    rw [List.map_cons, List.flatMap_cons, List.flatMap_cons, hf x, ih]

theorem topIssue_retime (t : String) (g : GraphJSONv1) :
    topIssueInsights (retimeGraph t g) = topIssueInsights g := rfl

theorem contagion_retime (t : String) (g : GraphJSONv1) (clusters : List TaskCluster) :
    contagionInsights (retimeGraph t g) clusters = contagionInsights g clusters := rfl

theorem blastChildren_retime (t : String) (g : GraphJSONv1) (base : GraphNode) :
    blastChildren (retimeGraph t g) (retime t base) = (blastChildren g base).map (retime t) := by
  unfold blastChildren retimeGraph
  dsimp only
  rw [retime_id]
  exact filter_retime t _ (fun n => by rw [retime_id]) g.nodes

theorem blastBadCount_retime (t : String) (g : GraphJSONv1) (base : GraphNode) :
    blastBadCount (retimeGraph t g) (retime t base) = blastBadCount g base := by
  unfold blastBadCount
  rw [blastChildren_retime]
  exact countP_retime t _ (fun n => by rw [retime_health]) _

theorem blastForBase_retime (t : String) (g : GraphJSONv1) (base : GraphNode) :
    blastForBase (retimeGraph t g) (retime t base) = blastForBase g base := by
  unfold blastForBase
  dsimp only
  rw [blastChildren_retime, blastBadCount_retime, List.length_map, retime_label, retime_id]

theorem blastRadius_retime (t : String) (g : GraphJSONv1) :
    blastRadiusInsights (retimeGraph t g) = blastRadiusInsights g := by
  unfold blastRadiusInsights
  have hn : (retimeGraph t g).nodes = g.nodes.map (retime t) := rfl
  rw [hn, filter_retime t _ (fun n => by rw [retime_type]) g.nodes, List.filterMap_map]
  have hf : (blastForBase (retimeGraph t g) ∘ retime t) = blastForBase g :=
    funext fun b => blastForBase_retime t g b
  rw [hf]

theorem hotspot_retime (t : String) (g : GraphJSONv1) :
    hotspotInsights (retimeGraph t g) = hotspotInsights g := by
  unfold hotspotInsights
  dsimp only
  congr 1
  funext kv
  by_cases hlt : qLtB kv.2 (mkRat 3 1) = true
  · rw [if_pos hlt, if_pos hlt]
  · rw [if_neg hlt, if_neg hlt]
    have hn : (retimeGraph t g).nodes = g.nodes.map (retime t) := rfl
    rw [hn, find_retime t _ (fun n => by rw [retime_id]) g.nodes]
    cases g.nodes.find? (fun n => n.id == kv.1) with
    | none => rfl
    | some env =>
      dsimp only [Option.map]
      rw [retime_label]

theorem rulesInsights_retime (t : String) (g : GraphJSONv1)
    (reports : List DoctorLiteReport) (clusters : List TaskCluster) :
    rulesInsights (retimeGraph t g) reports clusters = rulesInsights g reports clusters := by
  unfold rulesInsights
  rw [topIssue_retime, blastRadius_retime, hotspot_retime, contagion_retime]

theorem aggregateInsights_retime (t : String) (g : GraphJSONv1)
    (reports : List DoctorLiteReport) (clusters : List TaskCluster) :
    aggregateInsights (retimeGraph t g) reports clusters =
      aggregateInsights g reports clusters := by
  unfold aggregateInsights
  rw [rulesInsights_retime]

theorem mermaidLabel_retime (t : String) (n : GraphNode) :
    mermaidLabel (retime t n) = mermaidLabel n := by
  unfold mermaidLabel
  rw [retime_python, retime_health, retime_caps, retime_label]

theorem mermaidNodeLine_retime (t : String) (n : GraphNode) :
    mermaidNodeLine (retime t n) = mermaidNodeLine n := by
  unfold mermaidNodeLine
  rw [retime_id, mermaidLabel_retime, retime_type, retime_health]

theorem mermaidSubgraphFor_retime (t : String) (ns : List GraphNode)
    (usesBase : List GraphEdge) (base : GraphNode) :
    mermaidSubgraphFor (ns.map (retime t)) usesBase (retime t base) =
      mermaidSubgraphFor ns usesBase base := by
  unfold mermaidSubgraphFor
  dsimp only
  rw [retime_id, retime_label]
  have hatt : ((usesBase.filter fun e => e.fromId == base.id).filterMap
      fun e => jsMapGetNode (ns.map (retime t)) e.toId) =
      ((usesBase.filter fun e => e.fromId == base.id).filterMap
        fun e => jsMapGetNode ns e.toId).map (retime t) := by
    rw [List.map_filterMap]
    congr 1
    funext e
    rw [jsMapGetNode_retime]
  rw [hatt, filter_retime t _ (fun n => by rw [retime_type]) _, List.length_map]
  rw [map_retime t _ (fun v => by rw [retime_id]) _]

theorem mermaidTaskEdgeLine_retime (t : String) (ns : List GraphNode) :
    mermaidTaskEdgeLine (ns.map (retime t)) = mermaidTaskEdgeLine ns := by
  funext e
  unfold mermaidTaskEdgeLine
  rw [hasNodeId_retime, hasNodeId_retime]

theorem renderMermaid_retime (t : String) (g : GraphJSONv1) (opts : MermaidRenderOptions) :
    renderMermaid (retimeGraph t g) opts = renderMermaid g opts := by
  unfold renderMermaid
  dsimp only
  have hn : (retimeGraph t g).nodes = g.nodes.map (retime t) := rfl
  have he : (retimeGraph t g).edges = g.edges := rfl
  rw [hn, he]
  rw [filter_retime t _ (fun n => by rw [retime_type]) g.nodes]
  rw [map_retime t mermaidNodeLine (mermaidNodeLine_retime t) g.nodes]
  rw [List.length_map]
  rw [mermaidTaskEdgeLine_retime]
  by_cases hsub : (opts.includeBaseSubgraphs.getD true &&
      decide ((g.nodes.filter fun n => n.type == NodeType.base).length ≠ 0)) = true
  · rw [if_pos hsub, if_pos hsub]
    rw [flatMap_retime t _ _ (fun b => mermaidSubgraphFor_retime t g.nodes
      (g.edges.filter fun e => e.type == EdgeType.USES_BASE) b) _]
  · rw [if_neg hsub, if_neg hsub]

theorem retimeState_nodes (t : String) (st : BuildState) :
    (retimeState t st).nodes = st.nodes.map (retime t) := rfl

theorem retimeState_edges (t : String) (st : BuildState) :
    (retimeState t st).edges = st.edges := rfl

theorem renderMermaid_congr_retime (t : String) {g1 g2 : GraphJSONv1}
    (h : g1 = retimeGraph t g2) (opts : MermaidRenderOptions) :
    renderMermaid g1 opts = renderMermaid g2 opts := by
  rw [h]
  exact renderMermaid_retime t g2 opts

theorem aggregateInsights_congr_retime (t : String) {g1 g2 : GraphJSONv1}
    (h : g1 = retimeGraph t g2) (reports : List DoctorLiteReport)
    (clusters : List TaskCluster) :
    aggregateInsights g1 reports clusters = aggregateInsights g2 reports clusters := by
  rw [h]
  exact aggregateInsights_retime t g2 reports clusters

theorem buildGraph_retime (t1 t2 : String) (st : BuildState) (p f : Nat)
    (ti : List TopIssue) :
    buildGraph t1 (retimeState t1 st) p f ti = retimeGraph t1 (buildGraph t2 st p f ti) := by
  unfold buildGraph retimeGraph retimeState
  dsimp only
  rw [countP_retime t1 _ (fun n => by rw [retime_type]) _]
  rw [countP_retime t1 _ (fun n => by rw [retime_type]) _]
  rw [countP_retime t1 _ (fun n => by rw [retime_type]) _]
  rw [summarizeCounts_retime]

theorem mapRender_graph_retime (reports : List DoctorLiteReport) (runs : List RunLogEventV1)
    (options : MapRenderOptions) (t1 t2 : String) :
    (mapRender reports runs options t1).graph =
      retimeGraph t1 (mapRender reports runs options t2).graph := by
  unfold mapRender
  dsimp only
  rw [pass1_retime t1 t2, rollupPass_retime, taskPhase_retime]
  dsimp only
  exact buildGraph_retime t1 t2 _ _ _ _

theorem mapRender_insights_retime (reports : List DoctorLiteReport)
    (runs : List RunLogEventV1) (options : MapRenderOptions) (t1 t2 : String) :
    (mapRender reports runs options t1).insights =
      (mapRender reports runs options t2).insights := by
  unfold mapRender
  dsimp only
  rw [pass1_retime t1 t2, rollupPass_retime, taskPhase_retime]
  dsimp only
  rw [buildGraph_retime t1 t2, aggregateInsights_retime]

theorem mapRender_mermaid_retime (reports : List DoctorLiteReport)
    (runs : List RunLogEventV1) (options : MapRenderOptions) (t1 t2 : String) :
    (mapRender reports runs options t1).mermaid =
      (mapRender reports runs options t2).mermaid := by
  unfold mapRender
  dsimp only
  rw [pass1_retime t1 t2, rollupPass_retime, taskPhase_retime]
  dsimp only
  rw [buildGraph_retime t1 t2, renderMermaid_retime]

theorem mapRender_retime (reports : List DoctorLiteReport) (runs : List RunLogEventV1)
    (options : MapRenderOptions) (t1 t2 : String) :
    mapRender reports runs options t1 = retimeResult t1 (mapRender reports runs options t2) := by
  have hg := mapRender_graph_retime reports runs options t1 t2
  have hm := mapRender_mermaid_retime reports runs options t1 t2
  have hi := mapRender_insights_retime reports runs options t1 t2
  calc mapRender reports runs options t1
      = ⟨(mapRender reports runs options t1).graph,
         (mapRender reports runs options t1).mermaid,
         (mapRender reports runs options t1).insights⟩ := rfl
    _ = ⟨retimeGraph t1 (mapRender reports runs options t2).graph,
         (mapRender reports runs options t2).mermaid,
         (mapRender reports runs options t2).insights⟩ := by rw [hg, hm, hi]
    _ = retimeResult t1 (mapRender reports runs options t2) := rfl

/-- C1: `mapRender` is deterministic up to the wall clock: for identical
reports, runs and options, two calls produce identical node-id lists,
identical edge-id lists, the same ranked top-issues list, and the same
task-node id order — whatever the two clock readings are. -/
theorem stable_identities (reports : List DoctorLiteReport) (runs : List RunLogEventV1)
    (options : MapRenderOptions) (t1 t2 : String) :
    idsOf (mapRender reports runs options t1).graph.nodes =
      idsOf (mapRender reports runs options t2).graph.nodes ∧
    (mapRender reports runs options t1).graph.edges.map (fun e => e.id) =
      (mapRender reports runs options t2).graph.edges.map (fun e => e.id) ∧
    (mapRender reports runs options t1).graph.summary.topIssues =
      (mapRender reports runs options t2).graph.summary.topIssues ∧
    idsOf ((mapRender reports runs options t1).graph.nodes.filter fun n =>
        n.type == NodeType.task) =
      idsOf ((mapRender reports runs options t2).graph.nodes.filter fun n =>
        n.type == NodeType.task) := by
  have hg := mapRender_graph_retime reports runs options t1 t2
  refine ⟨?_, ?_, ?_, ?_⟩
  · rw [hg]
    show idsOf ((mapRender reports runs options t2).graph.nodes.map (retime t1)) = _
    unfold idsOf
    exact map_retime t1 _ (fun n => by rw [retime_id]) _
  · rw [hg]
    rfl
  · rw [hg]
    rfl
  · rw [hg]
    show idsOf (((mapRender reports runs options t2).graph.nodes.map (retime t1)).filter
      fun n => n.type == NodeType.task) = _
    rw [filter_retime t1 _ (fun n => by rw [retime_type]) _]
    unfold idsOf
    exact map_retime t1 _ (fun n => by rw [retime_id]) _

/-- C2 (amended): two `mapRender` calls over identical inputs differ only in
the clock-derived fields — but those are the graph's `generatedAt` AND the
base nodes' `lastSeenAt` (also stamped from the clock), not `generatedAt`
alone: overwriting both in one result yields the other exactly. -/
theorem clock_variance_retime (reports : List DoctorLiteReport) (runs : List RunLogEventV1)
    (options : MapRenderOptions) (t1 t2 : String) :
    mapRender reports runs options t1 = retimeResult t1 (mapRender reports runs options t2) :=
  mapRender_retime reports runs options t1 t2

theorem clock_variance_counterexample :
    mapRender [demoReport "/envs/a/bin/python" "/usr" (mkRat 90 1) HealthStatus.good] []
        defaultOptions wNow ≠
      { mapRender [demoReport "/envs/a/bin/python" "/usr" (mkRat 90 1) HealthStatus.good] []
          defaultOptions wNow2 with
        graph := { (mapRender [demoReport "/envs/a/bin/python" "/usr" (mkRat 90 1)
            HealthStatus.good] [] defaultOptions wNow2).graph with
          generatedAt := wNow } } := by
  decide
